import Mathlib

/-!
# GDPico64: EF9365 graphics display processor emulation

A shallow embedding of the drawing core of `gdp.c`, `gdp_line.c`, `gdp_char.c`
and the register file of `par_bus.h`, of the two DMA interrupt handlers and the
command monitor of `gdp.c`, of the scan-code translation of `ps2key.c` and of the
block check of `xmodem_pico.c`, together with theorems about them.

Conventions of the embedding
* `uint8_t` / `uint32_t` values are natural numbers; every store truncates
  (`% 256`, `% 2 ^ 32`) and every register read truncates to a byte.
* `int` values are integers; the drawing code only ever holds values far
  below `2 ^ 31`, except where an `unsigned int` is converted (see `toInt32`).
* C arrays are functions from the index; the pointers `graphmem` and
  `graphmem_write` are word offsets into `graphmem_4p`.
-/

namespace GDPico64

/-! ## Global state -/

/-- The global variables of `gdp.c` and `par_bus.c` that the drawing core
reads or writes. -/
structure GdpState where
  -- Register file: `uint8_t z80_mem[256]`.
  z80_mem : Nat → Nat
  -- Graphics memory: `uint32_t graphmem_4p[16384]`.
  graphmem_4p : Nat → Nat
  -- Word offset in `graphmem_4p` of the page that is shown (`graphmem`).
  graphmem : Nat
  -- Word offset in `graphmem_4p` of the page that is drawn on (`graphmem_write`).
  graphmem_write : Nat
  -- Display list: `uint32_t fulldlist[4096]`.
  fulldlist : Nat → Nat
  -- Current line: `uint32_t line_count`.
  line_count : Nat
  -- Frame flag: `uint8_t vsync_flag`.
  vsync_flag : Nat

/-! ## Register file (`gdp.h`, `par_bus.h`) -/

/-- Register addresses of `gdp.h`. -/
def GDP_BASE : Nat := 0x70
def gdp_status : Nat := GDP_BASE
def gdp_ctrl1 : Nat := GDP_BASE + 1
def gdp_ctrl2 : Nat := GDP_BASE + 2
def gdp_csize : Nat := GDP_BASE + 3
def gdp_deltax : Nat := GDP_BASE + 5
def gdp_deltay : Nat := GDP_BASE + 7
def gdp_xmsb : Nat := GDP_BASE + 8
def gdp_xlsb : Nat := GDP_BASE + 9
def gdp_ymsb : Nat := GDP_BASE + 10
def gdp_ylsb : Nat := GDP_BASE + 11

/-- The function `read_io_reg`: returns `z80_mem[adr]` as a `uint8_t`. -/
def read_io_reg (s : GdpState) (adr : Nat) : Nat :=
  s.z80_mem adr % 256

/-- The function `write_io_reg`: `z80_mem[adr] = data` with `data` a `uint8_t`. -/
def write_io_reg (s : GdpState) (adr data : Nat) : GdpState :=
  { s with z80_mem := fun a => if a = adr then data % 256 else s.z80_mem a }

/-- The function `change_io_reg`: `z80_mem[adr] |= set_bit; z80_mem[adr] &= ~clear_bit`. -/
def change_io_reg (s : GdpState) (adr set_bit clear_bit : Nat) : GdpState :=
  { s with z80_mem := fun a =>
      if a = adr then (((s.z80_mem adr % 256) ||| set_bit) &&& (clear_bit ^^^ 0xFF)) % 256
      else s.z80_mem a }

/-! ## Pixel plotting (`gdp.c`) -/

/-- Word index inside the draw page: `((255-(y & 0xFF)) * 16 + (x >> 5)) & (4096 - 1)`. -/
def pixel_mpos (x y : Nat) : Nat :=
  ((255 - (y &&& 0xFF)) * 16 + (x >>> 5)) &&& (4096 - 1)

/-- Bit index inside the word: `31 - (x & 0x1F)`. -/
def pixel_bpos (x : Nat) : Nat :=
  31 - (x &&& 0x1F)

/-- The store `graphmem_write[mpos] = v` of a `uint32_t`. -/
def graphmem_store (s : GdpState) (mpos v : Nat) : GdpState :=
  { s with graphmem_4p := fun i =>
      if i = s.graphmem_write + mpos then v % 2 ^ 32 else s.graphmem_4p i }

/-- The load `graphmem_write[mpos]`. -/
def graphmem_load (s : GdpState) (mpos : Nat) : Nat :=
  s.graphmem_4p (s.graphmem_write + mpos) % 2 ^ 32

/-- The function `plot_pixel (int x, int y)`.  Inside the range check both coordinates are
non-negative, so the bit operations are taken on their natural-number values. -/
def plot_pixel (s : GdpState) (x y : Int) : GdpState :=
  if 0 ≤ x ∧ x < 512 ∧ 0 ≤ y ∧ y < 256 then
    let mpos := pixel_mpos x.toNat y.toNat
    let bpos := pixel_bpos x.toNat
    let ctrl1 := read_io_reg s gdp_ctrl1
    let s1 :=
      if ctrl1 &&& 0x3 = 0x3 then
        graphmem_store s mpos (graphmem_load s mpos ||| (1 <<< bpos))
      else s
    if ctrl1 &&& 0x3 = 0x1 then
      graphmem_store s1 mpos (graphmem_load s1 mpos &&& ((1 <<< bpos) ^^^ 0xFFFFFFFF))
    else s1
  else s

/-! ## Line drawing (`gdp_line.c`) -/

/-- Conversion of an `unsigned int` argument to the `int` parameter of `plot_pixel`
(two's complement, as on the target). -/
def toInt32 (u : Nat) : Int :=
  if u % 2 ^ 32 < 2 ^ 31 then ((u % 2 ^ 32 : Nat) : Int) else ((u % 2 ^ 32 : Nat) : Int) - 2 ^ 32

/-- The statement `u += sign ? -1 : 1` on an `unsigned int`. -/
def step_u32 (u : Nat) (sign : Bool) : Nat :=
  (u + (if sign then 2 ^ 32 - 1 else 1)) % 2 ^ 32

/-- The 16-bit x cursor `read_io_reg(gdp_xmsb) * 256 + read_io_reg(gdp_xlsb)`. -/
def cursor_x (s : GdpState) : Nat :=
  read_io_reg s gdp_xmsb * 256 + read_io_reg s gdp_xlsb

/-- The 16-bit y cursor `read_io_reg(gdp_ymsb) * 256 + read_io_reg(gdp_ylsb)`. -/
def cursor_y (s : GdpState) : Nat :=
  read_io_reg s gdp_ymsb * 256 + read_io_reg s gdp_ylsb

/-- The first `if` cascade of `draw_line`: `(ef_dx, ef_dy)` from the command or from the
delta registers. -/
def line_ef_base (linecode gdp_dx gdp_dy : Nat) : Nat × Nat :=
  if linecode &&& 0x80 ≠ 0 then
    ((linecode >>> 5) &&& 0x3, (linecode >>> 3) &&& 0x3)
  else if linecode &&& 0x8 ≠ 0 then
    if gdp_dx > gdp_dy then (gdp_dx, gdp_dx) else (gdp_dy, gdp_dy)
  else (gdp_dx, gdp_dy)

/-- The sign flag `x_sign = (linecode & 0x2) ? 1 : 0`. -/
def line_x_sign (linecode : Nat) : Bool := decide (linecode &&& 0x2 ≠ 0)

/-- The sign flag `y_sign = (linecode & 0x4) ? 1 : 0`. -/
def line_y_sign (linecode : Nat) : Bool := decide (linecode &&& 0x4 ≠ 0)

/-- The pair `(ef_dx, ef_dy)` after the `(linecode & 0x1) == 0` block. -/
def line_ef (linecode gdp_dx gdp_dy : Nat) : Nat × Nat :=
  let ef := line_ef_base linecode gdp_dx gdp_dy
  if linecode &&& 0x1 = 0 then
    if line_x_sign linecode = line_y_sign linecode then (ef.1, 0) else (0, ef.2)
  else ef

/-- The variables of `draw_line` that its loop changes. -/
structure LineLoop where
  s : GdpState
  x_ref : Nat
  y_ref : Nat
  var_p : Int

/-- One pass through the body of the `while (i-- > 0)` loop of `draw_line`. -/
def draw_line_body (y_stride x_sign y_sign : Bool) (two_dy two_dy_dx : Int)
    (st : LineLoop) : LineLoop :=
  let x1 := if y_stride then st.x_ref else step_u32 st.x_ref x_sign
  let y1 := if y_stride then step_u32 st.y_ref y_sign else st.y_ref
  let x2 := if st.var_p < 0 then x1 else if y_stride then step_u32 x1 x_sign else x1
  let y2 := if st.var_p < 0 then y1 else if y_stride then y1 else step_u32 y1 y_sign
  let p2 := if st.var_p < 0 then st.var_p + two_dy else st.var_p + two_dy_dx
  { s := plot_pixel st.s (toInt32 x2) (toInt32 y2), x_ref := x2, y_ref := y2, var_p := p2 }

/-- The loop `int i = delta_x; while (i-- > 0) ...`, run `i` times. -/
def draw_line_loop (y_stride x_sign y_sign : Bool) (two_dy two_dy_dx : Int) :
    Nat → LineLoop → LineLoop
  | 0, st => st
  | i + 1, st =>
    draw_line_loop y_stride x_sign y_sign two_dy two_dy_dx i
      (draw_line_body y_stride x_sign y_sign two_dy two_dy_dx st)

/-- The state of the loop variables when the loop of `draw_line` ends. -/
def draw_line_run (s : GdpState) (linecode : Nat) : LineLoop :=
  let x_ref := read_io_reg s gdp_xmsb * 256 + read_io_reg s gdp_xlsb
  let y_ref := read_io_reg s gdp_ymsb * 256 + read_io_reg s gdp_ylsb
  let gdp_dx := read_io_reg s gdp_deltax
  let gdp_dy := read_io_reg s gdp_deltay
  let ef_dx := (line_ef linecode gdp_dx gdp_dy).1
  let ef_dy := (line_ef linecode gdp_dx gdp_dy).2
  let x_sign := line_x_sign linecode
  let y_sign := line_y_sign linecode
  let y_stride := decide (ef_dy > ef_dx)
  let delta_x : Nat := if ef_dy > ef_dx then ef_dy else ef_dx
  let two_dy : Int := if ef_dy > ef_dx then (ef_dx : Int) * 2 else (ef_dy : Int) * 2
  let two_dy_dx : Int :=
    if ef_dy > ef_dx then ((ef_dx : Int) - ef_dy) * 2 else ((ef_dy : Int) - ef_dx) * 2
  let var_p : Int :=
    if ef_dy > ef_dx then 2 * (ef_dx : Int) - ef_dy else 2 * (ef_dy : Int) - ef_dx
  draw_line_loop y_stride x_sign y_sign two_dy two_dy_dx delta_x
    { s := s, x_ref := x_ref, y_ref := y_ref, var_p := var_p }

/-- The function `draw_line (unsigned char linecode)`. -/
def draw_line (s : GdpState) (linecode : Nat) : GdpState :=
  let r := draw_line_run s linecode
  let s1 := write_io_reg r.s gdp_xmsb ((r.x_ref >>> 8) &&& 0xFF)
  let s2 := write_io_reg s1 gdp_xlsb (r.x_ref &&& 0xFF)
  let s3 := write_io_reg s2 gdp_ymsb ((r.y_ref >>> 8) &&& 0xFF)
  write_io_reg s3 gdp_ylsb (r.y_ref &&& 0xFF)

/-- The sign of an axis as the line endpoint law words it: `-1` if the given bit of the
command is set, `+1` otherwise. -/
def claimed_line_sign (c bit : Nat) : Int :=
  if c.testBit bit then -1 else 1

/-- The magnitudes `(ex, ey)` as the line endpoint law words them. -/
def claimed_line_magnitudes (c delta_x delta_y : Nat) : Nat × Nat :=
  let m :=
    if 0x80 ≤ c then ((c >>> 5) &&& 3, (c >>> 3) &&& 3)
    else if c.testBit 3 then (max delta_x delta_y, max delta_x delta_y)
    else (delta_x, delta_y)
  if c.testBit 0 then m
  else if c.testBit 1 = c.testBit 2 then (m.1, 0)
  else (0, m.2)

/-- The effective deltas as the spec words the three policies: the two 2-bit fields of
the command for `c >= 0x80`, the larger delta register for both axes when bit 3 is set,
the delta registers otherwise. -/
def claimed_effective_delta (c delta_x delta_y : Nat) : Nat × Nat :=
  if 0x80 ≤ c then ((c >>> 5) &&& 3, (c >>> 3) &&& 3)
  else if c.testBit 3 then (max delta_x delta_y, max delta_x delta_y)
  else (delta_x, delta_y)

/-! ## Character drawing (`gdp_char.c`) -/

/-- The font table `const unsigned char charset[97][5]`, one row of five column bytes per
glyph. -/
def charset : List (List Nat) :=
  [[0x00, 0x00, 0x00, 0x00, 0x00], [0x00, 0x00, 0x5F, 0x00, 0x00], [0x00, 0x03, 0x00, 0x03, 0x00],
   [0x0A, 0x1F, 0x0A, 0x1F, 0x0A], [0x24, 0x2A, 0x7F, 0x2A, 0x12], [0x23, 0x13, 0x08, 0x64, 0x62],
   [0x36, 0x49, 0x55, 0x22, 0x50], [0x00, 0x00, 0x0B, 0x07, 0x00], [0x00, 0x1C, 0x22, 0x41, 0x00],
   [0x00, 0x41, 0x22, 0x1C, 0x00], [0x2A, 0x1C, 0x7F, 0x1C, 0x2A], [0x08, 0x08, 0x3E, 0x08, 0x08],
   [0x00, 0x00, 0xB0, 0x70, 0x00], [0x08, 0x08, 0x08, 0x08, 0x08], [0x00, 0x60, 0x60, 0x00, 0x00],
   [0x20, 0x10, 0x08, 0x04, 0x02], [0x3E, 0x41, 0x41, 0x3E, 0x00], [0x00, 0x02, 0x7F, 0x00, 0x00],
   [0x62, 0x51, 0x49, 0x49, 0x46], [0x41, 0x41, 0x49, 0x4D, 0x33], [0x0F, 0x08, 0x08, 0x7F, 0x08],
   [0x47, 0x45, 0x45, 0x45, 0x39], [0x3C, 0x4A, 0x49, 0x49, 0x30], [0x61, 0x11, 0x09, 0x05, 0x03],
   [0x36, 0x49, 0x49, 0x49, 0x36], [0x06, 0x49, 0x49, 0x29, 0x1E], [0x00, 0x36, 0x36, 0x00, 0x00],
   [0x00, 0xB6, 0x76, 0x00, 0x00], [0x08, 0x14, 0x22, 0x41, 0x00], [0x14, 0x14, 0x14, 0x14, 0x14],
   [0x00, 0x41, 0x22, 0x14, 0x08], [0x02, 0x01, 0x51, 0x09, 0x06], [0x3E, 0x41, 0x5D, 0x55, 0x5E],
   [0x7E, 0x09, 0x09, 0x09, 0x7E], [0x7F, 0x49, 0x49, 0x49, 0x36], [0x3E, 0x41, 0x41, 0x41, 0x22],
   [0x7F, 0x41, 0x41, 0x41, 0x3E], [0x7F, 0x49, 0x49, 0x49, 0x41], [0x7F, 0x09, 0x09, 0x09, 0x01],
   [0x3E, 0x41, 0x49, 0x49, 0x7A], [0x7F, 0x08, 0x08, 0x08, 0x7F], [0x00, 0x41, 0x7F, 0x41, 0x00],
   [0x20, 0x40, 0x40, 0x40, 0x3F], [0x7F, 0x08, 0x14, 0x22, 0x41], [0x7F, 0x40, 0x40, 0x40, 0x40],
   [0x7F, 0x02, 0x0C, 0x02, 0x7F], [0x7F, 0x02, 0x04, 0x08, 0x7F], [0x3E, 0x41, 0x41, 0x41, 0x3E],
   [0x7F, 0x09, 0x09, 0x09, 0x06], [0x3E, 0x41, 0x51, 0x21, 0x5E], [0x7F, 0x09, 0x19, 0x29, 0x46],
   [0x26, 0x49, 0x49, 0x49, 0x32], [0x01, 0x01, 0x7F, 0x01, 0x01], [0x3F, 0x40, 0x40, 0x40, 0x3F],
   [0x1F, 0x20, 0x40, 0x20, 0x1F], [0x7F, 0x20, 0x18, 0x20, 0x7F], [0x63, 0x14, 0x08, 0x14, 0x63],
   [0x07, 0x08, 0x70, 0x08, 0x07], [0x61, 0x51, 0x49, 0x45, 0x43], [0x00, 0x7F, 0x41, 0x41, 0x00],
   [0x02, 0x04, 0x08, 0x10, 0x20], [0x00, 0x41, 0x41, 0x7F, 0x00], [0x04, 0x02, 0x7F, 0x02, 0x04],
   [0x08, 0x1C, 0x2A, 0x08, 0x08], [0x00, 0x07, 0x0B, 0x00, 0x00], [0x70, 0x54, 0x54, 0x78, 0x40],
   [0x40, 0x7F, 0x44, 0x44, 0x3C], [0x00, 0x38, 0x44, 0x44, 0x48], [0x38, 0x44, 0x44, 0x7F, 0x40],
   [0x00, 0x38, 0x54, 0x54, 0x48], [0x00, 0x08, 0x7C, 0x0A, 0x02], [0x00, 0x98, 0xA4, 0xA4, 0x7C],
   [0x00, 0x7F, 0x04, 0x04, 0x78], [0x00, 0x00, 0x7A, 0x00, 0x00], [0x00, 0x40, 0x80, 0x74, 0x00],
   [0x00, 0x7E, 0x10, 0x28, 0x44], [0x00, 0x02, 0x7E, 0x40, 0x00], [0x7C, 0x04, 0x7C, 0x04, 0x78],
   [0x00, 0x7C, 0x04, 0x04, 0x78], [0x00, 0x38, 0x44, 0x44, 0x38], [0x00, 0xFC, 0x24, 0x24, 0x18],
   [0x18, 0x24, 0x24, 0xFC, 0x80], [0x00, 0x7C, 0x08, 0x04, 0x04], [0x00, 0x48, 0x54, 0x54, 0x24],
   [0x00, 0x04, 0x3E, 0x44, 0x20], [0x3C, 0x40, 0x40, 0x7C, 0x40], [0x0C, 0x30, 0x40, 0x30, 0x0C],
   [0x3C, 0x40, 0x30, 0x40, 0x3C], [0x44, 0x24, 0x38, 0x48, 0x44], [0x00, 0x1C, 0x20, 0xA0, 0xFC],
   [0x40, 0x64, 0x54, 0x4C, 0x04], [0x00, 0x08, 0x36, 0x41, 0x41], [0x00, 0x00, 0x77, 0x00, 0x00],
   [0x00, 0x41, 0x41, 0x36, 0x08], [0x08, 0x08, 0x08, 0x08, 0x38], [0x55, 0x2A, 0x55, 0x2A, 0x55],
   [0xFF, 0xFF, 0xFF, 0xFF, 0xFF]]

/-- The byte `charset[c][i]`. -/
def charset_byte (c i : Nat) : Nat :=
  (charset.getD c []).getD i 0

/-- The font-table index `c = ((a < 0x20u) || (a > 0x80u)) ? 0x0 : (a-0x20u)`. -/
def char_index (a : Nat) : Nat :=
  if a < 0x20 ∨ a > 0x80 then 0x0 else a - 0x20

/-- The variables of `draw_char` that its loops change. -/
structure CharLoop where
  s : GdpState
  x_plot : Int
  y_plot : Int
  pos_buf : Int

/-- One pass through the body of the innermost (`jsi`) loop of `draw_char`. -/
def draw_char_dot (ctrlreg2 ldat j : Nat) (st : CharLoop) : CharLoop :=
  let s1 :=
    if ldat &&& (0x80 >>> j) ≠ 0 then
      if ctrlreg2 &&& 0x8 ≠ 0 then plot_pixel st.s st.y_plot st.x_plot
      else plot_pixel st.s st.x_plot st.y_plot
    else st.s
  let y1 := st.y_plot + 1
  let x1 :=
    if ctrlreg2 &&& 0x4 ≠ 0 then st.x_plot + (if ctrlreg2 &&& 0x8 ≠ 0 then -1 else 1)
    else st.x_plot
  { s := s1, x_plot := x1, y_plot := y1, pos_buf := st.pos_buf }

/-- The loops `for j < 8` and `for jsi < size_y` of `draw_char`. -/
def draw_char_column (ctrlreg2 ldat size_y : Nat) (st : CharLoop) : CharLoop :=
  (List.range 8).foldl
    (fun st1 j => (List.range size_y).foldl (fun st2 _ => draw_char_dot ctrlreg2 ldat j st2) st1)
    st

/-- One pass through the body of the `isi` loop of `draw_char`. -/
def draw_char_strip (ctrlreg2 ldat size_y x_ref y_ref : Nat) (st : CharLoop) : CharLoop :=
  let st1 : CharLoop :=
    { s := st.s, x_plot := st.pos_buf,
      y_plot := if ctrlreg2 &&& 0x8 ≠ 0 then (x_ref : Int) else (y_ref : Int),
      pos_buf := st.pos_buf }
  let st2 := draw_char_column ctrlreg2 ldat size_y st1
  { s := st2.s, x_plot := st2.x_plot, y_plot := st2.y_plot,
    pos_buf := st2.pos_buf + (if ctrlreg2 &&& 0x8 ≠ 0 then -1 else 1) }

/-- The loops `for i < 5` and `for isi < size_x` of `draw_char`, on glyph `c`. -/
def draw_char_glyph (ctrlreg2 c size_x size_y x_ref y_ref : Nat) (st : CharLoop) : CharLoop :=
  (List.range 5).foldl
    (fun st1 i => (List.range size_x).foldl
      (fun st2 _ => draw_char_strip ctrlreg2 (charset_byte c i) size_y x_ref y_ref st2) st1)
    st

/-- The x scale `size_x` of `draw_char`, from the size byte. -/
def char_size_x (siz : Nat) : Nat :=
  if (siz &&& 0xF0) >>> 4 = 0 then 16 else (siz &&& 0xF0) >>> 4

/-- The y scale `size_y` of `draw_char`, from the size byte. -/
def char_size_y (siz : Nat) : Nat :=
  if siz &&& 0xF = 0 then 16 else siz &&& 0xF

/-- The drawing part of `draw_char`: the block guarded by `if (ctrlreg1 & 0x1)`, with
the registers read before it. -/
def draw_char_render (s : GdpState) (a : Nat) : GdpState :=
  let c := char_index a
  let ctrlreg1 := read_io_reg s gdp_ctrl1
  let ctrlreg2 := read_io_reg s gdp_ctrl2
  let siz := read_io_reg s gdp_csize
  let size_x := char_size_x siz
  let size_y := char_size_y siz
  let x_ref := read_io_reg s gdp_xmsb * 256 + read_io_reg s gdp_xlsb
  let y_ref := read_io_reg s gdp_ymsb * 256 + read_io_reg s gdp_ylsb
  let pos_buf : Int := if ctrlreg2 &&& 0x8 ≠ 0 then (y_ref : Int) else (x_ref : Int)
  if ctrlreg1 &&& 0x1 ≠ 0 then
    (draw_char_glyph ctrlreg2 c size_x size_y x_ref y_ref
      { s := s, x_plot := 0, y_plot := 0, pos_buf := pos_buf }).s
  else s

/-- The function `draw_char (unsigned char a)`: the drawing part, then the adjustment of
the position register, computed from the values read at the start. -/
def draw_char (s : GdpState) (a : Nat) : GdpState :=
  let ctrlreg2 := read_io_reg s gdp_ctrl2
  let size_x := char_size_x (read_io_reg s gdp_csize)
  let x_ref := read_io_reg s gdp_xmsb * 256 + read_io_reg s gdp_xlsb
  let y_ref := read_io_reg s gdp_ymsb * 256 + read_io_reg s gdp_ylsb
  let s1 := draw_char_render s a
  if ctrlreg2 &&& 0x8 ≠ 0 then
    let y_new := (y_ref + 6 * size_x) % 2 ^ 32
    let s2 := write_io_reg s1 gdp_ymsb ((y_new >>> 8) &&& 0xFF)
    write_io_reg s2 gdp_ylsb (y_new &&& 0xFF)
  else
    let x_new := (x_ref + 6 * size_x) % 2 ^ 32
    let s2 := write_io_reg s1 gdp_xmsb ((x_new >>> 8) &&& 0xFF)
    write_io_reg s2 gdp_xlsb (x_new &&& 0xFF)

/-- The glyph codes that the loop `for (unsigned char i = 0x20; i < 0x82; ++i)` of
`test_draw_char` passes to `draw_char`. -/
def test_draw_char_codes : List Nat := List.range' 0x20 (0x82 - 0x20)

/-- The function `test_draw_char`: `draw_char (i)` for each of these codes in turn. -/
def test_draw_char (s : GdpState) : GdpState :=
  test_draw_char_codes.foldl draw_char s

/-- The x scale as the cursor-advance law words it: the high nibble of the size byte,
with 0 meaning 16. -/
def claimed_x_scale (siz : Nat) : Nat :=
  if siz / 16 = 0 then 16 else siz / 16

/-! ## Sync patterns and the display list (`gdp.c`) -/

/-- The macro `COMPDARK(sig,dur,next)`:
`((uint32_t)(1-sig) << 15) | ((uint32_t)(dur)<<5) | (uint32_t)(next)`. -/
def COMPDARK (sig dur next : Nat) : Nat :=
  ((((1 - (sig : Int)) % 2 ^ 32).toNat <<< 15) % 2 ^ 32) ||| ((dur % 2 ^ 32) <<< 5) % 2 ^ 32
    ||| (next % 2 ^ 32)

def PIO_JMP_START_DATA : Nat := 14
def PIO_JMP_NO_DATA : Nat := 15

/-- A line pattern `COMPDARK(..) * 65536 + COMPDARK(..)` in `uint32_t` arithmetic. -/
def sync_word (hi lo : Nat) : Nat := (hi * 65536 + lo) % 2 ^ 32

def vert_sync : Nat :=
  sync_word (COMPDARK 1 413 PIO_JMP_NO_DATA) (COMPDARK 0 29 PIO_JMP_NO_DATA)

def equalize_sync : Nat :=
  sync_word (COMPDARK 1 29 PIO_JMP_NO_DATA) (COMPDARK 0 413 PIO_JMP_NO_DATA)

def equalize_emt : Nat :=
  sync_word (COMPDARK 0 29 PIO_JMP_NO_DATA) (COMPDARK 0 413 PIO_JMP_NO_DATA)

def line_sync_bl : List Nat :=
  [sync_word (COMPDARK 1 61 PIO_JMP_NO_DATA) (COMPDARK 0 189 PIO_JMP_NO_DATA),
   sync_word (COMPDARK 0 317 PIO_JMP_NO_DATA) (COMPDARK 0 317 PIO_JMP_NO_DATA)]

def line_sync_dt : List Nat :=
  [sync_word (COMPDARK 1 61 PIO_JMP_NO_DATA) (COMPDARK 0 189 PIO_JMP_NO_DATA),
   sync_word (COMPDARK 0 317 PIO_JMP_START_DATA) (COMPDARK 0 317 PIO_JMP_NO_DATA)]

def vga_vert_sync : Nat :=
  sync_word (COMPDARK 0 93 PIO_JMP_NO_DATA) (COMPDARK 1 704 PIO_JMP_NO_DATA)

def vga_line_sync_bl : List Nat :=
  [sync_word (COMPDARK 1 93 PIO_JMP_NO_DATA) (COMPDARK 0 45 PIO_JMP_NO_DATA),
   sync_word (COMPDARK 0 637 PIO_JMP_NO_DATA) (COMPDARK 0 13 PIO_JMP_NO_DATA)]

def vga_line_sync_dt : List Nat :=
  [sync_word (COMPDARK 1 93 PIO_JMP_NO_DATA) (COMPDARK 0 45 PIO_JMP_NO_DATA),
   sync_word (COMPDARK 0 636 PIO_JMP_START_DATA) (COMPDARK 0 13 PIO_JMP_NO_DATA)]

def hd_vert_sync : Nat :=
  sync_word (COMPDARK 0 8 PIO_JMP_NO_DATA) (COMPDARK 1 536 PIO_JMP_NO_DATA)

def hd_line_sync_bl : List Nat :=
  [sync_word (COMPDARK 1 8 PIO_JMP_NO_DATA) (COMPDARK 0 19 PIO_JMP_NO_DATA),
   sync_word (COMPDARK 0 477 PIO_JMP_NO_DATA) (COMPDARK 0 34 PIO_JMP_NO_DATA)]

def hd_line_sync_dt : List Nat :=
  [sync_word (COMPDARK 1 8 PIO_JMP_NO_DATA) (COMPDARK 0 67 PIO_JMP_NO_DATA),
   sync_word (COMPDARK 0 380 PIO_JMP_START_DATA) (COMPDARK 0 82 PIO_JMP_NO_DATA)]

/-- The arguments `(sig, dur, next)` of the two `COMPDARK` calls (first the one that is
multiplied by 65536) of every line pattern word of `gdp.c`, in the order of the source:
`vert_sync`, `equalize_sync`, `equalize_emt`, `line_sync_bl`, `line_sync_dt` (legacy),
`vga_vert_sync`, `vga_line_sync_bl`, `vga_line_sync_dt`, `hd_vert_sync`,
`hd_line_sync_bl`, `hd_line_sync_dt`. -/
def sync_pattern_args : List ((Nat × Nat × Nat) × (Nat × Nat × Nat)) :=
  [((1, 413, PIO_JMP_NO_DATA), (0, 29, PIO_JMP_NO_DATA)),
   ((1, 29, PIO_JMP_NO_DATA), (0, 413, PIO_JMP_NO_DATA)),
   ((0, 29, PIO_JMP_NO_DATA), (0, 413, PIO_JMP_NO_DATA)),
   ((1, 61, PIO_JMP_NO_DATA), (0, 189, PIO_JMP_NO_DATA)),
   ((0, 317, PIO_JMP_NO_DATA), (0, 317, PIO_JMP_NO_DATA)),
   ((1, 61, PIO_JMP_NO_DATA), (0, 189, PIO_JMP_NO_DATA)),
   ((0, 317, PIO_JMP_START_DATA), (0, 317, PIO_JMP_NO_DATA)),
   ((0, 93, PIO_JMP_NO_DATA), (1, 704, PIO_JMP_NO_DATA)),
   ((1, 93, PIO_JMP_NO_DATA), (0, 45, PIO_JMP_NO_DATA)),
   ((0, 637, PIO_JMP_NO_DATA), (0, 13, PIO_JMP_NO_DATA)),
   ((1, 93, PIO_JMP_NO_DATA), (0, 45, PIO_JMP_NO_DATA)),
   ((0, 636, PIO_JMP_START_DATA), (0, 13, PIO_JMP_NO_DATA)),
   ((0, 8, PIO_JMP_NO_DATA), (1, 536, PIO_JMP_NO_DATA)),
   ((1, 8, PIO_JMP_NO_DATA), (0, 19, PIO_JMP_NO_DATA)),
   ((0, 477, PIO_JMP_NO_DATA), (0, 34, PIO_JMP_NO_DATA)),
   ((1, 8, PIO_JMP_NO_DATA), (0, 67, PIO_JMP_NO_DATA)),
   ((0, 380, PIO_JMP_START_DATA), (0, 82, PIO_JMP_NO_DATA))]

/-- The line pattern words of `gdp.c`, in the same order. -/
def sync_pattern_words : List Nat :=
  [vert_sync, equalize_sync, equalize_emt] ++ line_sync_bl ++ line_sync_dt
    ++ [vga_vert_sync] ++ vga_line_sync_bl ++ vga_line_sync_dt
    ++ [hd_vert_sync] ++ hd_line_sync_bl ++ hd_line_sync_dt

/-- The pulse descriptor packed from a triple `(sig, dur, next)`. -/
def pack_descriptor (d : Nat × Nat × Nat) : Nat := COMPDARK d.1 d.2.1 d.2.2

/-- A triple `(sig, dur, next)` is in the range of the descriptor fields: one bit, ten
bits, five bits. -/
def ValidDescriptor (d : Nat × Nat × Nat) : Prop := d.1 ≤ 1 ∧ d.2.1 < 1024 ∧ d.2.2 < 32

/-- The record `struct displist_s`: `lsync` is the memory the pointer refers to (one word
for `&vert_sync`, two for a `line_sync` array), `len` the index of the last word to emit,
`count` the number of repetitions. -/
structure displist where
  lsync : List Nat
  len : Nat
  count : Nat

/-- The table `displist non_interlace[7]`. -/
def non_interlace : List displist :=
  [⟨[vert_sync], 0, 5⟩, ⟨[equalize_sync], 0, 6⟩, ⟨[equalize_emt], 0, 1⟩,
   ⟨line_sync_bl, 1, 38⟩, ⟨line_sync_dt, 1, 256⟩, ⟨line_sync_bl, 1, 9⟩,
   ⟨[equalize_sync], 0, 6⟩]

/-- The table `displist vga_standard[4]`. -/
def vga_standard : List displist :=
  [⟨vga_line_sync_bl, 1, 11⟩, ⟨[vga_vert_sync], 0, 2⟩, ⟨vga_line_sync_bl, 1, 31⟩,
   ⟨vga_line_sync_dt, 1, 480⟩]

/-- The table `displist hd_standard[4]`. -/
def hd_standard : List displist :=
  [⟨[hd_vert_sync], 0, 5⟩, ⟨hd_line_sync_bl, 1, 56⟩, ⟨hd_line_sync_dt, 1, 1024⟩,
   ⟨hd_line_sync_bl, 1, 40⟩]

/-- The local variables of `calc_fulldlist` together with the array `fulldlist`. -/
structure CalcLoop where
  lpat_count : Nat
  lcount : Nat
  line_sync : List Nat
  hlcount : Nat
  bfin : Bool
  indx : Nat
  fulldlist : Nat → Nat

/-- One pass through the body of the `while (!bfin)` loop of `calc_fulldlist`.  Reading
behind the memory a pointer refers to, reading behind the table and writing behind the
4096 words of `fulldlist` have no defined result: `none`. -/
def calc_fulldlist_body (dlist : List displist) (st : CalcLoop) : Option CalcLoop :=
  if 4096 ≤ st.indx then none
  else
    match st.line_sync[st.hlcount]?, dlist[st.lpat_count]? with
    | some w, some d =>
      let fl : Nat → Nat := fun i => if i = st.indx then w else st.fulldlist i
      let indx := st.indx + 1
      let hlcount := (st.hlcount + 1) % 2 ^ 32
      if hlcount > d.len then
        let lcount := (st.lcount + 1) % 2 ^ 32
        if lcount ≥ d.count then
          let lpat := st.lpat_count + 1
          let lpat1 := if lpat > 3 then 0 else lpat
          let bfin1 := if lpat > 3 then true else st.bfin
          match dlist[lpat1]? with
          | some d1 =>
            some { lpat_count := lpat1, lcount := 0, line_sync := d1.lsync, hlcount := 0,
                   bfin := bfin1, indx := indx, fulldlist := fl }
          | none => none
        else
          some { lpat_count := st.lpat_count, lcount := lcount, line_sync := st.line_sync,
                 hlcount := 0, bfin := st.bfin, indx := indx, fulldlist := fl }
      else
        some { lpat_count := st.lpat_count, lcount := st.lcount, line_sync := st.line_sync,
               hlcount := hlcount, bfin := st.bfin, indx := indx, fulldlist := fl }
    | _, _ => none

/-- The loop `while (!bfin)` of `calc_fulldlist`, with a bound on the number of passes:
`none` when the bound is used up before `bfin` is set. -/
def calc_fulldlist_loop (dlist : List displist) : Nat → CalcLoop → Option CalcLoop
  | 0, st => if st.bfin then some st else none
  | fuel + 1, st =>
    if st.bfin then some st
    else
      match calc_fulldlist_body dlist st with
      | some st1 => calc_fulldlist_loop dlist fuel st1
      | none => none

/-- The local variables of `calc_fulldlist` when its loop has ended. -/
def calc_fulldlist_run (s : GdpState) (dlist : List displist) (fuel : Nat) :
    Option CalcLoop :=
  match dlist[0]? with
  | some d0 =>
    calc_fulldlist_loop dlist fuel
      { lpat_count := 0, lcount := 0, line_sync := d0.lsync, hlcount := 0, bfin := false,
        indx := 0, fulldlist := s.fulldlist }
  | none => none

/-- The function `calc_fulldlist (displist *dlist)`. -/
def calc_fulldlist (s : GdpState) (dlist : List displist) (fuel : Nat) : Option GdpState :=
  match calc_fulldlist_run s dlist fuel with
  | some r => some { s with fulldlist := r.fulldlist, line_count := 0 }
  | none => none

/-- The words a block refers to: `lsync[0 .. len]`. -/
def block_words (d : displist) : List Nat := d.lsync.take (d.len + 1)

/-- The list `ws` repeated `n` times. -/
def repeat_words (ws : List Nat) : Nat → List Nat
  | 0 => []
  | n + 1 => ws ++ repeat_words ws n

/-- The concatenation, in block order, of the words of each block repeated `count`
times. -/
def flatten_blocks : List displist → List Nat
  | [] => []
  | d :: ds => repeat_words (block_words d) d.count ++ flatten_blocks ds

/-- The sum over the blocks of (words per block x repeat count), words per block being
the stored `len` field + 1. -/
def blocks_size : List displist → Nat
  | [] => 0
  | d :: ds => (d.len + 1) * d.count + blocks_size ds

/-- The words that the loop of `calc_fulldlist` still has to emit in state `st`. -/
def calc_remaining (dlist : List displist) (st : CalcLoop) : List Nat :=
  match dlist[st.lpat_count]? with
  | some d =>
    (block_words d).drop st.hlcount ++ repeat_words (block_words d) (d.count - (st.lcount + 1))
      ++ flatten_blocks ((dlist.take 4).drop (st.lpat_count + 1))
  | none => []

/-- The array `f` after the words `ws` have been stored from index `start` on. -/
def write_words (f : Nat → Nat) (start : Nat) (ws : List Nat) : Nat → Nat :=
  fun i => if start ≤ i then (ws[i - start]?).getD (f i) else f i

/-- The loop invariant of `calc_fulldlist`. -/
def CalcInv (dlist : List displist) (st : CalcLoop) : Prop :=
  st.bfin = false ∧ st.lpat_count < 4 ∧
  ∃ d, dlist[st.lpat_count]? = some d ∧ st.line_sync = d.lsync ∧ st.hlcount ≤ d.len ∧
    st.lcount < d.count

/-- The first four blocks of a table are well formed: the pointer refers to at least
`len + 1` words, the repeat count is at least 1, and both fields are `uint32_t` values. -/
def ValidBlocks (dlist : List displist) : Prop :=
  4 ≤ dlist.length ∧
  ∀ d ∈ dlist.take 4, d.len < d.lsync.length ∧ 1 ≤ d.count ∧ d.len + 1 < 2 ^ 32 ∧
    d.count < 2 ^ 32

/-! ## Command interpreter and page selection (`gdp.c`) -/

/-- The call `memset (graphmem_write, 0, 16384)`: 16384 bytes are the 4096 words of the
draw page. -/
def clear_draw_page (s : GdpState) : GdpState :=
  { s with graphmem_4p := fun i =>
      if s.graphmem_write ≤ i ∧ i < s.graphmem_write + 4096 then 0 else s.graphmem_4p i }

/-- The four statements `write_io_reg (gdp_xmsb, 0); ... write_io_reg (gdp_ylsb, 0);`. -/
def zero_cursor (s : GdpState) : GdpState :=
  write_io_reg (write_io_reg (write_io_reg (write_io_reg s gdp_xmsb 0) gdp_xlsb 0) gdp_ymsb 0)
    gdp_ylsb 0

/-- The three statements of `case 0x7` before it falls through. -/
def reset_control (s : GdpState) : GdpState :=
  write_io_reg (write_io_reg (write_io_reg s gdp_ctrl1 0) gdp_ctrl2 0) gdp_csize 0x11

/-- The function `gdp_proc_command (unsigned char gdp_cmd)`; the cases 0x7, 0x6 and 0x4 of
the switch fall through into each other. -/
def gdp_proc_command (s : GdpState) (gdp_cmd : Nat) : GdpState :=
  if gdp_cmd < 0x10 then
    match gdp_cmd with
    | 0x0 => change_io_reg s gdp_ctrl1 0x2 0
    | 0x1 => change_io_reg s gdp_ctrl1 0 0x2
    | 0x2 => change_io_reg s gdp_ctrl1 0x1 0
    | 0x3 => change_io_reg s gdp_ctrl1 0 0x1
    | 0x7 => clear_draw_page (zero_cursor (reset_control s))
    | 0x6 => clear_draw_page (zero_cursor s)
    | 0x4 => clear_draw_page s
    | 0x5 => zero_cursor s
    | 0xA => draw_char s 128
    | _ => s
  else if gdp_cmd ≥ 0x20 then
    if gdp_cmd < 0x80 then draw_char s gdp_cmd else draw_line s gdp_cmd
  else draw_line s gdp_cmd

/-- The function `gdp_set_pages (unsigned int r_page, unsigned int w_page)`:
`graphmem = &(graphmem_4p[4096*r_page]); graphmem_write = &(graphmem_4p[4096*w_page]);`. -/
def gdp_set_pages (s : GdpState) (r_page w_page : Nat) : GdpState :=
  { s with graphmem := 4096 * r_page, graphmem_write := 4096 * w_page }

/-- One pass through the loop of `gdp_page_monitor`: `received` is the entry that
`xQueueReceive` delivered, if any, and `old_vsync` the local variable of that name; the
result is the new state and the new `old_vsync`. -/
def gdp_page_monitor_pass (s : GdpState) (old_vsync : Nat) (received : Option Nat) :
    GdpState × Nat :=
  let s1 :=
    match received with
    | some fifo_cmd =>
      let reg := (fifo_cmd >>> 8) &&& 0xFF
      if reg = 0x60 then
        let data := fifo_cmd &&& 0xFF
        gdp_set_pages s ((data >>> 4) &&& 0x3) ((data >>> 6) &&& 0x3)
      else s
    | none => s
  if s1.vsync_flag % 256 ≠ old_vsync then
    if s1.vsync_flag % 256 ≠ 0 then (change_io_reg s1 0x70 0x2 0, s1.vsync_flag % 256)
    else (change_io_reg s1 0x70 0 0x2, s1.vsync_flag % 256)
  else (s1, old_vsync)

/-! ## Predicates and concrete states used by the theorems -/

/-- Everything except the contents of the graphics memory is the same in `s` and `t`:
the register file, both page pointers, the display list, the line counter and
the frame flag. -/
def SameRegs (s t : GdpState) : Prop :=
  t.z80_mem = s.z80_mem ∧ t.graphmem = s.graphmem ∧ t.graphmem_write = s.graphmem_write ∧
  t.fulldlist = s.fulldlist ∧ t.line_count = s.line_count ∧ t.vsync_flag = s.vsync_flag

/-- The frame of every drawing operation: nothing but words of the draw page changes. -/
def DrawFrame (s t : GdpState) : Prop :=
  SameRegs s t ∧
  ∀ i : Nat, ¬ (s.graphmem_write ≤ i ∧ i < s.graphmem_write + 4096) →
    t.graphmem_4p i = s.graphmem_4p i

/-- Nothing outside the draw page changes, and the draw page stays selected. -/
def PageFrame (s t : GdpState) : Prop :=
  t.graphmem_write = s.graphmem_write ∧
  ∀ i : Nat, ¬ (s.graphmem_write ≤ i ∧ i < s.graphmem_write + 4096) →
    t.graphmem_4p i = s.graphmem_4p i

/-- Pixel `(x, y)` of the draw page reads as set. -/
def pixel_set (s : GdpState) (x y : Nat) : Bool :=
  Nat.testBit (s.graphmem_4p (s.graphmem_write + pixel_mpos x y)) (pixel_bpos x)

/-- Between `s` and `t` no pixel of the draw page outside row `y0` differs. -/
def OnlyRow (s t : GdpState) (y0 : Nat) : Prop :=
  ∀ x y : Nat, x < 512 → y < 256 → y ≠ y0 → pixel_set t x y = pixel_set s x y

/-- Between `s` and `t` no pixel of the draw page outside column `x0` differs. -/
def OnlyColumn (s t : GdpState) (x0 : Nat) : Prop :=
  ∀ x y : Nat, x < 512 → y < 256 → x ≠ x0 → pixel_set t x y = pixel_set s x y

/-- A short table of four blocks (9 words when flattened), built from the VGA patterns. -/
def demo_dlist : List displist :=
  [⟨[vga_vert_sync], 0, 2⟩, ⟨vga_line_sync_bl, 1, 1⟩, ⟨[vga_vert_sync], 0, 1⟩,
   ⟨vga_line_sync_dt, 1, 2⟩]

/-- A concrete state: all pages zero, pages 0/0 selected, control1 = 3 (pen down, draw),
char size 0x11, delta-x = 0x10, delta-y = 0, cursor (100,100). -/
def line_demo_state : GdpState where
  z80_mem := fun a =>
    if a = 0x71 then 3 else if a = 0x73 then 0x11 else if a = 0x75 then 0x10
    else if a = 0x79 then 100 else if a = 0x7B then 100 else 0
  graphmem_4p := fun _ => 0
  graphmem := 0
  graphmem_write := 0
  fulldlist := fun _ => 0
  line_count := 0
  vsync_flag := 0

/-! ## Interrupt handlers and monitor task of the video pipeline (`gdp.c`) -/

/-- The two buffers for colour translation, `line_buf0` and `line_buf1`. -/
inductive LineBuf where
  | line_buf0
  | line_buf1
  deriving DecidableEq

/-- The registers of the DMA controller that the two handlers write. -/
structure DmaState where
  -- Read address of `dma_channel_0`, as a word offset into `fulldlist`.
  ch0_read_addr : Nat
  -- Number of times `dma_channel_0` has been triggered.
  ch0_triggers : Nat
  -- Read address of `dma_channel_1`: one of the two line buffers.
  ch1_read_addr : LineBuf
  -- Number of times `dma_channel_1` has been triggered.
  ch1_triggers : Nat
  -- Read address of `dma_lut_channel_0`, as a word offset into `graphmem_4p`.
  lut0_read_addr : Nat
  -- Transfer count of `dma_lut_channel_0`, in words.
  lut0_count : Nat
  -- Write address of `dma_lut_channel_2`: one of the two line buffers.
  lut2_write_addr : LineBuf
  -- Number of times `dma_lut_channel_0` has been started.
  lut0_starts : Nat
  -- Number of writes of the channel bit to `dma_hw->ints0`.
  ints0_acks : Nat
  -- Number of writes of the channel bit to `dma_hw->ints1`.
  ints1_acks : Nat

/-- The state the handlers work on: the globals of `gdp.c` and the DMA registers. -/
structure VideoState where
  gdp : GdpState
  dma : DmaState

/-- The function `gdp_sync_dma_handler`. -/
def gdp_sync_dma_handler (v : VideoState) : VideoState :=
  { gdp := { v.gdp with line_count := 0, vsync_flag := 0x1 },
    dma := { v.dma with ch0_read_addr := 0, ch0_triggers := v.dma.ch0_triggers + 1,
                        ints0_acks := v.dma.ints0_acks + 1 } }

/-- The value of `line_count` after `++line_count; if (line_count > 1023) line_count = 0;`. -/
def next_line_count (line_count : Nat) : Nat :=
  if (line_count + 1) % 2 ^ 32 > 1023 then 0 else (line_count + 1) % 2 ^ 32

/-- The function `gdp_data_dma_handler`. -/
def gdp_data_dma_handler (v : VideoState) : VideoState :=
  let line_count := next_line_count v.gdp.line_count
  let d1 : DmaState :=
    if line_count &&& 0x4 ≠ 0 then
      { v.dma with ch1_read_addr := LineBuf.line_buf0, ch1_triggers := v.dma.ch1_triggers + 1 }
    else
      { v.dma with ch1_read_addr := LineBuf.line_buf1, ch1_triggers := v.dma.ch1_triggers + 1 }
  let d2 : DmaState :=
    if line_count &&& 0x3 = 0 then
      let src := v.gdp.graphmem + ((((line_count >>> 2) + 1) &&& 0xFF) <<< 4)
      let dst := if line_count &&& 0x4 ≠ 0 then LineBuf.line_buf1 else LineBuf.line_buf0
      { d1 with lut0_read_addr := src, lut0_count := 16, lut2_write_addr := dst,
                lut0_starts := d1.lut0_starts + 1 }
    else d1
  { gdp := { v.gdp with line_count := line_count, vsync_flag := 0 },
    dma := { d2 with ints1_acks := d2.ints1_acks + 1 } }

/-- An invocation of one of the two handlers. -/
inductive Handler where
  | sync
  | data

/-- The state after the handlers of the list have run one after the other. -/
def run_handlers (hs : List Handler) (v : VideoState) : VideoState :=
  hs.foldl (fun w h =>
    match h with
    | Handler.sync => gdp_sync_dma_handler w
    | Handler.data => gdp_data_dma_handler w) v

/-- The row of the display page each line buffer was last refilled from (`none`: not
refilled yet). -/
structure BufRows where
  line_buf0 : Option Nat
  line_buf1 : Option Nat

/-- The row recorded for a line buffer. -/
def BufRows.row (r : BufRows) (b : LineBuf) : Option Nat :=
  match b with
  | LineBuf.line_buf0 => r.line_buf0
  | LineBuf.line_buf1 => r.line_buf1

/-- The rows after one handler invocation that led from `v` to `w`: when the lookup
transfer was started, its destination buffer now holds the row (16 words) that its source
address points at. -/
def rows_after (v w : VideoState) (r : BufRows) : BufRows :=
  if w.dma.lut0_starts = v.dma.lut0_starts then r
  else
    match w.dma.lut2_write_addr with
    | LineBuf.line_buf0 =>
      { r with line_buf0 := some ((w.dma.lut0_read_addr - w.gdp.graphmem) / 16) }
    | LineBuf.line_buf1 =>
      { r with line_buf1 := some ((w.dma.lut0_read_addr - w.gdp.graphmem) / 16) }

/-- An uninterrupted run of `k` invocations of `gdp_data_dma_handler`, with the rows the
line buffers hold. -/
def data_run : Nat → VideoState × BufRows → VideoState × BufRows
  | 0, x => x
  | k + 1, x =>
    let y := data_run k x
    (gdp_data_dma_handler y.1, rows_after y.1 (gdp_data_dma_handler y.1) y.2)

/-- One pass through the loop of `gdp_proc_monitor`: `received` is the entry that
`xQueueReceive` delivered, if any. -/
def gdp_proc_monitor_pass (s : GdpState) (received : Option Nat) : GdpState :=
  match received with
  | some fifo_cmd =>
    let reg := (fifo_cmd >>> 8) &&& 0xFF
    if reg = 0x70 then
      change_io_reg (gdp_proc_command s (fifo_cmd &&& 0xFF)) 0x70 0x4 0
    else s
  | none => s

/-- A concrete video state: `line_demo_state` with all DMA registers zero. -/
def video_demo_state : VideoState where
  gdp := line_demo_state
  dma :=
    { ch0_read_addr := 0, ch0_triggers := 0, ch1_read_addr := LineBuf.line_buf0,
      ch1_triggers := 0, lut0_read_addr := 0, lut0_count := 0,
      lut2_write_addr := LineBuf.line_buf0, lut0_starts := 0, ints0_acks := 0,
      ints1_acks := 0 }

/-! ## PS/2 scan-code translation (`ps2key.c`) -/

/-- The table `lower[]`: ASCII codes by keyboard-code index without shift, 16 elements per
row (`TAB` = 9, `LF` = 10, `BS` = 8, `ESC` = 27, characters by their codes). -/
def lower : List Nat :=
  [0, 0, 0, 0, 0, 0, 0, 0, 0, 0, 0, 0, 0, 9, 96, 0,
   0, 0, 0, 0, 0, 113, 49, 0, 0, 0, 122, 115, 97, 119, 50, 0,
   0, 99, 120, 100, 101, 52, 51, 0, 0, 32, 118, 102, 116, 114, 53, 0,
   0, 110, 98, 104, 103, 121, 54, 0, 0, 0, 109, 106, 117, 55, 56, 0,
   0, 44, 107, 105, 111, 48, 57, 0, 0, 46, 47, 108, 59, 112, 45, 0,
   0, 0, 39, 0, 91, 61, 0, 0, 0, 0, 10, 93, 0, 92, 0, 0,
   0, 0, 0, 0, 0, 0, 8, 0, 0, 0, 0, 0, 0, 0, 0, 0,
   0, 0, 0, 0, 0, 0, 27, 0, 0, 0, 0, 0, 0, 0, 0, 0]

/-- The table `upper[]`: ASCII codes by keyboard-code index with shift. -/
def upper : List Nat :=
  [0, 0, 0, 0, 0, 0, 0, 0, 0, 0, 0, 0, 0, 9, 126, 0,
   0, 0, 0, 0, 0, 81, 33, 0, 0, 0, 90, 83, 65, 87, 64, 0,
   0, 67, 88, 68, 69, 36, 35, 0, 0, 32, 86, 70, 84, 82, 37, 0,
   0, 78, 66, 72, 71, 89, 94, 0, 0, 0, 77, 74, 85, 38, 42, 0,
   0, 60, 75, 73, 79, 41, 40, 0, 0, 62, 63, 76, 58, 80, 95, 0,
   0, 0, 34, 0, 123, 43, 0, 0, 0, 0, 10, 125, 0, 124, 0, 0,
   0, 0, 0, 0, 0, 0, 8, 0, 0, 0, 0, 0, 0, 0, 0, 0,
   0, 0, 0, 0, 0, 0, 27, 0, 0, 0, 0, 0, 0, 0, 0, 0]

/-- The static variables `release`, `shift`, `ascii` of `ps2key.c` and the bytes sent to
the input queue so far. -/
structure Ps2State where
  release : Nat
  shift : Nat
  ascii : Nat
  queue : List Nat
  deriving DecidableEq

/-- The index at which one pass of the loop of `ps2key_irq_handler` reads the table
`lower` or `upper` for the scan code `code`, if it reads one: only the `default` case of
the switch reads a table, when `release` is 0, and the index is the scan code itself. -/
def ps2key_table_index (st : Ps2State) (code : Nat) : Option Nat :=
  let code := code % 256
  if code = 0xF0 then none
  else if code = 0x12 ∨ code = 0x59 then none
  else if st.release = 0 then some code
  else none

/-- The tail of the loop body of `ps2key_irq_handler`:
`if (ascii) { xQueueSendFromISR (...); ascii = 0; }`. -/
def ps2key_send (st : Ps2State) : Ps2State :=
  if st.ascii ≠ 0 then { st with queue := st.queue ++ [st.ascii], ascii := 0 } else st

/-- One pass of the loop of `ps2key_irq_handler` for the scan code `code` pulled from the
FIFO; the result is `none` when the table is read outside its 128 entries. -/
def ps2key_irq_handler_pass (st : Ps2State) (code : Nat) : Option Ps2State :=
  let code := code % 256
  if code = 0xF0 then some (ps2key_send { st with release := 1 })
  else if code = 0x12 ∨ code = 0x59 then
    if st.release ≠ 0 then some (ps2key_send { st with shift := 0, release := 0 })
    else some (ps2key_send { st with shift := 1 })
  else if st.release = 0 then
    match (if st.shift ≠ 0 then upper else lower)[code]? with
    | some a => some (ps2key_send { st with ascii := a, release := 0 })
    | none => none
  else some (ps2key_send { st with release := 0 })

/-! ## XMODEM block integrity (`xmodem_pico.c`) -/

/-- One pass of the loop of `crc_xmodem_update`:
`if (crc & 0x8000) crc = (crc << 1) ^ 0x1021; else crc <<= 1;` on a `uint16_t`. -/
def crc_xmodem_shift (crc : Nat) : Nat :=
  if crc &&& 0x8000 ≠ 0 then ((crc <<< 1) ^^^ 0x1021) % 65536 else (crc <<< 1) % 65536

/-- The function `crc_xmodem_update (uint16_t crc, uint8_t data)`:
`crc = crc ^ ((uint16_t)data << 8);` followed by eight passes of the loop. -/
def crc_xmodem_update (crc data : Nat) : Nat :=
  (List.range 8).foldl (fun c _ => crc_xmodem_shift c)
    (((crc % 65536) ^^^ ((data % 256) <<< 8)) % 65536)

/-- The function `crc16_ccitt (const uint8_t *buf, int sz)`; `buf` gives the byte at each
offset from the pointer. -/
def crc16_ccitt (buf : Nat → Nat) (sz : Nat) : Nat :=
  (List.range sz).foldl (fun crc i => crc_xmodem_update crc (buf i % 256)) 0

/-- The function `check (int crc, const uint8_t *buf, int sz)`. -/
def check (crc : Nat) (buf : Nat → Nat) (sz : Nat) : Nat :=
  if crc ≠ 0 then
    let crc16 := crc16_ccitt buf sz
    let tcrc := (((buf sz % 256) <<< 8) + buf (sz + 1) % 256) % 65536
    if crc16 = tcrc then 1 else 0
  else
    let cks := (List.range sz).foldl (fun cks i => (cks + buf i % 256) % 256) 0
    if cks = buf sz % 256 then 1 else 0

/-- A store of one byte into `xbuff`. -/
def xbuff_store (xbuff : Nat → Nat) (i v : Nat) : Nat → Nat :=
  fun j => if j = i then v % 256 else xbuff j

/-- The statements of `xmodemTransmit` that append the CRC or the checksum to the payload
`xbuff[3 .. bufsz+2]`:
`if (crc) { ccrc = crc16_ccitt(&xbuff[3], bufsz); xbuff[bufsz+3] = (ccrc>>8) & 0xFF;
xbuff[bufsz+4] = ccrc & 0xFF; } else { ccks = 0; for (i = 3; i < bufsz+3; ++i)
ccks += xbuff[i]; xbuff[bufsz+3] = ccks; }`. -/
def xmodemTransmit_trailer (crc : Nat) (xbuff : Nat → Nat) (bufsz : Nat) : Nat → Nat :=
  if crc ≠ 0 then
    let ccrc := crc16_ccitt (fun i => xbuff (3 + i)) bufsz
    xbuff_store (xbuff_store xbuff (bufsz + 3) ((ccrc >>> 8) &&& 0xFF)) (bufsz + 4)
      (ccrc &&& 0xFF)
  else
    let ccks := (List.range' 3 bufsz).foldl (fun cks i => (cks + xbuff i % 256) % 256) 0
    xbuff_store xbuff (bufsz + 3) ccks

/-- The argument `&xbuff[3]` with which `xmodemReceive` calls `check`. -/
def xbuff_payload (xbuff : Nat → Nat) : Nat → Nat :=
  fun i => xbuff (3 + i)

/-- A block buffer holding the payload bytes 1, 2, 3 at offsets 3, 4, 5. -/
def demo_xbuff : Nat → Nat :=
  fun i => if i = 3 then 1 else if i = 4 then 2 else if i = 5 then 3 else 0

/-! ## The calls of `plot_pixel` made by `draw_line` -/

/-- The arguments of the calls `plot_pixel (x_ref, y_ref)` made by `i` passes through the
loop of `draw_line`, in the order of the calls. -/
def draw_line_trace (y_stride x_sign y_sign : Bool) (two_dy two_dy_dx : Int) :
    Nat → LineLoop → List (Int × Int)
  | 0, _ => []
  | i + 1, st =>
    (toInt32 (draw_line_body y_stride x_sign y_sign two_dy two_dy_dx st).x_ref,
     toInt32 (draw_line_body y_stride x_sign y_sign two_dy two_dy_dx st).y_ref)
      :: draw_line_trace y_stride x_sign y_sign two_dy two_dy_dx i
          (draw_line_body y_stride x_sign y_sign two_dy two_dy_dx st)

/-- The arguments of the calls of `plot_pixel` made by `draw_line (linecode)`, in order;
the set-up is that of `draw_line_run`. -/
def draw_line_plots (s : GdpState) (linecode : Nat) : List (Int × Int) :=
  let x_ref := read_io_reg s gdp_xmsb * 256 + read_io_reg s gdp_xlsb
  let y_ref := read_io_reg s gdp_ymsb * 256 + read_io_reg s gdp_ylsb
  let gdp_dx := read_io_reg s gdp_deltax
  let gdp_dy := read_io_reg s gdp_deltay
  let ef_dx := (line_ef linecode gdp_dx gdp_dy).1
  let ef_dy := (line_ef linecode gdp_dx gdp_dy).2
  let x_sign := line_x_sign linecode
  let y_sign := line_y_sign linecode
  let y_stride := decide (ef_dy > ef_dx)
  let delta_x : Nat := if ef_dy > ef_dx then ef_dy else ef_dx
  let two_dy : Int := if ef_dy > ef_dx then (ef_dx : Int) * 2 else (ef_dy : Int) * 2
  let two_dy_dx : Int :=
    if ef_dy > ef_dx then ((ef_dx : Int) - ef_dy) * 2 else ((ef_dy : Int) - ef_dx) * 2
  let var_p : Int :=
    if ef_dy > ef_dx then 2 * (ef_dx : Int) - ef_dy else 2 * (ef_dy : Int) - ef_dx
  draw_line_trace y_stride x_sign y_sign two_dy two_dy_dx delta_x
    { s := s, x_ref := x_ref, y_ref := y_ref, var_p := var_p }

/-- A sequence of calls of `plot_pixel`. -/
def plot_all (s : GdpState) (l : List (Int × Int)) : GdpState :=
  l.foldl (fun t p => plot_pixel t p.1 p.2) s

/-- The minor-axis offset of the k-th point as the Bresenham law words it:
`floor((2*k*d + D) / (2*D))`. -/
def claimed_minor_offset (k d D : Nat) : Nat :=
  (2 * k * d + D) / (2 * D)

/-- The k-th plotted point as the Bresenham law words it: `k` steps along the major axis
and `claimed_minor_offset` steps along the minor axis from the start `(x0, y0)`, each in
the direction of the sign bit of its axis; x is the major axis when `ex >= ey`. -/
def claimed_line_point (x0 y0 c ex ey k : Nat) : Int × Int :=
  let m := claimed_minor_offset k (min ex ey) (max ex ey)
  if ex ≥ ey then
    ((x0 : Int) + claimed_line_sign c 1 * (k : Int),
     (y0 : Int) + claimed_line_sign c 2 * (m : Int))
  else
    ((x0 : Int) + claimed_line_sign c 1 * (m : Int),
     (y0 : Int) + claimed_line_sign c 2 * (k : Int))

/-- A state like `line_demo_state` with delta-x = 5 and delta-y = 3. -/
def slope_demo_state : GdpState :=
  { line_demo_state with z80_mem := fun a =>
      if a = 0x71 then 3 else if a = 0x73 then 0x11 else if a = 0x75 then 5
      else if a = 0x77 then 3 else if a = 0x79 then 100 else if a = 0x7B then 100 else 0 }

/-! ## The calls of `plot_pixel` made by `draw_char` -/

/-- The state `t` is reached from `s` by a sequence of calls of `plot_pixel` whose
arguments are exactly the points that satisfy `P`. -/
def Plots (s t : GdpState) (P : Int × Int → Prop) : Prop :=
  ∃ L : List (Int × Int), t = plot_all s L ∧ ∀ q : Int × Int, q ∈ L ↔ P q

/-- The step `(ctrlreg2 & 0x8) ? -1 : 1` by which `draw_char` moves `pos_buf` after each
strip and, with skew, `x_plot` after each dot. -/
def char_dir (ctrlreg2 : Nat) : Int :=
  if ctrlreg2 &&& 0x8 ≠ 0 then -1 else 1

/-- The change of `x_plot` per dot: `if (ctrlreg2 & 0x4) x_plot += (ctrlreg2 & 0x8) ? -1 : 1`. -/
def char_skew (ctrlreg2 : Nat) : Int :=
  if ctrlreg2 &&& 0x4 ≠ 0 then char_dir ctrlreg2 else 0

/-- The argument pair of the call `plot_pixel (y_plot, x_plot)` (bit 3 of control2 set) or
`plot_pixel (x_plot, y_plot)` of `draw_char`. -/
def char_plot_args (ctrlreg2 : Nat) (x_plot y_plot : Int) : Int × Int :=
  if ctrlreg2 &&& 0x8 ≠ 0 then (y_plot, x_plot) else (x_plot, y_plot)

/-- The point that `draw_char` plots in strip number `p` (counted over all five font
columns) at dot number `t` of the strip, when the font bit is set: `x_plot` starts the
strip at `pos_buf`, which started at `pos0` and has moved `p` times, and moves by the skew
with each dot; `y_plot` starts at `base` and moves by one with each dot. -/
def char_dot_point (ctrlreg2 : Nat) (pos0 base : Int) (p t : Nat) : Int × Int :=
  char_plot_args ctrlreg2
    (pos0 + (p : Int) * char_dir ctrlreg2 + (t : Int) * char_skew ctrlreg2) (base + (t : Int))

/-- The start value of `pos_buf` in `draw_char`: `(ctrlreg2 & 0x8) ? y_ref : x_ref`. -/
def char_pos0 (ctrlreg2 x_ref y_ref : Nat) : Int :=
  if ctrlreg2 &&& 0x8 ≠ 0 then (y_ref : Int) else (x_ref : Int)

/-- The start value of `y_plot` in each strip: `(ctrlreg2 & 0x8) ? x_ref : y_ref`. -/
def char_base (ctrlreg2 x_ref y_ref : Nat) : Int :=
  if ctrlreg2 &&& 0x8 ≠ 0 then (x_ref : Int) else (y_ref : Int)

/-- The points that `draw_char` plots for glyph `c`: one for each font column `i`, copy
`isi` of the column, font row `j` with its bit set in the column byte, and copy `jsi` of
the row. -/
def char_plotted (ctrlreg2 c size_x size_y x_ref y_ref : Nat) (q : Int × Int) : Prop :=
  ∃ i : Nat, i < 5 ∧ ∃ isi : Nat, isi < size_x ∧ ∃ j : Nat, j < 8 ∧ ∃ jsi : Nat, jsi < size_y ∧
    charset_byte c i &&& (0x80 >>> j) ≠ 0 ∧
    q = char_dot_point ctrlreg2 (char_pos0 ctrlreg2 x_ref y_ref) (char_base ctrlreg2 x_ref y_ref)
          (i * size_x + isi) (j * size_y + jsi)

/-- The cell of the character that `draw_char` draws in state `s`: pixel `(x, y)` lies at
strip `p < 5*size_x` and dot `t < 8*size_y`, whatever the glyph. -/
def char_footprint (s : GdpState) (x y : Nat) : Prop :=
  ∃ p : Nat, p < 5 * char_size_x (read_io_reg s gdp_csize) ∧
  ∃ t : Nat, t < 8 * char_size_y (read_io_reg s gdp_csize) ∧
    ((x : Int), (y : Int))
      = char_dot_point (read_io_reg s gdp_ctrl2)
          (char_pos0 (read_io_reg s gdp_ctrl2) (cursor_x s) (cursor_y s))
          (char_base (read_io_reg s gdp_ctrl2) (cursor_x s) (cursor_y s)) p t

/-- Bit `k` of word `i` of the graphics memory shows a pixel of the screen that lies in
the cell of the character drawn in state `s`. -/
def char_modifiable_bit (s : GdpState) (i k : Nat) : Prop :=
  ∃ x : Nat, x < 512 ∧ ∃ y : Nat, y < 256 ∧ char_footprint s x y ∧
    i = s.graphmem_write + pixel_mpos x y ∧ k = pixel_bpos x

/-- The y scale as the glyph law words it: the low nibble of the size byte, with 0
meaning 16. -/
def claimed_y_scale (siz : Nat) : Nat :=
  if siz % 16 = 0 then 16 else siz % 16

/-- The pixels of a glyph as the glyph law words it: pixel `(x, y)` lies in the block of
`sx` by `sy` pixels of a font column `i < 5` and font row `j < 8` whose bit `0x80 >> j` is
set in `charset[g][i]`, the blocks starting at the cursor `(x0, y0)`. -/
def claimed_glyph_pixel (g sx sy x0 y0 x y : Nat) : Prop :=
  ∃ i : Nat, i < 5 ∧ ∃ j : Nat, j < 8 ∧
    x0 + i * sx ≤ x ∧ x < x0 + (i + 1) * sx ∧ y0 + j * sy ≤ y ∧ y < y0 + (j + 1) * sy ∧
    charset_byte g i &&& (0x80 >>> j) ≠ 0

/-- A state like `line_demo_state` with character size 0x21 (x scale 2, y scale 1). -/
def char_demo_state : GdpState :=
  { line_demo_state with z80_mem := fun a =>
      if a = 0x71 then 3 else if a = 0x73 then 0x21 else if a = 0x79 then 100
      else if a = 0x7B then 100 else 0 }

/-! # Theorems -/

/-! ## Arithmetic helper lemmas -/

theorem and_255 (x : Nat) : x &&& 255 = x % 256 := Nat.and_pow_two_sub_one_eq_mod x 8

theorem and_31 (x : Nat) : x &&& 31 = x % 32 := Nat.and_pow_two_sub_one_eq_mod x 5

theorem and_4095 (x : Nat) : x &&& 4095 = x % 4096 := Nat.and_pow_two_sub_one_eq_mod x 12

theorem and_3 (x : Nat) : x &&& 3 = x % 4 := Nat.and_pow_two_sub_one_eq_mod x 2

theorem shr_5 (x : Nat) : x >>> 5 = x / 32 := Nat.shiftRight_eq_div_pow x 5

theorem shr_8 (x : Nat) : x >>> 8 = x / 256 := Nat.shiftRight_eq_div_pow x 8

theorem pixel_mpos_eq (x y : Nat) :
    pixel_mpos x y = ((255 - y % 256) * 16 + x / 32) % 4096 := by
  simp only [pixel_mpos, and_255, shr_5, Nat.reduceSub, and_4095]

theorem pixel_bpos_eq (x : Nat) : pixel_bpos x = 31 - x % 32 := by
  simp only [pixel_bpos, and_31]

theorem pixel_mpos_lt (x y : Nat) : pixel_mpos x y < 4096 := by
  rw [pixel_mpos_eq]; omega

theorem pixel_bpos_lt (x : Nat) : pixel_bpos x < 32 := by
  rw [pixel_bpos_eq]; omega

theorem testBit_mod32 (x i : Nat) :
    (x % 4294967296).testBit i = (decide (i < 32) && x.testBit i) :=
  Nat.testBit_mod_two_pow x 32 i

theorem testBit_ones32 (i : Nat) : (4294967295 : Nat).testBit i = decide (i < 32) :=
  Nat.testBit_two_pow_sub_one 32 i

theorem testBit_one_shl (b j : Nat) : (1 <<< b : Nat).testBit j = decide (b = j) := by
  rw [Nat.one_shiftLeft, Nat.testBit_two_pow]

theorem testBit_set_same (w b : Nat) (hb : b < 32) :
    Nat.testBit ((w ||| 1 <<< b) % 2 ^ 32) b = true := by
  simp only [Nat.reducePow, testBit_mod32, Nat.testBit_or, testBit_one_shl]
  simp [hb]

theorem testBit_set_other (w b j : Nat) (hj : j < 32) (h : j ≠ b) :
    Nat.testBit ((w % 2 ^ 32 ||| 1 <<< b) % 2 ^ 32) j = Nat.testBit w j := by
  simp only [Nat.reducePow, testBit_mod32, Nat.testBit_or, testBit_one_shl]
  have : ¬ (b = j) := fun e => h e.symm
  simp [hj, this]

theorem testBit_clear_same (w b : Nat) (hb : b < 32) :
    Nat.testBit ((w &&& (1 <<< b ^^^ 0xFFFFFFFF)) % 2 ^ 32) b = false := by
  simp only [Nat.reducePow, testBit_mod32, Nat.testBit_and, Nat.testBit_xor, testBit_one_shl,
    testBit_ones32]
  simp [hb]

theorem testBit_clear_other (w b j : Nat) (hj : j < 32) (h : j ≠ b) :
    Nat.testBit ((w % 2 ^ 32 &&& (1 <<< b ^^^ 0xFFFFFFFF)) % 2 ^ 32) j = Nat.testBit w j := by
  simp only [Nat.reducePow, testBit_mod32, Nat.testBit_and, Nat.testBit_xor, testBit_one_shl,
    testBit_ones32]
  have : ¬ (b = j) := fun e => h e.symm
  simp [hj, this]

/-! ## Theorems about `plot_pixel` -/

theorem pixel_addr_injective (x1 y1 x2 y2 : Nat) (h1 : x1 < 512) (h2 : y1 < 256)
    (h3 : x2 < 512) (h4 : y2 < 256) (hm : pixel_mpos x1 y1 = pixel_mpos x2 y2)
    (hb : pixel_bpos x1 = pixel_bpos x2) : x1 = x2 ∧ y1 = y2 := by
  rw [pixel_mpos_eq, pixel_mpos_eq] at hm
  rw [pixel_bpos_eq, pixel_bpos_eq] at hb
  omega

theorem sameRegs_refl (s : GdpState) : SameRegs s s := ⟨rfl, rfl, rfl, rfl, rfl, rfl⟩

theorem sameRegs_trans {s t u : GdpState} (h1 : SameRegs s t) (h2 : SameRegs t u) :
    SameRegs s u := by
  unfold SameRegs at h1 h2 ⊢
  refine ⟨?_, ?_, ?_, ?_, ?_, ?_⟩
  · rw [h2.1, h1.1]
  · rw [h2.2.1, h1.2.1]
  · rw [h2.2.2.1, h1.2.2.1]
  · rw [h2.2.2.2.1, h1.2.2.2.1]
  · rw [h2.2.2.2.2.1, h1.2.2.2.2.1]
  · rw [h2.2.2.2.2.2, h1.2.2.2.2.2]

theorem graphmem_store_sameRegs (s : GdpState) (m v : Nat) :
    SameRegs s (graphmem_store s m v) := ⟨rfl, rfl, rfl, rfl, rfl, rfl⟩

/-- What `plot_pixel` does to an in-range pixel, by the value of control1 bits 0-1. -/
theorem plot_pixel_in_range (s : GdpState) (x y : Nat) (hx : x < 512) (hy : y < 256) :
    plot_pixel s (x : Int) (y : Int) =
      if read_io_reg s gdp_ctrl1 &&& 3 = 3 then
        graphmem_store s (pixel_mpos x y)
          (graphmem_load s (pixel_mpos x y) ||| (1 <<< pixel_bpos x))
      else if read_io_reg s gdp_ctrl1 &&& 3 = 1 then
        graphmem_store s (pixel_mpos x y)
          (graphmem_load s (pixel_mpos x y) &&& ((1 <<< pixel_bpos x) ^^^ 0xFFFFFFFF))
      else s := by
  have hg : (0 : Int) ≤ x ∧ (x : Int) < 512 ∧ (0 : Int) ≤ y ∧ (y : Int) < 256 := by omega
  unfold plot_pixel
  rw [if_pos hg]
  simp only [Int.toNat_ofNat]
  by_cases h3 : read_io_reg s gdp_ctrl1 &&& 3 = 3
  · have h1 : ¬ (read_io_reg s gdp_ctrl1 &&& 3 = 1) := by omega
    simp [h3]
  · simp [h3]

theorem plot_pixel_out_of_range (s : GdpState) (x y : Int)
    (h : x < 0 ∨ 512 ≤ x ∨ y < 0 ∨ 256 ≤ y) : plot_pixel s x y = s := by
  unfold plot_pixel
  rw [if_neg (by omega)]

/-- The index of the word of the draw page holding pixel `(x, y)`, without the masks. -/
theorem pixel_mpos_in_range (x y : Nat) (hx : x < 512) (hy : y < 256) :
    pixel_mpos x y = (255 - y) * 16 + (x >>> 5) := by
  rw [pixel_mpos_eq, shr_5]; omega

theorem plot_pixel_sameRegs (s : GdpState) (x y : Int) : SameRegs s (plot_pixel s x y) := by
  unfold plot_pixel
  split
  · dsimp only
    split <;> split <;> exact ⟨rfl, rfl, rfl, rfl, rfl, rfl⟩
  · exact sameRegs_refl s

/-- A pixel write only touches a word of the draw page. -/
theorem plot_pixel_outside (s : GdpState) (x y : Int) (i : Nat)
    (hi : ¬ (s.graphmem_write ≤ i ∧ i < s.graphmem_write + 4096)) :
    (plot_pixel s x y).graphmem_4p i = s.graphmem_4p i := by
  by_cases hg : 0 ≤ x ∧ x < 512 ∧ 0 ≤ y ∧ y < 256
  · obtain ⟨xn, rfl⟩ := Int.eq_ofNat_of_zero_le hg.1
    obtain ⟨yn, rfl⟩ := Int.eq_ofNat_of_zero_le hg.2.2.1
    rw [plot_pixel_in_range s xn yn (by omega) (by omega)]
    have hm := pixel_mpos_lt xn yn
    have hne : i ≠ s.graphmem_write + pixel_mpos xn yn := by omega
    split
    · simp [graphmem_store, hne]
    · split
      · simp [graphmem_store, hne]
      · rfl
  · exact congrArg (fun t => t.graphmem_4p i) (plot_pixel_out_of_range s x y (by omega))

/-- C2: for an in-range pixel, control1 bits 0-1 = 11 leaves bit `31 - (x & 31)` of
draw-page word `(255 - y) * 16 + (x >> 5)` set, bits 0-1 = 01 leaves it clear; whatever
control1 is, every other bit of every word of the graphics memory, the register file and
all other state is unchanged. -/
theorem plot_pixel_sets_or_clears (s : GdpState) (x y : Nat) (hx : x < 512) (hy : y < 256) :
    (read_io_reg s gdp_ctrl1 &&& 3 = 3 →
      Nat.testBit ((plot_pixel s x y).graphmem_4p
        (s.graphmem_write + ((255 - y) * 16 + (x >>> 5)))) (31 - (x &&& 31)) = true) ∧
    (read_io_reg s gdp_ctrl1 &&& 3 = 1 →
      Nat.testBit ((plot_pixel s x y).graphmem_4p
        (s.graphmem_write + ((255 - y) * 16 + (x >>> 5)))) (31 - (x &&& 31)) = false) ∧
    (∀ i j : Nat, j < 32 →
      ¬ (i = s.graphmem_write + ((255 - y) * 16 + (x >>> 5)) ∧ j = 31 - (x &&& 31)) →
      Nat.testBit ((plot_pixel s x y).graphmem_4p i) j = Nat.testBit (s.graphmem_4p i) j) ∧
    (∀ i : Nat, i ≠ s.graphmem_write + ((255 - y) * 16 + (x >>> 5)) →
      (plot_pixel s x y).graphmem_4p i = s.graphmem_4p i) ∧
    SameRegs s (plot_pixel s x y) := by
  have hb : pixel_bpos x < 32 := pixel_bpos_lt x
  rw [← pixel_mpos_in_range x y hx hy]
  change _ ∧ _ ∧ (∀ i j : Nat, j < 32 → ¬ (_ ∧ j = pixel_bpos x) → _) ∧ _ ∧ _
  refine ⟨?_, ?_, ?_, ?_, plot_pixel_sameRegs s x y⟩
  · intro h3
    rw [plot_pixel_in_range s x y hx hy, if_pos h3]
    simp only [graphmem_store, if_true]
    exact testBit_set_same _ _ hb
  · intro h1
    have h3 : ¬ (read_io_reg s gdp_ctrl1 &&& 3 = 3) := by omega
    rw [plot_pixel_in_range s x y hx hy, if_neg h3, if_pos h1]
    simp only [graphmem_store, if_true]
    exact testBit_clear_same _ _ hb
  · intro i j hj hij
    rw [plot_pixel_in_range s x y hx hy]
    by_cases hi : i = s.graphmem_write + pixel_mpos x y
    · have hjb : j ≠ pixel_bpos x := fun e => hij ⟨hi, e⟩
      subst hi
      split
      · simp only [graphmem_store, if_true, graphmem_load]
        exact testBit_set_other _ _ _ hj hjb
      · split
        · simp only [graphmem_store, if_true, graphmem_load]
          exact testBit_clear_other _ _ _ hj hjb
        · rfl
    · split
      · simp [graphmem_store, hi]
      · split
        · simp [graphmem_store, hi]
        · rfl
  · intro i hi
    rw [plot_pixel_in_range s x y hx hy]
    split
    · simp [graphmem_store, hi]
    · split
      · simp [graphmem_store, hi]
      · rfl

/-- Instance of C2 in `line_demo_state` (control1 = 3) at pixel (100,100): the bit is set. -/
theorem plot_pixel_sets_or_clears_witness :
    Nat.testBit ((plot_pixel line_demo_state (100 : Nat) (100 : Nat)).graphmem_4p
      (line_demo_state.graphmem_write + ((255 - 100) * 16 + (100 >>> 5)))) (31 - (100 &&& 31))
      = true :=
  (plot_pixel_sets_or_clears line_demo_state 100 100 (by decide) (by decide)).1 (by decide)

/-- C3: `plot_pixel` leaves the whole state unchanged for every coordinate outside
`0 <= x < 512`, `0 <= y < 256` (nothing is clamped or wrapped), and for every coordinate
when control1 bits 0-1 are 00 or 10. -/
theorem plot_pixel_noop (s : GdpState) (x y : Int) :
    ((x < 0 ∨ 512 ≤ x ∨ y < 0 ∨ 256 ≤ y) → plot_pixel s x y = s) ∧
    ((read_io_reg s gdp_ctrl1 &&& 3 = 0 ∨ read_io_reg s gdp_ctrl1 &&& 3 = 2) →
      plot_pixel s x y = s) := by
  refine ⟨plot_pixel_out_of_range s x y, ?_⟩
  intro hc
  unfold plot_pixel
  split
  · have h3 : ¬ (read_io_reg s gdp_ctrl1 &&& 3 = 3) := by omega
    have h1 : ¬ (read_io_reg s gdp_ctrl1 &&& 3 = 1) := by omega
    simp [h3, h1]
  · rfl

/-- Instance of C3: the pixel (512, 0) is dropped in `line_demo_state`, and with
control1 = 2 the in-range pixel (5, 5) is left alone. -/
theorem plot_pixel_noop_witness :
    plot_pixel line_demo_state 512 0 = line_demo_state ∧
    plot_pixel (write_io_reg line_demo_state gdp_ctrl1 2) 5 5
      = write_io_reg line_demo_state gdp_ctrl1 2 :=
  ⟨(plot_pixel_noop line_demo_state 512 0).1 (by decide),
   (plot_pixel_noop (write_io_reg line_demo_state gdp_ctrl1 2) 5 5).2 (by decide)⟩


/-- C1: on the 512x256 screen the (word index, bit index) pair computed by
`plot_pixel` determines the coordinate (injective), always satisfies
`mpos < 4096` and `bpos < 32`, and every (word, bit) pair of a page is hit
(surjective): the map is a bijection onto the 4096x32 bits of one page. -/
theorem plot_pixel_addressing_bijective :
    (∀ x1 y1 x2 y2 : Nat, x1 < 512 → y1 < 256 → x2 < 512 → y2 < 256 →
        pixel_mpos x1 y1 = pixel_mpos x2 y2 → pixel_bpos x1 = pixel_bpos x2 →
        x1 = x2 ∧ y1 = y2) ∧
    (∀ x y : Nat, x < 512 → y < 256 → pixel_mpos x y < 4096 ∧ pixel_bpos x < 32) ∧
    (∀ m b : Nat, m < 4096 → b < 32 →
        ∃ x y : Nat, x < 512 ∧ y < 256 ∧ pixel_mpos x y = m ∧ pixel_bpos x = b) := by
  refine ⟨?_, ?_, ?_⟩
  · intro x1 y1 x2 y2 h1 h2 h3 h4 hm hb
    exact pixel_addr_injective x1 y1 x2 y2 h1 h2 h3 h4 hm hb
  · intro x y _ _
    exact ⟨pixel_mpos_lt x y, pixel_bpos_lt x⟩
  · intro m b hm hb
    refine ⟨(m % 16) * 32 + (31 - b), 255 - m / 16, by omega, by omega, ?_, ?_⟩
    · rw [pixel_mpos_eq]; omega
    · rw [pixel_bpos_eq]; omega

/-- Instance of C1 at the pixels (100,100) and (116,100) and the page bit (0, 31). -/
theorem plot_pixel_addressing_bijective_witness :
    ((pixel_mpos 100 100 = pixel_mpos 100 100 → pixel_bpos 100 = pixel_bpos 100 →
        100 = 100 ∧ 100 = 100) ∧
      (pixel_mpos 116 100 < 4096 ∧ pixel_bpos 116 < 32)) ∧
    (∃ x y : Nat, x < 512 ∧ y < 256 ∧ pixel_mpos x y = 0 ∧ pixel_bpos x = 31) :=
  ⟨⟨plot_pixel_addressing_bijective.1 100 100 100 100 (by decide) (by decide) (by decide)
      (by decide),
    plot_pixel_addressing_bijective.2.1 116 100 (by decide) (by decide)⟩,
   plot_pixel_addressing_bijective.2.2 0 31 (by decide) (by decide)⟩

/-! ## Theorems about `draw_line` -/

theorem step_u32_eq (u : Nat) (sign : Bool) :
    step_u32 u sign = (u + (if sign then 4294967295 else 1)) % 4294967296 := by
  unfold step_u32; cases sign <;> rfl

theorem draw_line_loop_succ (ys xs yg : Bool) (t1 t2 : Int) (n : Nat) (st : LineLoop) :
    draw_line_loop ys xs yg t1 t2 (n + 1) st
      = draw_line_loop ys xs yg t1 t2 n (draw_line_body ys xs yg t1 t2 st) := rfl

theorem draw_line_loop_spec (ys xs yg : Bool) (a b : Nat) (hab : b ≤ a) (t1 t2 : Int)
    (h1 : t1 = 2 * (b : Int)) (h2 : t2 = 2 * (b : Int) - 2 * (a : Int)) :
    ∀ (n : Nat) (st : LineLoop),
      2 * (b : Int) - 2 * (a : Int) ≤ st.var_p → st.var_p < 2 * (b : Int) →
      ∃ k : Nat,
        (draw_line_loop ys xs yg t1 t2 n st).var_p
          = st.var_p + 2 * (b : Int) * n - 2 * (a : Int) * k ∧
        2 * (b : Int) - 2 * (a : Int) ≤ (draw_line_loop ys xs yg t1 t2 n st).var_p ∧
        (draw_line_loop ys xs yg t1 t2 n st).var_p < 2 * (b : Int) ∧
        (draw_line_loop ys xs yg t1 t2 n st).x_ref % 65536
          = (st.x_ref + (if ys then k else n) * (if xs then 4294967295 else 1)) % 65536 ∧
        (draw_line_loop ys xs yg t1 t2 n st).y_ref % 65536
          = (st.y_ref + (if ys then n else k) * (if yg then 4294967295 else 1)) % 65536 := by
  intro n
  induction n with
  | zero =>
    intro st hlo hhi
    refine ⟨0, ?_⟩
    simp [draw_line_loop, hlo, hhi]
  | succ n ih =>
    intro st hlo hhi
    rw [draw_line_loop_succ]
    by_cases hp : st.var_p < 0
    · have hv : (draw_line_body ys xs yg t1 t2 st).var_p = st.var_p + 2 * (b : Int) := by
        simp [draw_line_body, hp, h1]
      obtain ⟨k, e1, e2, e3, e4, e5⟩ := ih (draw_line_body ys xs yg t1 t2 st)
        (by rw [hv]; omega) (by rw [hv]; omega)
      refine ⟨k, ?_, e2, e3, ?_, ?_⟩
      · rw [e1, hv]; push_cast; ring
      · rw [e4]
        simp only [draw_line_body, hp, if_true, step_u32_eq]
        cases ys <;> cases xs <;> simp <;> omega
      · rw [e5]
        simp only [draw_line_body, hp, if_true, step_u32_eq]
        cases ys <;> cases yg <;> simp <;> omega
    · have hv : (draw_line_body ys xs yg t1 t2 st).var_p
          = st.var_p + 2 * (b : Int) - 2 * (a : Int) := by
        simp [draw_line_body, hp, h2]; ring
      obtain ⟨k, e1, e2, e3, e4, e5⟩ := ih (draw_line_body ys xs yg t1 t2 st)
        (by rw [hv]; omega) (by rw [hv]; omega)
      refine ⟨k + 1, ?_, e2, e3, ?_, ?_⟩
      · rw [e1, hv]; push_cast; ring
      · rw [e4]
        simp only [draw_line_body, hp, if_false, step_u32_eq]
        cases ys <;> cases xs <;> simp <;> omega
      · rw [e5]
        simp only [draw_line_body, hp, if_false, step_u32_eq]
        cases ys <;> cases yg <;> simp <;> omega
theorem and_bit_ne_zero (c i : Nat) : c &&& 2 ^ i ≠ 0 ↔ c.testBit i = true := by
  rw [Nat.and_two_pow]
  cases c.testBit i <;> simp

theorem line_x_sign_eq (c : Nat) : line_x_sign c = c.testBit 1 := by
  have h := and_bit_ne_zero c 1
  simp only [pow_one] at h
  unfold line_x_sign
  cases hb : c.testBit 1 <;> simp_all

theorem line_y_sign_eq (c : Nat) : line_y_sign c = c.testBit 2 := by
  have h := and_bit_ne_zero c 2
  have e : (2 : Nat) ^ 2 = 4 := by norm_num
  rw [e] at h
  unfold line_y_sign
  cases hb : c.testBit 2 <;> simp_all

theorem and_128_ne_zero (c : Nat) (hc : c < 256) : c &&& 0x80 ≠ 0 ↔ 0x80 ≤ c := by
  have h := and_bit_ne_zero c 7
  have e : (2 : Nat) ^ 7 = 0x80 := by norm_num
  rw [e] at h
  rw [h, Nat.testBit_to_div_mod]
  simp only [Nat.reducePow, decide_eq_true_eq]
  omega

theorem and_8_ne_zero (c : Nat) : c &&& 0x8 ≠ 0 ↔ c.testBit 3 = true := by
  have h := and_bit_ne_zero c 3
  have e : (2 : Nat) ^ 3 = 0x8 := by norm_num
  rw [e] at h
  exact h

theorem and_1_eq_zero (c : Nat) : c &&& 0x1 = 0 ↔ c.testBit 0 = false := by
  have h := and_bit_ne_zero c 0
  simp only [pow_zero] at h
  cases hb : c.testBit 0 <;> simp_all

theorem larger_pair_eq_max (dx dy : Nat) :
    (if dx > dy then (dx, dx) else (dy, dy)) = (max dx dy, max dx dy) := by
  by_cases h : dx > dy
  · rw [if_pos h, max_eq_left (by omega)]
  · rw [if_neg h, max_eq_right (by omega)]

theorem line_ef_eq_claimed (c dx dy : Nat) (hc : c < 256) :
    line_ef c dx dy = claimed_line_magnitudes c dx dy := by
  unfold line_ef line_ef_base claimed_line_magnitudes
  rw [line_x_sign_eq, line_y_sign_eq, larger_pair_eq_max]
  simp only [and_128_ne_zero c hc, and_8_ne_zero c, and_1_eq_zero c]
  by_cases a1 : 0x80 ≤ c <;> by_cases a2 : c.testBit 3 = true <;>
    by_cases a3 : c.testBit 0 = true <;> simp [a1, a2, a3]
theorem bresenham_minor_steps (a b k : Nat) (ha : 0 < a) (p : Int)
    (hp : p = 2 * (b : Int) - a + 2 * (b : Int) * a - 2 * (a : Int) * k)
    (hlo : 2 * (b : Int) - 2 * (a : Int) ≤ p) (hhi : p < 2 * (b : Int)) : k = b := by
  subst hp
  have ha' : (0 : Int) < a := by exact_mod_cast ha
  rcases Nat.lt_trichotomy k b with h | h | h
  · exfalso
    have h' : (k : Int) + 1 ≤ b := by exact_mod_cast h
    nlinarith [mul_le_mul_of_nonneg_left h' ha'.le]
  · exact h
  · exfalso
    have h' : (b : Int) + 1 ≤ k := by exact_mod_cast h
    nlinarith [mul_le_mul_of_nonneg_left h' ha'.le]

theorem draw_line_run_cursor (s : GdpState) (c : Nat) :
    (draw_line_run s c).x_ref % 65536
      = (cursor_x s + (line_ef c (read_io_reg s gdp_deltax) (read_io_reg s gdp_deltay)).1
          * (if line_x_sign c then 4294967295 else 1)) % 65536 ∧
    (draw_line_run s c).y_ref % 65536
      = (cursor_y s + (line_ef c (read_io_reg s gdp_deltax) (read_io_reg s gdp_deltay)).2
          * (if line_y_sign c then 4294967295 else 1)) % 65536 := by
  unfold draw_line_run cursor_x cursor_y
  dsimp only
  generalize line_ef c (read_io_reg s gdp_deltax) (read_io_reg s gdp_deltay) = e
  obtain ⟨ex, ey⟩ := e
  dsimp only
  by_cases hgt : ey > ex
  · simp only [hgt, if_true, decide_True]
    obtain ⟨k, e1, e2, e3, e4, e5⟩ :=
      draw_line_loop_spec true (line_x_sign c) (line_y_sign c) ey ex (by omega)
        ((ex : Int) * 2) (((ex : Int) - ey) * 2) (by ring) (by ring) ey
        { s := s, x_ref := read_io_reg s gdp_xmsb * 256 + read_io_reg s gdp_xlsb,
          y_ref := read_io_reg s gdp_ymsb * 256 + read_io_reg s gdp_ylsb,
          var_p := 2 * (ex : Int) - ey } (by dsimp only; omega) (by dsimp only; omega)
    have hk : k = ex := bresenham_minor_steps ey ex k (by omega) _ e1 e2 e3
    subst hk
    exact ⟨by simpa using e4, by simpa using e5⟩
  · simp only [hgt, if_false, decide_False]
    by_cases h0 : ex = 0
    · have hy : ey = 0 := by omega
      subst h0; subst hy
      simp [draw_line_loop]
    · obtain ⟨k, e1, e2, e3, e4, e5⟩ :=
        draw_line_loop_spec false (line_x_sign c) (line_y_sign c) ex ey (by omega)
          ((ey : Int) * 2) (((ey : Int) - ex) * 2) (by ring) (by ring) ex
          { s := s, x_ref := read_io_reg s gdp_xmsb * 256 + read_io_reg s gdp_xlsb,
            y_ref := read_io_reg s gdp_ymsb * 256 + read_io_reg s gdp_ylsb,
            var_p := 2 * (ey : Int) - ex } (by dsimp only; omega) (by dsimp only; omega)
      have hk : k = ey := bresenham_minor_steps ex ey k (by omega) _ e1 e2 e3
      subst hk
      exact ⟨by simpa using e4, by simpa using e5⟩

theorem draw_line_cursor_readback (s : GdpState) (c : Nat) :
    cursor_x (draw_line s c) = (draw_line_run s c).x_ref % 65536 ∧
    cursor_y (draw_line s c) = (draw_line_run s c).y_ref % 65536 := by
  simp only [cursor_x, cursor_y, draw_line, read_io_reg, write_io_reg, gdp_xmsb, gdp_xlsb,
    gdp_ymsb, gdp_ylsb, GDP_BASE, and_255, shr_8]
  simp
  omega
theorem drawFrame_refl (s : GdpState) : DrawFrame s s := ⟨sameRegs_refl s, fun _ _ => rfl⟩

theorem drawFrame_trans {s t u : GdpState} (h1 : DrawFrame s t) (h2 : DrawFrame t u) :
    DrawFrame s u := by
  refine ⟨sameRegs_trans h1.1 h2.1, fun i hi => ?_⟩
  have hw : t.graphmem_write = s.graphmem_write := h1.1.2.2.1
  rw [h2.2 i (by rw [hw]; exact hi), h1.2 i hi]

theorem plot_pixel_drawFrame (s : GdpState) (x y : Int) : DrawFrame s (plot_pixel s x y) :=
  ⟨plot_pixel_sameRegs s x y, fun i hi => plot_pixel_outside s x y i hi⟩

theorem draw_line_loop_drawFrame (ys xs yg : Bool) (t1 t2 : Int) :
    ∀ (n : Nat) (st : LineLoop), DrawFrame st.s (draw_line_loop ys xs yg t1 t2 n st).s := by
  intro n
  induction n with
  | zero => intro st; exact drawFrame_refl st.s
  | succ n ih =>
    intro st
    rw [draw_line_loop_succ]
    exact drawFrame_trans (plot_pixel_drawFrame st.s _ _) (ih (draw_line_body ys xs yg t1 t2 st))

theorem draw_line_run_drawFrame (s : GdpState) (c : Nat) : DrawFrame s (draw_line_run s c).s :=
  draw_line_loop_drawFrame _ _ _ _ _ _ _

theorem signed_advance (x0 e : Nat) (b : Bool) :
    (((x0 + e * (if b then 4294967295 else 1)) % 65536 : Nat) : Int)
      = ((x0 : Int) + (if b then -1 else 1) * (e : Int)) % 65536 := by
  cases b <;> simp
  omega

/-- C4: for every command byte `c` and every state, `draw_line c` leaves the cursor at
`((x0 + sx*ex) mod 65536, (y0 + sy*ey) mod 65536)`, with the signs taken from bits 1 and 2
of `c` and the magnitudes `(ex, ey)` chosen by the three policies (command bits for
`c >= 0x80`, the larger delta register for both axes when bit 3 is set, the delta registers
otherwise) followed by the zeroing of one axis when bit 0 is clear. -/
theorem draw_line_cursor (s : GdpState) (c : Nat) (hc : c < 256) :
    (cursor_x (draw_line s c) : Int)
      = ((cursor_x s : Int) + claimed_line_sign c 1 *
          ((claimed_line_magnitudes c (read_io_reg s gdp_deltax)
              (read_io_reg s gdp_deltay)).1 : Int)) % 65536 ∧
    (cursor_y (draw_line s c) : Int)
      = ((cursor_y s : Int) + claimed_line_sign c 2 *
          ((claimed_line_magnitudes c (read_io_reg s gdp_deltax)
              (read_io_reg s gdp_deltay)).2 : Int)) % 65536 := by
  obtain ⟨rx, ry⟩ := draw_line_cursor_readback s c
  obtain ⟨hx, hy⟩ := draw_line_run_cursor s c
  rw [rx, ry, hx, hy, line_ef_eq_claimed c _ _ hc, line_x_sign_eq, line_y_sign_eq,
    signed_advance, signed_advance]
  exact ⟨rfl, rfl⟩

/-- Instance of C4: delta-x = 0x10, delta-y = 0, command 0x11 (both signs positive),
cursor (100,100): the cursor ends at (116,100). -/
theorem draw_line_cursor_witness :
    (cursor_x (draw_line line_demo_state 0x11) : Int) = 116 ∧
    (cursor_y (draw_line line_demo_state 0x11) : Int) = 100 :=
  ⟨(draw_line_cursor line_demo_state 0x11 (by decide)).1.trans (by decide),
   (draw_line_cursor line_demo_state 0x11 (by decide)).2.trans (by decide)⟩

theorem plot_pixel_pixel_set (s : GdpState) (x y x' y' : Nat) (hx : x < 512) (hy : y < 256)
    (hx' : x' < 512) (hy' : y' < 256) (hc : read_io_reg s gdp_ctrl1 &&& 3 = 3) :
    pixel_set (plot_pixel s x y) x' y' = (decide (x' = x ∧ y' = y) || pixel_set s x' y') := by
  have hw : (plot_pixel s x y).graphmem_write = s.graphmem_write :=
    (plot_pixel_sameRegs s x y).2.2.1
  unfold pixel_set
  rw [hw, plot_pixel_in_range s x y hx hy, if_pos hc]
  by_cases hm : pixel_mpos x' y' = pixel_mpos x y
  · by_cases hb : pixel_bpos x' = pixel_bpos x
    · obtain ⟨e1, e2⟩ := pixel_addr_injective x' y' x y hx' hy' hx hy hm hb
      subst e1; subst e2
      simp only [graphmem_store, if_true, and_self, decide_True, Bool.true_or]
      exact testBit_set_same _ _ (pixel_bpos_lt _)
    · have hne : ¬ (x' = x ∧ y' = y) := fun e => hb (by rw [e.1])
      simp only [graphmem_store, hm, if_true, graphmem_load, hne, decide_False, Bool.false_or]
      exact testBit_set_other _ _ _ (pixel_bpos_lt _) hb
  · have hne : ¬ (x' = x ∧ y' = y) := fun e => hm (by rw [e.1, e.2])
    have hi : s.graphmem_write + pixel_mpos x' y' ≠ s.graphmem_write + pixel_mpos x y := by
      omega
    simp only [graphmem_store, hi, if_false, hne, decide_False, Bool.false_or]

theorem toInt32_small (u : Nat) (h : u < 2147483648) : toInt32 u = (u : Int) := by
  unfold toInt32
  have e : u % 2 ^ 32 = u := Nat.mod_eq_of_lt (by omega)
  rw [e, if_pos (by omega)]

theorem draw_line_loop_horizontal (yg : Bool) (t2 : Int) :
    ∀ (n : Nat) (st : LineLoop), st.var_p < 0 → st.x_ref + n < 512 → st.y_ref < 256 →
      read_io_reg st.s gdp_ctrl1 &&& 3 = 3 →
      ∀ x y : Nat, x < 512 → y < 256 →
        (pixel_set (draw_line_loop false false yg 0 t2 n st).s x y = true ↔
          ((y = st.y_ref ∧ st.x_ref < x ∧ x ≤ st.x_ref + n) ∨ pixel_set st.s x y = true)) := by
  intro n
  induction n with
  | zero =>
    intro st _ _ _ _ x y _ _
    simp only [draw_line_loop, add_zero]
    constructor
    · exact fun h => Or.inr h
    · rintro (h | h)
      · omega
      · exact h
  | succ n ih =>
    intro st hp hx hy hc x y hx' hy'
    rw [draw_line_loop_succ]
    have hstep : step_u32 st.x_ref false = st.x_ref + 1 := by
      rw [step_u32_eq]; simp only [Bool.false_eq_true, if_false]; omega
    have hb : draw_line_body false false yg 0 t2 st
        = { s := plot_pixel st.s ((st.x_ref + 1 : Nat) : Int) (st.y_ref : Int),
            x_ref := st.x_ref + 1, y_ref := st.y_ref, var_p := st.var_p } := by
      simp only [draw_line_body, Bool.false_eq_true, if_false, hp, if_true, hstep, add_zero]
      rw [toInt32_small _ (by omega), toInt32_small _ (by omega)]
    rw [hb]
    have hc' : read_io_reg (plot_pixel st.s ((st.x_ref + 1 : Nat) : Int) (st.y_ref : Int))
        gdp_ctrl1 &&& 3 = 3 := by
      have hz := (plot_pixel_sameRegs st.s ((st.x_ref + 1 : Nat) : Int) (st.y_ref : Int)).1
      unfold read_io_reg at hc ⊢
      rw [hz]; exact hc
    refine (ih { s := plot_pixel st.s ((st.x_ref + 1 : Nat) : Int) (st.y_ref : Int),
                 x_ref := st.x_ref + 1, y_ref := st.y_ref, var_p := st.var_p }
      ?_ ?_ ?_ ?_ x y hx' hy').trans ?_
    · exact hp
    · dsimp only
      omega
    · exact hy
    · dsimp only
      exact hc'
    dsimp only
    rw [plot_pixel_pixel_set st.s (st.x_ref + 1) st.y_ref x y (by omega) hy hx' hy' hc]
    simp only [Bool.or_eq_true, decide_eq_true_eq]
    constructor
    · rintro (h | h | h)
      · exact Or.inl ⟨h.1, by omega, by omega⟩
      · exact Or.inl ⟨h.2, by omega, by omega⟩
      · exact Or.inr h
    · rintro (h | h)
      · by_cases e : x = st.x_ref + 1
        · exact Or.inr (Or.inl ⟨e, h.1⟩)
        · exact Or.inl ⟨h.1, by omega, by omega⟩
      · exact Or.inr (Or.inr h)
theorem draw_line_pixel_set (s : GdpState) (c x y : Nat) :
    pixel_set (draw_line s c) x y = pixel_set (draw_line_run s c).s x y := rfl

theorem draw_line_graphmem (s : GdpState) (c : Nat) :
    (draw_line s c).graphmem_4p = (draw_line_run s c).s.graphmem_4p := rfl

theorem draw_line_run_horizontal (s : GdpState) (c : Nat) (hc : c = 0x11 ∨ c = 0x10)
    (hdx : read_io_reg s gdp_deltax = 0x10) (hdy : read_io_reg s gdp_deltay = 0) :
    draw_line_run s c
      = draw_line_loop false false (line_y_sign c) 0 (-32) 16
          { s := s, x_ref := cursor_x s, y_ref := cursor_y s, var_p := -16 } := by
  have hef : line_ef c (read_io_reg s gdp_deltax) (read_io_reg s gdp_deltay) = (16, 0) := by
    rw [hdx, hdy]
    rcases hc with rfl | rfl <;> decide
  have hs : line_x_sign c = false := by
    rcases hc with rfl | rfl <;> decide
  unfold draw_line_run
  dsimp only
  rw [hef, hs]
  rfl

/-- C5 (amended): from an all-zero draw page with control1 bits 0-1 = 11, delta-x = 0x10,
delta-y = 0 and cursor (100,100), the line commands 0x11 and 0x10 set exactly the 16 pixels
`(x, 100)` with `101 <= x <= 116` of the draw page (the start pixel (100,100) stays unset)
and change no word outside the draw page. -/
theorem draw_line_horizontal_pixels (s : GdpState) (c : Nat) (hc : c = 0x11 ∨ c = 0x10)
    (hzero : ∀ i : Nat, i < 4096 → s.graphmem_4p (s.graphmem_write + i) = 0)
    (hctrl : read_io_reg s gdp_ctrl1 &&& 3 = 3)
    (hdx : read_io_reg s gdp_deltax = 0x10) (hdy : read_io_reg s gdp_deltay = 0)
    (hx : cursor_x s = 100) (hy : cursor_y s = 100) :
    (∀ x y : Nat, x < 512 → y < 256 →
      (pixel_set (draw_line s c) x y = true ↔ (y = 100 ∧ 101 ≤ x ∧ x ≤ 116))) ∧
    (∀ i : Nat, ¬ (s.graphmem_write ≤ i ∧ i < s.graphmem_write + 4096) →
      (draw_line s c).graphmem_4p i = s.graphmem_4p i) := by
  constructor
  · intro x y hx' hy'
    rw [draw_line_pixel_set, draw_line_run_horizontal s c hc hdx hdy, hx, hy]
    have h := draw_line_loop_horizontal (line_y_sign c) (-32) 16
      { s := s, x_ref := 100, y_ref := 100, var_p := -16 } (by norm_num) (by norm_num)
      (by norm_num) hctrl x y hx' hy'
    rw [h]
    have hz : pixel_set s x y = false := by
      unfold pixel_set
      rw [hzero _ (pixel_mpos_lt x y)]
      exact Nat.zero_testBit _
    rw [hz]
    dsimp only
    constructor
    · rintro (h | h)
      · exact ⟨h.1, by omega, by omega⟩
      · exact absurd h (by decide)
    · intro h
      exact Or.inl ⟨h.1, by omega, by omega⟩
  · intro i hi
    rw [draw_line_graphmem]
    exact (draw_line_run_drawFrame s c).2 i hi

/-- Instance of C5 (amended) in `line_demo_state` with command 0x11: pixel (116,100) is
set. -/
theorem draw_line_horizontal_pixels_witness :
    pixel_set (draw_line line_demo_state 0x11) 116 100 = true :=
  ((draw_line_horizontal_pixels line_demo_state 0x11 (Or.inl rfl) (fun _ _ => rfl)
      (by decide) (by decide) (by decide) (by decide) (by decide)).1 116 100
      (by decide) (by decide)).2 ⟨rfl, by decide, by decide⟩

/-- C5 as stated fails: in `line_demo_state` (all pages zero, control1 = 3, delta-x = 0x10,
delta-y = 0, cursor (100,100)) command 0x11 does not set the 17 pixels (100..116, 100):
the start pixel (100,100) is left unset. -/
theorem draw_line_start_pixel_not_set :
    ¬ (∀ x y : Nat, x < 512 → y < 256 →
        (pixel_set (draw_line line_demo_state 0x11) x y = true ↔
          (y = 100 ∧ 100 ≤ x ∧ x ≤ 116))) := by
  intro h
  have h1 := (h 100 100 (by decide) (by decide)).2 ⟨rfl, le_refl _, by decide⟩
  revert h1
  decide

/-! ## Theorems about `draw_char` -/

theorem foldl_drawFrame {α : Type} (f : CharLoop → α → CharLoop)
    (hf : ∀ (st : CharLoop) (a : α), DrawFrame st.s (f st a).s) :
    ∀ (l : List α) (st : CharLoop), DrawFrame st.s (l.foldl f st).s := by
  intro l
  induction l with
  | nil => intro st; exact drawFrame_refl st.s
  | cons a l ih =>
    intro st
    rw [List.foldl_cons]
    exact drawFrame_trans (hf st a) (ih (f st a))

theorem draw_char_dot_drawFrame (ctrlreg2 ldat j : Nat) (st : CharLoop) :
    DrawFrame st.s (draw_char_dot ctrlreg2 ldat j st).s := by
  unfold draw_char_dot
  dsimp only
  split
  · split
    · exact plot_pixel_drawFrame _ _ _
    · exact plot_pixel_drawFrame _ _ _
  · exact drawFrame_refl st.s

theorem draw_char_column_drawFrame (ctrlreg2 ldat size_y : Nat) (st : CharLoop) :
    DrawFrame st.s (draw_char_column ctrlreg2 ldat size_y st).s := by
  unfold draw_char_column
  apply foldl_drawFrame
  intro st1 j
  apply foldl_drawFrame
  intro st2 _
  exact draw_char_dot_drawFrame ctrlreg2 ldat j st2

theorem draw_char_strip_drawFrame (ctrlreg2 ldat size_y x_ref y_ref : Nat) (st : CharLoop) :
    DrawFrame st.s (draw_char_strip ctrlreg2 ldat size_y x_ref y_ref st).s := by
  unfold draw_char_strip
  exact draw_char_column_drawFrame ctrlreg2 ldat size_y _

theorem draw_char_glyph_drawFrame (ctrlreg2 c size_x size_y x_ref y_ref : Nat)
    (st : CharLoop) :
    DrawFrame st.s (draw_char_glyph ctrlreg2 c size_x size_y x_ref y_ref st).s := by
  unfold draw_char_glyph
  apply foldl_drawFrame
  intro st1 i
  apply foldl_drawFrame
  intro st2 _
  exact draw_char_strip_drawFrame ctrlreg2 (charset_byte c i) size_y x_ref y_ref st2

set_option maxRecDepth 100000 in
theorem high_nibble_eq : ∀ siz : Nat, siz < 256 → (siz &&& 0xF0) >>> 4 = siz / 16 := by
  decide

theorem char_size_x_eq_claimed (s : GdpState) :
    char_size_x (read_io_reg s gdp_csize) = claimed_x_scale (read_io_reg s gdp_csize) := by
  have h : read_io_reg s gdp_csize < 256 := Nat.mod_lt _ (by decide)
  unfold char_size_x claimed_x_scale
  rw [high_nibble_eq _ h]

theorem draw_char_render_drawFrame (s : GdpState) (a : Nat) :
    DrawFrame s (draw_char_render s a) := by
  unfold draw_char_render
  dsimp only
  split
  · exact draw_char_glyph_drawFrame _ _ _ _ _ _ _
  · exact drawFrame_refl s

/-- C6: `draw_char a` with control2 bit 3 clear leaves the x cursor at
`(x0 + 6*sx) mod 65536` and the y cursor bytes unchanged; with bit 3 set it leaves the
y cursor at `(y0 + 6*sx) mod 65536` and the x cursor bytes unchanged, where `sx` is the
high nibble of the size byte with 0 meaning 16; this holds for every glyph code, every
control1 value and every y scale. -/
theorem draw_char_cursor_advance (s : GdpState) (a : Nat) :
    (read_io_reg s gdp_ctrl2 &&& 0x8 = 0 →
      cursor_x (draw_char s a)
        = (cursor_x s + 6 * claimed_x_scale (read_io_reg s gdp_csize)) % 65536 ∧
      (draw_char s a).z80_mem gdp_ymsb = s.z80_mem gdp_ymsb ∧
      (draw_char s a).z80_mem gdp_ylsb = s.z80_mem gdp_ylsb) ∧
    (read_io_reg s gdp_ctrl2 &&& 0x8 ≠ 0 →
      cursor_y (draw_char s a)
        = (cursor_y s + 6 * claimed_x_scale (read_io_reg s gdp_csize)) % 65536 ∧
      (draw_char s a).z80_mem gdp_xmsb = s.z80_mem gdp_xmsb ∧
      (draw_char s a).z80_mem gdp_xlsb = s.z80_mem gdp_xlsb) := by
  have hz : (draw_char_render s a).z80_mem = s.z80_mem := (draw_char_render_drawFrame s a).1.1
  rw [← char_size_x_eq_claimed]
  constructor
  · intro h
    have hn : ¬ (read_io_reg s gdp_ctrl2 &&& 0x8 ≠ 0) := fun e => e h
    unfold draw_char
    dsimp only
    rw [if_neg hn]
    generalize char_size_x (read_io_reg s gdp_csize) = sx
    generalize draw_char_render s a = s1 at hz ⊢
    simp only [cursor_x, read_io_reg, write_io_reg, gdp_xmsb, gdp_xlsb, gdp_ymsb, gdp_ylsb,
      GDP_BASE, and_255, shr_8, hz]
    simp
    omega
  · intro h
    unfold draw_char
    dsimp only
    rw [if_pos h]
    generalize char_size_x (read_io_reg s gdp_csize) = sx
    generalize draw_char_render s a = s1 at hz ⊢
    simp only [cursor_y, read_io_reg, write_io_reg, gdp_xmsb, gdp_xlsb, gdp_ymsb, gdp_ylsb,
      GDP_BASE, and_255, shr_8, hz]
    simp
    omega

/-- Instance of C6: in `line_demo_state` (size byte 0x11, control2 = 0, cursor (100,100))
drawing the glyph 0x41 moves the x cursor to 106; with control2 = 8 and size byte 0x25 it
moves the y cursor to 112. -/
theorem draw_char_cursor_advance_witness :
    cursor_x (draw_char line_demo_state 0x41) = 106 ∧
    cursor_y (draw_char (write_io_reg (write_io_reg line_demo_state gdp_ctrl2 8) gdp_csize 0x25)
      0x41) = 112 :=
  ⟨((draw_char_cursor_advance line_demo_state 0x41).1 (by decide)).1.trans (by decide),
   ((draw_char_cursor_advance
      (write_io_reg (write_io_reg line_demo_state gdp_ctrl2 8) gdp_csize 0x25) 0x41).2
      (by decide)).1.trans (by decide)⟩

/-! ## Theorems about `calc_fulldlist` -/

theorem repeat_words_succ_of_pos (ws : List Nat) (n : Nat) (h : 1 ≤ n) :
    repeat_words ws n = ws ++ repeat_words ws (n - 1) := by
  obtain ⟨m, rfl⟩ : ∃ m, n = m + 1 := ⟨n - 1, by omega⟩
  rfl

theorem block_words_length (d : displist) (h : d.len < d.lsync.length) :
    (block_words d).length = d.len + 1 := by
  unfold block_words
  rw [List.length_take]
  omega

theorem block_words_drop (d : displist) (h : d.len < d.lsync.length) (k : Nat) (hk : k ≤ d.len) :
    (block_words d).drop k
      = d.lsync[k] :: (block_words d).drop (k + 1) := by
  have hl := block_words_length d h
  rw [List.drop_eq_getElem_cons (by omega)]
  congr 1
  unfold block_words
  exact List.getElem_take _

theorem mem_take_of_getElem? (dlist : List displist) (k : Nat) (d : displist) (hk : k < 4)
    (hd : dlist[k]? = some d) : d ∈ dlist.take 4 := by
  have h1 : (dlist.take 4)[k]? = some d := by rw [List.getElem?_take_of_lt hk]; exact hd
  obtain ⟨h2, h3⟩ := List.getElem?_eq_some_iff.1 h1
  rw [← h3]
  exact List.getElem_mem h2

theorem flatten_blocks_drop (dlist : List displist) (k : Nat) (hk : k < 4)
    (hlen : 4 ≤ dlist.length) :
    ∃ d, dlist[k]? = some d ∧
      flatten_blocks ((dlist.take 4).drop k)
        = repeat_words (block_words d) d.count
            ++ flatten_blocks ((dlist.take 4).drop (k + 1)) := by
  have h1 : k < (dlist.take 4).length := by rw [List.length_take]; omega
  refine ⟨dlist[k], List.getElem?_eq_getElem (by omega), ?_⟩
  rw [List.drop_eq_getElem_cons h1]
  have h2 : (dlist.take 4)[k] = dlist[k] := List.getElem_take _
  rw [h2]
  rfl

theorem calc_fulldlist_body_spec (dlist : List displist) (hv : ValidBlocks dlist)
    (st : CalcLoop) (hinv : CalcInv dlist st) (hi : st.indx < 4096) :
    ∃ (w : Nat) (rest : List Nat) (st1 : CalcLoop),
      calc_remaining dlist st = w :: rest ∧
      calc_fulldlist_body dlist st = some st1 ∧
      st1.indx = st.indx + 1 ∧
      st1.fulldlist = (fun i => if i = st.indx then w else st.fulldlist i) ∧
      ((st1.bfin = true ∧ rest = []) ∨ (CalcInv dlist st1 ∧ calc_remaining dlist st1 = rest)) := by
  obtain ⟨hb, hl, d, hd, hls, hh, hc⟩ := hinv
  obtain ⟨v1, v2, v3, v4⟩ := hv.2 d (mem_take_of_getElem? dlist _ d hl hd)
  have hw : st.line_sync[st.hlcount]? = some (d.lsync[st.hlcount]) := by
    rw [List.getElem?_eq_some_iff]
    exact ⟨by rw [hls]; omega, by simp only [hls]⟩
  have hrem : calc_remaining dlist st
      = d.lsync[st.hlcount] :: ((block_words d).drop (st.hlcount + 1)
          ++ repeat_words (block_words d) (d.count - (st.lcount + 1))
          ++ flatten_blocks ((dlist.take 4).drop (st.lpat_count + 1))) := by
    unfold calc_remaining
    rw [hd]
    dsimp only
    rw [block_words_drop d v1 _ hh]
    rfl
  have hmod : (st.hlcount + 1) % 2 ^ 32 = st.hlcount + 1 := Nat.mod_eq_of_lt (by omega)
  have hmod2 : (st.lcount + 1) % 2 ^ 32 = st.lcount + 1 := Nat.mod_eq_of_lt (by omega)
  unfold calc_fulldlist_body
  rw [if_neg (by omega), hw, hd]
  dsimp only
  rw [hmod, hmod2]
  by_cases c1 : st.hlcount + 1 > d.len
  · have hdrop : (block_words d).drop (st.hlcount + 1) = [] :=
      List.drop_eq_nil_of_le (by rw [block_words_length d v1]; omega)
    rw [if_pos c1]
    by_cases c2 : st.lcount + 1 ≥ d.count
    · have hrep : d.count - (st.lcount + 1) = 0 := by omega
      rw [if_pos c2]
      by_cases c3 : st.lpat_count + 1 > 3
      · have hlast : flatten_blocks ((dlist.take 4).drop (st.lpat_count + 1)) = [] := by
          rw [List.drop_eq_nil_of_le (by rw [List.length_take]; omega)]
          rfl
        have hpos : 0 < dlist.length := Nat.lt_of_lt_of_le (by decide) hv.1
        have h0 : dlist[0]? = some dlist[0] := List.getElem?_eq_getElem hpos
        simp only [if_pos c3, h0]
        refine ⟨_, _, _, hrem, rfl, rfl, rfl, Or.inl ⟨rfl, ?_⟩⟩
        rw [hdrop, hrep, hlast]
        rfl
      · obtain ⟨d1, hd1, hfl⟩ := flatten_blocks_drop dlist (st.lpat_count + 1) (by omega) hv.1
        obtain ⟨u1, u2, u3, u4⟩ :=
          hv.2 d1 (mem_take_of_getElem? dlist _ d1 (by omega) hd1)
        simp only [if_neg c3, hd1]
        refine ⟨_, _, _, hrem, rfl, rfl, rfl, Or.inr ⟨⟨hb, by dsimp only; omega, d1, hd1, rfl,
          Nat.zero_le _, by dsimp only; omega⟩, ?_⟩⟩
        unfold calc_remaining
        dsimp only
        rw [hd1, hdrop, hrep, hfl]
        dsimp only
        rw [repeat_words_succ_of_pos _ _ u2]
        simp [repeat_words]
    · rw [if_neg c2]
      refine ⟨_, _, _, hrem, rfl, rfl, rfl, Or.inr ⟨⟨hb, hl, d, hd, hls, Nat.zero_le _,
        by dsimp only; omega⟩, ?_⟩⟩
      unfold calc_remaining
      dsimp only
      rw [hd, hdrop]
      dsimp only
      rw [repeat_words_succ_of_pos _ (d.count - (st.lcount + 1)) (by omega)]
      have e : d.count - (st.lcount + 1) - 1 = d.count - (st.lcount + 1 + 1) := by omega
      rw [e]
      simp
  · rw [if_neg c1]
    refine ⟨_, _, _, hrem, rfl, rfl, rfl, Or.inr ⟨⟨hb, hl, d, hd, hls, by dsimp only; omega, hc⟩,
      ?_⟩⟩
    unfold calc_remaining
    dsimp only
    rw [hd]
theorem calc_remaining_pos (dlist : List displist) (hv : ValidBlocks dlist)
    (st : CalcLoop) (hinv : CalcInv dlist st) : 1 ≤ (calc_remaining dlist st).length := by
  obtain ⟨_, hl, d, hd, _, hh, _⟩ := hinv
  obtain ⟨v1, _, _, _⟩ := hv.2 d (mem_take_of_getElem? dlist _ d hl hd)
  unfold calc_remaining
  rw [hd]
  dsimp only
  rw [block_words_drop d v1 _ hh]
  simp

theorem calc_fulldlist_loop_of_bfin (dlist : List displist) (fuel : Nat) (st : CalcLoop)
    (h : st.bfin = true) : calc_fulldlist_loop dlist fuel st = some st := by
  cases fuel with
  | zero => simp [calc_fulldlist_loop, h]
  | succ n => simp [calc_fulldlist_loop, h]

theorem write_words_nil (f : Nat → Nat) (k : Nat) : write_words f k [] = f := by
  funext i
  simp [write_words]

theorem write_words_cons (f : Nat → Nat) (k w : Nat) (rest : List Nat) :
    write_words (fun i => if i = k then w else f i) (k + 1) rest = write_words f k (w :: rest) := by
  funext i
  unfold write_words
  by_cases h1 : k + 1 ≤ i
  · obtain ⟨j, rfl⟩ : ∃ j, i = k + 1 + j := ⟨i - (k + 1), by omega⟩
    have e1 : k + 1 + j - (k + 1) = j := by omega
    have e2 : k + 1 + j - k = j + 1 := by omega
    have e3 : ¬ (k + 1 + j = k) := by omega
    rw [if_pos h1, if_pos (by omega), e1, e2, List.getElem?_cons_succ]
    dsimp only
    rw [if_neg e3]
  · rw [if_neg h1]
    by_cases h2 : i = k
    · subst h2
      simp
    · dsimp only
      rw [if_neg h2, if_neg (by omega)]

theorem calc_fulldlist_loop_spec (dlist : List displist) (hv : ValidBlocks dlist) :
    ∀ (fuel : Nat) (st : CalcLoop), CalcInv dlist st →
      (calc_remaining dlist st).length ≤ fuel →
      st.indx + (calc_remaining dlist st).length ≤ 4096 →
      ∃ r : CalcLoop, calc_fulldlist_loop dlist fuel st = some r ∧ r.bfin = true ∧
        r.indx = st.indx + (calc_remaining dlist st).length ∧
        r.fulldlist = write_words st.fulldlist st.indx (calc_remaining dlist st) := by
  intro fuel
  induction fuel with
  | zero =>
    intro st hinv hfuel _
    have := calc_remaining_pos dlist hv st hinv
    omega
  | succ n ih =>
    intro st hinv hfuel hcap
    have hpos := calc_remaining_pos dlist hv st hinv
    obtain ⟨w, rest, st1, hrem, hbody, hidx, hfl, hcase⟩ :=
      calc_fulldlist_body_spec dlist hv st hinv (by omega)
    have hb : st.bfin = false := hinv.1
    rw [hrem] at hfuel hcap ⊢
    simp only [List.length_cons] at hfuel hcap ⊢
    simp only [calc_fulldlist_loop, hb, Bool.false_eq_true, if_false, hbody]
    rcases hcase with ⟨hfin, hnil⟩ | ⟨hinv1, hrem1⟩
    · refine ⟨st1, calc_fulldlist_loop_of_bfin dlist n st1 hfin, hfin, ?_, ?_⟩
      · rw [hidx, hnil]; rfl
      · rw [hfl, ← write_words_cons, hnil, write_words_nil]
    · obtain ⟨r, h1, h2, h3, h4⟩ := ih st1 hinv1 (by rw [hrem1]; omega) (by rw [hrem1, hidx]; omega)
      refine ⟨r, h1, h2, ?_, ?_⟩
      · rw [h3, hrem1, hidx]; omega
      · rw [h4, hrem1, hidx, hfl, write_words_cons]

theorem repeat_words_length (ws : List Nat) (n : Nat) :
    (repeat_words ws n).length = ws.length * n := by
  induction n with
  | zero => rfl
  | succ n ih => simp only [repeat_words, List.length_append, ih]; ring

theorem flatten_blocks_length (l : List displist)
    (h : ∀ d ∈ l, d.len < d.lsync.length) :
    (flatten_blocks l).length = blocks_size l := by
  induction l with
  | nil => rfl
  | cons d ds ih =>
    simp only [flatten_blocks, blocks_size, List.length_append, repeat_words_length]
    rw [block_words_length d (h d (List.mem_cons_self _ _)),
      ih (fun e he => h e (List.mem_cons_of_mem _ he))]

/-- With enough passes allowed, the loop of `calc_fulldlist` ends, having stored the
flattened first four blocks from index 0 on. -/
theorem calc_fulldlist_run_spec (s : GdpState) (dlist : List displist)
    (hv : ValidBlocks dlist) (hsize : blocks_size (dlist.take 4) ≤ 4096) (fuel : Nat)
    (hfuel : blocks_size (dlist.take 4) ≤ fuel) :
    ∃ r : CalcLoop, calc_fulldlist_run s dlist fuel = some r ∧ r.bfin = true ∧
      r.indx = blocks_size (dlist.take 4) ∧
      r.fulldlist = write_words s.fulldlist 0 (flatten_blocks (dlist.take 4)) := by
  obtain ⟨d0, hd0, hfl⟩ := flatten_blocks_drop dlist 0 (by decide) hv.1
  obtain ⟨v1, v2, _, _⟩ := hv.2 d0 (mem_take_of_getElem? dlist 0 d0 (by decide) hd0)
  have hlen : (flatten_blocks (dlist.take 4)).length = blocks_size (dlist.take 4) :=
    flatten_blocks_length _ (fun d hd => (hv.2 d hd).1)
  have hinv : CalcInv dlist
      { lpat_count := 0, lcount := 0, line_sync := d0.lsync, hlcount := 0, bfin := false,
        indx := 0, fulldlist := s.fulldlist } :=
    ⟨rfl, by norm_num, d0, hd0, rfl, Nat.zero_le _, v2⟩
  have hrem : calc_remaining dlist
      { lpat_count := 0, lcount := 0, line_sync := d0.lsync, hlcount := 0, bfin := false,
        indx := 0, fulldlist := s.fulldlist } = flatten_blocks (dlist.take 4) := by
    unfold calc_remaining
    dsimp only
    rw [hd0]
    dsimp only
    rw [List.drop_zero] at hfl
    rw [hfl, repeat_words_succ_of_pos _ _ v2]
    simp
  obtain ⟨r, h1, h2, h3, h4⟩ := calc_fulldlist_loop_spec dlist hv fuel _ hinv
    (by rw [hrem, hlen]; exact hfuel) (by rw [hrem, hlen]; simpa using hsize)
  refine ⟨r, ?_, h2, ?_, ?_⟩
  · unfold calc_fulldlist_run
    rw [hd0]
    exact h1
  · rw [h3, hrem, hlen]; simp
  · rw [h4, hrem]
theorem write_words_zero_lt (f : Nat → Nat) (ws : List Nat) (i : Nat) (h : i < ws.length) :
    ws[i]? = some (write_words f 0 ws i) := by
  unfold write_words
  rw [if_pos (Nat.zero_le _), Nat.sub_zero, List.getElem?_eq_getElem h]
  rfl

theorem write_words_zero_ge (f : Nat → Nat) (ws : List Nat) (i : Nat) (h : ws.length ≤ i) :
    write_words f 0 ws i = f i := by
  unfold write_words
  rw [if_pos (Nat.zero_le _), Nat.sub_zero, List.getElem?_eq_none h]
  rfl

theorem block_le_blocks_size (l : List displist) (d : displist) (hd : d ∈ l) :
    (d.len + 1) * d.count ≤ blocks_size l := by
  induction l with
  | nil => cases hd
  | cons e es ih =>
    rcases List.mem_cons.1 hd with h | h
    · subst h
      exact Nat.le_add_right _ _
    · exact Nat.le_trans (ih h) (Nat.le_add_left _ _)

theorem validBlocks_of_four (dlist : List displist) (h4 : dlist.length = 4)
    (hblk : ∀ d ∈ dlist, d.len < d.lsync.length ∧ 1 ≤ d.count)
    (hsize : blocks_size dlist ≤ 4096) : ValidBlocks dlist := by
  refine ⟨by omega, ?_⟩
  rw [List.take_of_length_le (by omega)]
  intro d hd
  obtain ⟨b1, b2⟩ := hblk d hd
  have h1 := block_le_blocks_size dlist d hd
  have h2 : d.len + 1 ≤ (d.len + 1) * d.count := Nat.le_mul_of_pos_right _ b2
  have h3 : d.count ≤ (d.len + 1) * d.count := Nat.le_mul_of_pos_left _ (Nat.succ_pos _)
  exact ⟨b1, b2, by omega, by omega⟩

theorem validBlocks_non_interlace : ValidBlocks non_interlace := by
  unfold ValidBlocks
  decide

theorem validBlocks_vga_standard : ValidBlocks vga_standard := by
  unfold ValidBlocks
  decide

theorem validBlocks_hd_standard : ValidBlocks hd_standard := by
  unfold ValidBlocks
  decide

/-- C7 (amended): for each of the three tables the number of words `calc_fulldlist`
stores equals the sum over the first four blocks of the table of (`len` + 1) x `count`:
88 words for `non_interlace`, 1046 for `vga_standard` and 2245 for `hd_standard` (the
last two tables have exactly four blocks, so there this is the sum over all blocks), and
this number is at most 4096. -/
theorem calc_fulldlist_word_count (s : GdpState) (fuel : Nat) (hfuel : 4096 ≤ fuel) :
    (∃ r : CalcLoop, calc_fulldlist_run s non_interlace fuel = some r ∧
      r.indx = blocks_size (non_interlace.take 4) ∧ r.indx = 88 ∧ r.indx ≤ 4096) ∧
    (∃ r : CalcLoop, calc_fulldlist_run s vga_standard fuel = some r ∧
      r.indx = blocks_size vga_standard ∧ r.indx = 1046 ∧ r.indx ≤ 4096) ∧
    (∃ r : CalcLoop, calc_fulldlist_run s hd_standard fuel = some r ∧
      r.indx = blocks_size hd_standard ∧ r.indx = 2245 ∧ r.indx ≤ 4096) := by
  have e1 : blocks_size (non_interlace.take 4) = 88 := by decide
  have e2 : blocks_size (vga_standard.take 4) = 1046 := by decide
  have e3 : blocks_size (hd_standard.take 4) = 2245 := by decide
  refine ⟨?_, ?_, ?_⟩
  · obtain ⟨r, h1, _, h3, _⟩ := calc_fulldlist_run_spec s non_interlace
      validBlocks_non_interlace (by omega) fuel (by omega)
    exact ⟨r, h1, h3, by omega, by omega⟩
  · obtain ⟨r, h1, _, h3, _⟩ := calc_fulldlist_run_spec s vga_standard
      validBlocks_vga_standard (by omega) fuel (by omega)
    exact ⟨r, h1, h3, by omega, by omega⟩
  · obtain ⟨r, h1, _, h3, _⟩ := calc_fulldlist_run_spec s hd_standard
      validBlocks_hd_standard (by omega) fuel (by omega)
    exact ⟨r, h1, h3, by omega, by omega⟩

/-- Instance of C7 (amended) at `line_demo_state` with 4096 passes allowed. -/
theorem calc_fulldlist_word_count_witness :
    ∃ r : CalcLoop, calc_fulldlist_run line_demo_state hd_standard 4096 = some r ∧
      r.indx = blocks_size hd_standard ∧ r.indx = 2245 ∧ r.indx ≤ 4096 :=
  (calc_fulldlist_word_count line_demo_state 4096 (by decide)).2.2

/-- C7 as stated fails for `non_interlace`: the sum over all seven blocks is 624 words,
but `calc_fulldlist` stops after the fourth block, having stored 88 words. -/
theorem calc_fulldlist_non_interlace_truncated :
    blocks_size non_interlace = 624 ∧
    ∃ r : CalcLoop, calc_fulldlist_run line_demo_state non_interlace 4096 = some r ∧
      r.indx = 88 ∧ r.indx ≠ blocks_size non_interlace := by
  have e1 : blocks_size (non_interlace.take 4) = 88 := by decide
  have e2 : blocks_size non_interlace = 624 := by decide
  obtain ⟨r, h1, _, h3, _⟩ := calc_fulldlist_run_spec line_demo_state non_interlace
    validBlocks_non_interlace (by omega) 4096 (by omega)
  exact ⟨e2, r, h1, by omega, by omega⟩

/-- C8: for every table of four blocks with valid pointers and repeat counts >= 1 whose
flattened size is at most 4096 words, `calc_fulldlist` (given at least that many passes)
ends; afterwards the prefix of `fulldlist` is the concatenation, in block order, of the
words `lsync[0 .. len]` of each block (one word for `len` = 0, two words in order for
`len` = 1) repeated `count` times, every word behind the prefix is as before, and
`line_count` is 0. -/
theorem calc_fulldlist_flatten (s : GdpState) (dlist : List displist)
    (h4 : dlist.length = 4)
    (hblk : ∀ d ∈ dlist, d.len < d.lsync.length ∧ 1 ≤ d.count)
    (hsize : blocks_size dlist ≤ 4096) (fuel : Nat) (hfuel : blocks_size dlist ≤ fuel) :
    ∃ t : GdpState, calc_fulldlist s dlist fuel = some t ∧
      (flatten_blocks dlist).length = blocks_size dlist ∧
      (∀ i : Nat, i < (flatten_blocks dlist).length →
        (flatten_blocks dlist)[i]? = some (t.fulldlist i)) ∧
      (∀ i : Nat, (flatten_blocks dlist).length ≤ i → t.fulldlist i = s.fulldlist i) ∧
      t.line_count = 0 := by
  have hv := validBlocks_of_four dlist h4 hblk hsize
  have htake : dlist.take 4 = dlist := List.take_of_length_le (by omega)
  obtain ⟨r, h1, _, _, h5⟩ := calc_fulldlist_run_spec s dlist hv (by rw [htake]; exact hsize)
    fuel (by rw [htake]; exact hfuel)
  rw [htake] at h5
  refine ⟨{ s with fulldlist := r.fulldlist, line_count := 0 }, ?_,
    flatten_blocks_length dlist (fun d hd => (hblk d hd).1), ?_, ?_, rfl⟩
  · unfold calc_fulldlist
    rw [h1]
  · intro i hi
    dsimp only
    rw [h5]
    exact write_words_zero_lt _ _ i hi
  · intro i hi
    dsimp only
    rw [h5]
    exact write_words_zero_ge _ _ i hi

/-- Instance of C8 at the table `demo_dlist`: word 2 of the display list is the first
word of `vga_line_sync_bl`, word 8 the second word of `vga_line_sync_dt`, word 9 is as
before, and `line_count` is 0. -/
theorem calc_fulldlist_flatten_witness :
    ∃ t : GdpState, calc_fulldlist line_demo_state demo_dlist 9 = some t ∧
      vga_line_sync_bl[0]? = some (t.fulldlist 2) ∧
      vga_line_sync_dt[1]? = some (t.fulldlist 8) ∧
      t.fulldlist 9 = line_demo_state.fulldlist 9 ∧ t.line_count = 0 := by
  obtain ⟨t, h1, _, h3, h4, h5⟩ := calc_fulldlist_flatten line_demo_state demo_dlist
    (by decide) (by decide) (by decide) 9 (by decide)
  refine ⟨t, h1, ?_, ?_, h4 9 (by decide), h5⟩
  · rw [← h3 2 (by decide)]
    rfl
  · rw [← h3 8 (by decide)]
    rfl

/-! ## Theorems about page selection and the command interpreter -/

/-- C9 (amended): after `gdp_page_monitor` has handled a queue entry for the page register
0x60 with data byte `d`, `graphmem` (the page shown) points at page `(d >> 4) & 3`, bits
4-5 of `d`, and `graphmem_write` (the page drawn on) at page `(d >> 6) & 3`, bits 6-7. -/
theorem gdp_page_monitor_pages (s : GdpState) (old_vsync fifo_cmd : Nat)
    (hreg : (fifo_cmd >>> 8) &&& 0xFF = 0x60) :
    (gdp_page_monitor_pass s old_vsync (some fifo_cmd)).1.graphmem
      = 4096 * (((fifo_cmd &&& 0xFF) >>> 4) &&& 3) ∧
    (gdp_page_monitor_pass s old_vsync (some fifo_cmd)).1.graphmem_write
      = 4096 * (((fifo_cmd &&& 0xFF) >>> 6) &&& 3) := by
  unfold gdp_page_monitor_pass
  simp only [hreg, if_true]
  split
  · split <;> exact ⟨rfl, rfl⟩
  · exact ⟨rfl, rfl⟩

/-- Instance of C9 (amended): the entry 0x6040 (register 0x60, data 0x40) selects page 0
for display and page 1 for drawing. -/
theorem gdp_page_monitor_pages_witness :
    (gdp_page_monitor_pass line_demo_state 0 (some 0x6040)).1.graphmem = 0 ∧
    (gdp_page_monitor_pass line_demo_state 0 (some 0x6040)).1.graphmem_write = 4096 :=
  ⟨(gdp_page_monitor_pages line_demo_state 0 0x6040 (by decide)).1.trans (by decide),
   (gdp_page_monitor_pages line_demo_state 0 0x6040 (by decide)).2.trans (by decide)⟩

/-- C9 as stated fails: for the entry 0x6040 (data byte 0x40, bits 6-7 = 1, bits 4-5 = 0)
the page shown is not page `(d >> 6) & 3 = 1` and the page drawn on is not page
`(d >> 4) & 3 = 0`. -/
theorem gdp_page_monitor_pages_swapped :
    (gdp_page_monitor_pass line_demo_state 0 (some 0x6040)).1.graphmem
      ≠ 4096 * ((0x40 >>> 6) &&& 3) ∧
    (gdp_page_monitor_pass line_demo_state 0 (some 0x6040)).1.graphmem_write
      ≠ 4096 * ((0x40 >>> 4) &&& 3) := by
  decide

theorem pageFrame_refl (s : GdpState) : PageFrame s s := ⟨rfl, fun _ _ => rfl⟩

theorem pageFrame_trans {s t u : GdpState} (h1 : PageFrame s t) (h2 : PageFrame t u) :
    PageFrame s u := by
  refine ⟨h2.1.trans h1.1, fun i hi => ?_⟩
  rw [h2.2 i (by rw [h1.1]; exact hi), h1.2 i hi]

theorem pageFrame_of_drawFrame {s t : GdpState} (h : DrawFrame s t) : PageFrame s t :=
  ⟨h.1.2.2.1, h.2⟩

theorem write_io_reg_pageFrame (s : GdpState) (adr data : Nat) :
    PageFrame s (write_io_reg s adr data) := ⟨rfl, fun _ _ => rfl⟩

theorem change_io_reg_pageFrame (s : GdpState) (adr b c : Nat) :
    PageFrame s (change_io_reg s adr b c) := ⟨rfl, fun _ _ => rfl⟩

theorem clear_draw_page_pageFrame (s : GdpState) : PageFrame s (clear_draw_page s) := by
  refine ⟨rfl, fun i hi => ?_⟩
  unfold clear_draw_page
  dsimp only
  rw [if_neg hi]

theorem zero_cursor_pageFrame (s : GdpState) : PageFrame s (zero_cursor s) :=
  ⟨rfl, fun _ _ => rfl⟩

theorem reset_control_pageFrame (s : GdpState) : PageFrame s (reset_control s) :=
  ⟨rfl, fun _ _ => rfl⟩

theorem draw_line_pageFrame (s : GdpState) (c : Nat) : PageFrame s (draw_line s c) := by
  have h := pageFrame_of_drawFrame (draw_line_run_drawFrame s c)
  exact ⟨h.1, h.2⟩

theorem draw_char_pageFrame (s : GdpState) (a : Nat) : PageFrame s (draw_char s a) := by
  have h := pageFrame_of_drawFrame (draw_char_render_drawFrame s a)
  unfold draw_char
  dsimp only
  split
  · exact ⟨h.1, h.2⟩
  · exact ⟨h.1, h.2⟩

theorem gdp_proc_command_pageFrame (s : GdpState) (cmd : Nat) :
    PageFrame s (gdp_proc_command s cmd) := by
  unfold gdp_proc_command
  split
  · split
    · exact change_io_reg_pageFrame _ _ _ _
    · exact change_io_reg_pageFrame _ _ _ _
    · exact change_io_reg_pageFrame _ _ _ _
    · exact change_io_reg_pageFrame _ _ _ _
    · exact pageFrame_trans (pageFrame_trans (reset_control_pageFrame s)
        (zero_cursor_pageFrame _)) (clear_draw_page_pageFrame _)
    · exact pageFrame_trans (zero_cursor_pageFrame s) (clear_draw_page_pageFrame _)
    · exact clear_draw_page_pageFrame s
    · exact zero_cursor_pageFrame s
    · exact draw_char_pageFrame s 128
    · exact pageFrame_refl s
  · split
    · split
      · exact draw_char_pageFrame s cmd
      · exact draw_line_pageFrame s cmd
    · exact draw_line_pageFrame s cmd

/-- C10: for every command byte, every state and every draw page `w` in 0..3,
`gdp_proc_command` changes no word of the graphics memory outside the words
`4096*w .. 4096*w + 4095` of page `w`, which lie inside the 16384-word store, so no word
at an index of 16384 or more is touched; in particular with draw page 1 no word of page 0
changes, and with draw page 0 no word of page 1 changes. -/
theorem gdp_proc_command_page_isolation (s : GdpState) (cmd w : Nat) (hw : w ≤ 3)
    (hpage : s.graphmem_write = 4096 * w) :
    (∀ i : Nat, ¬ (4096 * w ≤ i ∧ i < 4096 * w + 4096) →
      (gdp_proc_command s cmd).graphmem_4p i = s.graphmem_4p i) ∧
    4096 * w + 4096 ≤ 16384 ∧
    (∀ i : Nat, 16384 ≤ i → (gdp_proc_command s cmd).graphmem_4p i = s.graphmem_4p i) ∧
    (w = 1 → ∀ i : Nat, i < 4096 → (gdp_proc_command s cmd).graphmem_4p i = s.graphmem_4p i) ∧
    (w = 0 → ∀ i : Nat, 4096 ≤ i → i < 8192 →
      (gdp_proc_command s cmd).graphmem_4p i = s.graphmem_4p i) := by
  have h := (gdp_proc_command_pageFrame s cmd).2
  rw [hpage] at h
  refine ⟨h, by omega, fun i hi => h i (by omega), fun e i hi => h i (by omega),
    fun e i h1 h2 => h i (by omega)⟩

/-- Instance of C10: with draw page 1 selected, the clear command 0x4 and the character
command 0x41 leave word 100 of page 0 as it was. -/
theorem gdp_proc_command_page_isolation_witness :
    (gdp_proc_command (gdp_set_pages line_demo_state 0 1) 0x4).graphmem_4p 100
      = (gdp_set_pages line_demo_state 0 1).graphmem_4p 100 ∧
    (gdp_proc_command (gdp_set_pages line_demo_state 0 1) 0x41).graphmem_4p 100
      = (gdp_set_pages line_demo_state 0 1).graphmem_4p 100 :=
  ⟨(gdp_proc_command_page_isolation (gdp_set_pages line_demo_state 0 1) 0x4 1 (by decide)
      rfl).1 100 (by decide),
   (gdp_proc_command_page_isolation (gdp_set_pages line_demo_state 0 1) 0x41 1 (by decide)
      rfl).1 100 (by decide)⟩

/-! ## Theorems about the low commands of `gdp_proc_command` -/

theorem gdp_proc_command_4 (s : GdpState) : gdp_proc_command s 0x4 = clear_draw_page s := rfl

theorem gdp_proc_command_5 (s : GdpState) : gdp_proc_command s 0x5 = zero_cursor s := rfl

theorem gdp_proc_command_6 (s : GdpState) :
    gdp_proc_command s 0x6 = clear_draw_page (zero_cursor s) := rfl

theorem gdp_proc_command_7 (s : GdpState) :
    gdp_proc_command s 0x7 = clear_draw_page (zero_cursor (reset_control s)) := rfl

theorem clear_draw_page_word (s : GdpState) (i : Nat) (hi : i < 4096) :
    (clear_draw_page s).graphmem_4p (s.graphmem_write + i) = 0 := by
  unfold clear_draw_page
  dsimp only
  rw [if_pos ⟨Nat.le_add_right _ _, by omega⟩]

theorem clear_draw_page_idem (s : GdpState) :
    clear_draw_page (clear_draw_page s) = clear_draw_page s := by
  unfold clear_draw_page
  dsimp only
  congr 1
  funext i
  by_cases h : s.graphmem_write ≤ i ∧ i < s.graphmem_write + 4096
  · simp only [h, and_self, if_true]
  · simp only [h, if_false]

/-- C11: after command 0x4 all 4096 words of the draw page are 0, so every pixel of the
512x256 screen reads as unset in the draw page; the register file and the rest of the
state outside the graphics memory are unchanged; a second command 0x4 changes nothing. -/
theorem gdp_proc_command_clear (s : GdpState) :
    (∀ i : Nat, i < 4096 → (gdp_proc_command s 0x4).graphmem_4p (s.graphmem_write + i) = 0) ∧
    (∀ x y : Nat, x < 512 → y < 256 → pixel_set (gdp_proc_command s 0x4) x y = false) ∧
    SameRegs s (gdp_proc_command s 0x4) ∧
    gdp_proc_command (gdp_proc_command s 0x4) 0x4 = gdp_proc_command s 0x4 := by
  rw [gdp_proc_command_4, gdp_proc_command_4]
  refine ⟨fun i hi => clear_draw_page_word s i hi, ?_, ⟨rfl, rfl, rfl, rfl, rfl, rfl⟩,
    clear_draw_page_idem s⟩
  intro x y _ _
  unfold pixel_set
  have hw : (clear_draw_page s).graphmem_write = s.graphmem_write := rfl
  rw [hw, clear_draw_page_word s _ (pixel_mpos_lt x y)]
  exact Nat.zero_testBit _

/-- Instance of C11: after a character has been drawn in `line_demo_state`, command 0x4
leaves word 2419 of the draw page (holding pixels of row 104) zero and pixel (100,104)
unset. -/
theorem gdp_proc_command_clear_witness :
    (gdp_proc_command (draw_char line_demo_state 0x41) 0x4).graphmem_4p
      ((draw_char line_demo_state 0x41).graphmem_write + 2419) = 0 ∧
    pixel_set (gdp_proc_command (draw_char line_demo_state 0x41) 0x4) 100 104 = false :=
  ⟨(gdp_proc_command_clear (draw_char line_demo_state 0x41)).1 2419 (by decide),
   (gdp_proc_command_clear (draw_char line_demo_state 0x41)).2.1 100 104 (by decide)
     (by decide)⟩

/-- C12: after command 0x7 control1 = 0, control2 = 0, char-size = 0x11, the four cursor
bytes are 0 and every word of the draw page is 0; every other register (delta-x, delta-y
and the status register among them) and every word outside the draw page is unchanged. -/
theorem gdp_proc_command_reset (s : GdpState) :
    (gdp_proc_command s 0x7).z80_mem gdp_ctrl1 = 0 ∧
    (gdp_proc_command s 0x7).z80_mem gdp_ctrl2 = 0 ∧
    (gdp_proc_command s 0x7).z80_mem gdp_csize = 0x11 ∧
    (gdp_proc_command s 0x7).z80_mem gdp_xmsb = 0 ∧
    (gdp_proc_command s 0x7).z80_mem gdp_xlsb = 0 ∧
    (gdp_proc_command s 0x7).z80_mem gdp_ymsb = 0 ∧
    (gdp_proc_command s 0x7).z80_mem gdp_ylsb = 0 ∧
    (∀ i : Nat, i < 4096 → (gdp_proc_command s 0x7).graphmem_4p (s.graphmem_write + i) = 0) ∧
    (gdp_proc_command s 0x7).z80_mem gdp_deltax = s.z80_mem gdp_deltax ∧
    (gdp_proc_command s 0x7).z80_mem gdp_deltay = s.z80_mem gdp_deltay ∧
    (gdp_proc_command s 0x7).z80_mem gdp_status = s.z80_mem gdp_status ∧
    (∀ a : Nat, a ≠ gdp_ctrl1 → a ≠ gdp_ctrl2 → a ≠ gdp_csize → a ≠ gdp_xmsb → a ≠ gdp_xlsb →
      a ≠ gdp_ymsb → a ≠ gdp_ylsb → (gdp_proc_command s 0x7).z80_mem a = s.z80_mem a) ∧
    (∀ i : Nat, ¬ (s.graphmem_write ≤ i ∧ i < s.graphmem_write + 4096) →
      (gdp_proc_command s 0x7).graphmem_4p i = s.graphmem_4p i) := by
  rw [gdp_proc_command_7]
  refine ⟨rfl, rfl, rfl, rfl, rfl, rfl, rfl, ?_, rfl, rfl, rfl, ?_, ?_⟩
  · intro i hi
    exact clear_draw_page_word (zero_cursor (reset_control s)) i hi
  · intro a h1 h2 h3 h4 h5 h6 h7
    simp only [clear_draw_page, zero_cursor, reset_control, write_io_reg, h1, h2, h3, h4, h5,
      h6, h7, if_false]
  · intro i hi
    exact (clear_draw_page_pageFrame (zero_cursor (reset_control s))).2 i hi

/-- Instance of C12 in `line_demo_state` after a character has been drawn: word 2419 of
the draw page is zero again, the port 0x10 outside the GDP registers is as before. -/
theorem gdp_proc_command_reset_witness :
    (gdp_proc_command (draw_char line_demo_state 0x41) 0x7).graphmem_4p
      ((draw_char line_demo_state 0x41).graphmem_write + 2419) = 0 ∧
    (gdp_proc_command (draw_char line_demo_state 0x41) 0x7).z80_mem 0x10
      = (draw_char line_demo_state 0x41).z80_mem 0x10 :=
  ⟨(gdp_proc_command_reset (draw_char line_demo_state 0x41)).2.2.2.2.2.2.2.1 2419 (by decide),
   (gdp_proc_command_reset (draw_char line_demo_state 0x41)).2.2.2.2.2.2.2.2.2.2.2.1 0x10
     (by decide) (by decide) (by decide) (by decide) (by decide) (by decide) (by decide)⟩

/-- C13: command 0x6 yields the same state as command 0x5 followed by command 0x4, and
command 0x5 alone zeroes the four cursor bytes while leaving the graphics memory, every
other register and the rest of the state unchanged. -/
theorem gdp_proc_command_cascade (s : GdpState) :
    gdp_proc_command s 0x6 = gdp_proc_command (gdp_proc_command s 0x5) 0x4 ∧
    (gdp_proc_command s 0x5).z80_mem gdp_xmsb = 0 ∧
    (gdp_proc_command s 0x5).z80_mem gdp_xlsb = 0 ∧
    (gdp_proc_command s 0x5).z80_mem gdp_ymsb = 0 ∧
    (gdp_proc_command s 0x5).z80_mem gdp_ylsb = 0 ∧
    (gdp_proc_command s 0x5).graphmem_4p = s.graphmem_4p ∧
    (∀ a : Nat, a ≠ gdp_xmsb → a ≠ gdp_xlsb → a ≠ gdp_ymsb → a ≠ gdp_ylsb →
      (gdp_proc_command s 0x5).z80_mem a = s.z80_mem a) ∧
    (gdp_proc_command s 0x5).graphmem = s.graphmem ∧
    (gdp_proc_command s 0x5).graphmem_write = s.graphmem_write ∧
    (gdp_proc_command s 0x5).fulldlist = s.fulldlist ∧
    (gdp_proc_command s 0x5).line_count = s.line_count ∧
    (gdp_proc_command s 0x5).vsync_flag = s.vsync_flag := by
  rw [gdp_proc_command_6, gdp_proc_command_5, gdp_proc_command_4]
  refine ⟨rfl, rfl, rfl, rfl, rfl, rfl, ?_, rfl, rfl, rfl, rfl, rfl⟩
  intro a h1 h2 h3 h4
  simp only [zero_cursor, write_io_reg, h1, h2, h3, h4, if_false]

/-- Instance of C13 in `line_demo_state`: command 0x5 leaves control1 (port 0x71) at 3. -/
theorem gdp_proc_command_cascade_witness :
    (gdp_proc_command line_demo_state 0x5).z80_mem 0x71 = 3 :=
  ((gdp_proc_command_cascade line_demo_state).2.2.2.2.2.2.1 0x71 (by decide) (by decide)
    (by decide) (by decide)).trans rfl

/-- C14: for a command byte `c` with `0x20 <= c < 0x80` the command has exactly the effect
of `draw_char c`; with `0x10 <= c < 0x20` or `c >= 0x80` exactly the effect of
`draw_line c`; command 0x0A has exactly the effect of `draw_char 0x80`. -/
theorem gdp_proc_command_dispatch (s : GdpState) (c : Nat) :
    (0x20 ≤ c → c < 0x80 → gdp_proc_command s c = draw_char s c) ∧
    (0x10 ≤ c → c < 0x20 → gdp_proc_command s c = draw_line s c) ∧
    (0x80 ≤ c → gdp_proc_command s c = draw_line s c) ∧
    gdp_proc_command s 0x0A = draw_char s 0x80 := by
  refine ⟨fun h1 h2 => ?_, fun h1 h2 => ?_, fun h1 => ?_, rfl⟩
  · unfold gdp_proc_command
    rw [if_neg (by omega), if_pos (by omega), if_pos h2]
  · unfold gdp_proc_command
    rw [if_neg (by omega), if_neg (by omega)]
  · unfold gdp_proc_command
    rw [if_neg (by omega), if_pos (by omega), if_neg (by omega)]

/-- Instance of C14 at the command bytes 0x41, 0x11 and 0x93 in `line_demo_state`. -/
theorem gdp_proc_command_dispatch_witness :
    gdp_proc_command line_demo_state 0x41 = draw_char line_demo_state 0x41 ∧
    gdp_proc_command line_demo_state 0x11 = draw_line line_demo_state 0x11 ∧
    gdp_proc_command line_demo_state 0x93 = draw_line line_demo_state 0x93 :=
  ⟨(gdp_proc_command_dispatch line_demo_state 0x41).1 (by decide) (by decide),
   (gdp_proc_command_dispatch line_demo_state 0x11).2.1 (by decide) (by decide),
   (gdp_proc_command_dispatch line_demo_state 0x93).2.2.1 (by decide)⟩

set_option maxRecDepth 100000 in
theorem byte_set_bit1 : ∀ v : Nat, v < 256 →
    (((v ||| 0x2) &&& (0 ^^^ 0xFF)) % 256).testBit 1 = true ∧
    ∀ j : Nat, j < 8 → j ≠ 1 →
      (((v ||| 0x2) &&& (0 ^^^ 0xFF)) % 256).testBit j = v.testBit j := by
  decide

set_option maxRecDepth 100000 in
theorem byte_clear_bit1 : ∀ v : Nat, v < 256 →
    (((v ||| 0) &&& (0x2 ^^^ 0xFF)) % 256).testBit 1 = false ∧
    ∀ j : Nat, j < 8 → j ≠ 1 →
      (((v ||| 0) &&& (0x2 ^^^ 0xFF)) % 256).testBit j = v.testBit j := by
  decide

set_option maxRecDepth 100000 in
theorem byte_set_bit0 : ∀ v : Nat, v < 256 →
    (((v ||| 0x1) &&& (0 ^^^ 0xFF)) % 256).testBit 0 = true ∧
    ∀ j : Nat, j < 8 → j ≠ 0 →
      (((v ||| 0x1) &&& (0 ^^^ 0xFF)) % 256).testBit j = v.testBit j := by
  decide

set_option maxRecDepth 100000 in
theorem byte_clear_bit0 : ∀ v : Nat, v < 256 →
    (((v ||| 0) &&& (0x1 ^^^ 0xFF)) % 256).testBit 0 = false ∧
    ∀ j : Nat, j < 8 → j ≠ 0 →
      (((v ||| 0) &&& (0x1 ^^^ 0xFF)) % 256).testBit j = v.testBit j := by
  decide

/-- What `change_io_reg` leaves in the register it changes, as read back, and that it
changes nothing else. -/
theorem change_io_reg_read (s : GdpState) (adr b c : Nat) :
    read_io_reg (change_io_reg s adr b c) adr
      = (((read_io_reg s adr) ||| b) &&& (c ^^^ 0xFF)) % 256 ∧
    (∀ a : Nat, a ≠ adr → (change_io_reg s adr b c).z80_mem a = s.z80_mem a) ∧
    (change_io_reg s adr b c).graphmem_4p = s.graphmem_4p ∧
    (change_io_reg s adr b c).graphmem = s.graphmem ∧
    (change_io_reg s adr b c).graphmem_write = s.graphmem_write := by
  refine ⟨?_, fun a ha => ?_, rfl, rfl, rfl⟩
  · simp only [read_io_reg, change_io_reg, if_true, Nat.mod_mod]
  · simp only [change_io_reg, ha, if_false]

theorem gdp_proc_command_0 (s : GdpState) :
    gdp_proc_command s 0x0 = change_io_reg s gdp_ctrl1 0x2 0 := rfl

theorem gdp_proc_command_1 (s : GdpState) :
    gdp_proc_command s 0x1 = change_io_reg s gdp_ctrl1 0 0x2 := rfl

theorem gdp_proc_command_2 (s : GdpState) :
    gdp_proc_command s 0x2 = change_io_reg s gdp_ctrl1 0x1 0 := rfl

theorem gdp_proc_command_3 (s : GdpState) :
    gdp_proc_command s 0x3 = change_io_reg s gdp_ctrl1 0 0x1 := rfl

/-- C15: command 0x0 sets bit 1 of control1, 0x1 clears bit 1, 0x2 sets bit 0 and 0x3
clears bit 0; each of the four leaves the other seven bits of control1, every other
register, every word of the graphics memory and both page pointers unchanged. -/
theorem gdp_proc_command_mode_bits (s : GdpState) :
    ((read_io_reg (gdp_proc_command s 0x0) gdp_ctrl1).testBit 1 = true ∧
      ∀ j : Nat, j < 8 → j ≠ 1 →
        (read_io_reg (gdp_proc_command s 0x0) gdp_ctrl1).testBit j
          = (read_io_reg s gdp_ctrl1).testBit j) ∧
    ((read_io_reg (gdp_proc_command s 0x1) gdp_ctrl1).testBit 1 = false ∧
      ∀ j : Nat, j < 8 → j ≠ 1 →
        (read_io_reg (gdp_proc_command s 0x1) gdp_ctrl1).testBit j
          = (read_io_reg s gdp_ctrl1).testBit j) ∧
    ((read_io_reg (gdp_proc_command s 0x2) gdp_ctrl1).testBit 0 = true ∧
      ∀ j : Nat, j < 8 → j ≠ 0 →
        (read_io_reg (gdp_proc_command s 0x2) gdp_ctrl1).testBit j
          = (read_io_reg s gdp_ctrl1).testBit j) ∧
    ((read_io_reg (gdp_proc_command s 0x3) gdp_ctrl1).testBit 0 = false ∧
      ∀ j : Nat, j < 8 → j ≠ 0 →
        (read_io_reg (gdp_proc_command s 0x3) gdp_ctrl1).testBit j
          = (read_io_reg s gdp_ctrl1).testBit j) ∧
    (∀ cmd : Nat, cmd < 4 →
      (∀ a : Nat, a ≠ gdp_ctrl1 → (gdp_proc_command s cmd).z80_mem a = s.z80_mem a) ∧
      (gdp_proc_command s cmd).graphmem_4p = s.graphmem_4p ∧
      (gdp_proc_command s cmd).graphmem = s.graphmem ∧
      (gdp_proc_command s cmd).graphmem_write = s.graphmem_write) := by
  have hv : read_io_reg s gdp_ctrl1 < 256 := Nat.mod_lt _ (by decide)
  refine ⟨?_, ?_, ?_, ?_, ?_⟩
  · rw [gdp_proc_command_0, (change_io_reg_read s gdp_ctrl1 0x2 0).1]
    exact byte_set_bit1 _ hv
  · rw [gdp_proc_command_1, (change_io_reg_read s gdp_ctrl1 0 0x2).1]
    exact byte_clear_bit1 _ hv
  · rw [gdp_proc_command_2, (change_io_reg_read s gdp_ctrl1 0x1 0).1]
    exact byte_set_bit0 _ hv
  · rw [gdp_proc_command_3, (change_io_reg_read s gdp_ctrl1 0 0x1).1]
    exact byte_clear_bit0 _ hv
  · intro cmd hcmd
    have hc : cmd = 0 ∨ cmd = 1 ∨ cmd = 2 ∨ cmd = 3 := by omega
    rcases hc with rfl | rfl | rfl | rfl
    · rw [gdp_proc_command_0]; exact (change_io_reg_read s gdp_ctrl1 0x2 0).2
    · rw [gdp_proc_command_1]; exact (change_io_reg_read s gdp_ctrl1 0 0x2).2
    · rw [gdp_proc_command_2]; exact (change_io_reg_read s gdp_ctrl1 0x1 0).2
    · rw [gdp_proc_command_3]; exact (change_io_reg_read s gdp_ctrl1 0 0x1).2

/-- Instance of C15 in `line_demo_state` (control1 = 3): command 0x3 leaves bit 1 of
control1 set, and command 0x1 leaves delta-x at 0x10. -/
theorem gdp_proc_command_mode_bits_witness :
    (read_io_reg (gdp_proc_command line_demo_state 0x3) gdp_ctrl1).testBit 1 = true ∧
    (gdp_proc_command line_demo_state 0x1).z80_mem gdp_deltax = 0x10 :=
  ⟨((gdp_proc_command_mode_bits line_demo_state).2.2.2.1.2 1 (by decide) (by decide)).trans
      (by decide),
   (((gdp_proc_command_mode_bits line_demo_state).2.2.2.2 1 (by decide)).1 gdp_deltax
      (by decide)).trans (by decide)⟩

/-- C16: the reserved command bytes 0x08, 0x09, 0x0B, 0x0C, 0x0D, 0x0E and 0x0F leave the
whole state (all registers and all pages of the graphics memory) unchanged. -/
theorem gdp_proc_command_reserved (s : GdpState) (c : Nat)
    (hc : c = 0x08 ∨ c = 0x09 ∨ c = 0x0B ∨ c = 0x0C ∨ c = 0x0D ∨ c = 0x0E ∨ c = 0x0F) :
    gdp_proc_command s c = s := by
  rcases hc with rfl | rfl | rfl | rfl | rfl | rfl | rfl <;> rfl

/-- Instance of C16: command 0x0B in `line_demo_state`. -/
theorem gdp_proc_command_reserved_witness :
    gdp_proc_command line_demo_state 0x0B = line_demo_state :=
  gdp_proc_command_reserved line_demo_state 0x0B (by decide)

/-! ## Further theorems about `draw_char` -/

theorem draw_char_render_pen_up (s : GdpState) (a : Nat)
    (h : read_io_reg s gdp_ctrl1 &&& 0x1 = 0) : draw_char_render s a = s := by
  unfold draw_char_render
  dsimp only
  rw [if_neg (fun e => e h)]

/-- The cursor after `draw_char`, in terms of `char_size_x`. -/
theorem draw_char_cursor_source (s : GdpState) (a : Nat) :
    (read_io_reg s gdp_ctrl2 &&& 0x8 = 0 →
      cursor_x (draw_char s a)
        = (cursor_x s + 6 * char_size_x (read_io_reg s gdp_csize)) % 65536 ∧
      cursor_y (draw_char s a) = cursor_y s) ∧
    (read_io_reg s gdp_ctrl2 &&& 0x8 ≠ 0 →
      cursor_y (draw_char s a)
        = (cursor_y s + 6 * char_size_x (read_io_reg s gdp_csize)) % 65536 ∧
      cursor_x (draw_char s a) = cursor_x s) := by
  have hz : (draw_char_render s a).z80_mem = s.z80_mem := (draw_char_render_drawFrame s a).1.1
  constructor
  · intro h
    have hn : ¬ (read_io_reg s gdp_ctrl2 &&& 0x8 ≠ 0) := fun e => e h
    unfold draw_char
    dsimp only
    rw [if_neg hn]
    generalize char_size_x (read_io_reg s gdp_csize) = sx
    generalize draw_char_render s a = s1 at hz ⊢
    simp only [cursor_x, cursor_y, read_io_reg, write_io_reg, gdp_xmsb, gdp_xlsb, gdp_ymsb,
      gdp_ylsb, GDP_BASE, and_255, shr_8, hz]
    simp
    omega
  · intro h
    unfold draw_char
    dsimp only
    rw [if_pos h]
    generalize char_size_x (read_io_reg s gdp_csize) = sx
    generalize draw_char_render s a = s1 at hz ⊢
    simp only [cursor_x, cursor_y, read_io_reg, write_io_reg, gdp_xmsb, gdp_xlsb, gdp_ymsb,
      gdp_ylsb, GDP_BASE, and_255, shr_8, hz]
    simp
    omega

theorem draw_char_graphmem (s : GdpState) (a : Nat) :
    (draw_char s a).graphmem_4p = (draw_char_render s a).graphmem_4p := by
  unfold draw_char
  dsimp only
  split <;> rfl

/-- The cursor after `draw_char` depends on the registers other than control1 only. -/
theorem draw_char_cursor_congr (s t : GdpState) (a : Nat)
    (hreg : ∀ adr : Nat, adr ≠ gdp_ctrl1 → t.z80_mem adr = s.z80_mem adr) :
    cursor_x (draw_char t a) = cursor_x (draw_char s a) ∧
    cursor_y (draw_char t a) = cursor_y (draw_char s a) := by
  have r2 : read_io_reg t gdp_ctrl2 = read_io_reg s gdp_ctrl2 := by
    unfold read_io_reg; rw [hreg _ (by decide)]
  have r3 : read_io_reg t gdp_csize = read_io_reg s gdp_csize := by
    unfold read_io_reg; rw [hreg _ (by decide)]
  have cx : cursor_x t = cursor_x s := by
    unfold cursor_x read_io_reg; rw [hreg _ (by decide), hreg _ (by decide)]
  have cy : cursor_y t = cursor_y s := by
    unfold cursor_y read_io_reg; rw [hreg _ (by decide), hreg _ (by decide)]
  obtain ⟨hs0, hs1⟩ := draw_char_cursor_source s a
  obtain ⟨ht0, ht1⟩ := draw_char_cursor_source t a
  rw [r2, r3, cx, cy] at ht0 ht1
  by_cases h : read_io_reg s gdp_ctrl2 &&& 0x8 = 0
  · exact ⟨(ht0 h).1.trans (hs0 h).1.symm, (ht0 h).2.trans (hs0 h).2.symm⟩
  · exact ⟨(ht1 h).2.trans (hs1 h).2.symm, (ht1 h).1.trans (hs1 h).1.symm⟩

/-- C17: when control1 bit 0 is clear, `draw_char` leaves every word of the graphics
memory unchanged, and the cursor is advanced by `6*size_x` along the primary axis (x when
control2 bit 3 is clear, y when it is set), the other axis staying as it is; the cursor
that results is the same as from any state that differs in control1 only, so the same as
when bit 0 is set. -/
theorem draw_char_pen_up (s : GdpState) (a : Nat)
    (h : read_io_reg s gdp_ctrl1 &&& 0x1 = 0) :
    (draw_char s a).graphmem_4p = s.graphmem_4p ∧
    (read_io_reg s gdp_ctrl2 &&& 0x8 = 0 →
      cursor_x (draw_char s a)
        = (cursor_x s + 6 * claimed_x_scale (read_io_reg s gdp_csize)) % 65536 ∧
      cursor_y (draw_char s a) = cursor_y s) ∧
    (read_io_reg s gdp_ctrl2 &&& 0x8 ≠ 0 →
      cursor_y (draw_char s a)
        = (cursor_y s + 6 * claimed_x_scale (read_io_reg s gdp_csize)) % 65536 ∧
      cursor_x (draw_char s a) = cursor_x s) ∧
    (∀ t : GdpState, (∀ adr : Nat, adr ≠ gdp_ctrl1 → t.z80_mem adr = s.z80_mem adr) →
      cursor_x (draw_char t a) = cursor_x (draw_char s a) ∧
      cursor_y (draw_char t a) = cursor_y (draw_char s a)) := by
  refine ⟨?_, ?_, ?_, fun t ht => draw_char_cursor_congr s t a ht⟩
  · rw [draw_char_graphmem, draw_char_render_pen_up s a h]
  · rw [← char_size_x_eq_claimed]
    exact (draw_char_cursor_source s a).1
  · rw [← char_size_x_eq_claimed]
    exact (draw_char_cursor_source s a).2

/-- Instance of C17: with control1 = 2 (bit 0 clear) in `line_demo_state`, drawing glyph
0x41 leaves word 2419 of the graphics memory zero, moves the x cursor to 106, and the
cursor is the one that results with control1 = 3. -/
theorem draw_char_pen_up_witness :
    (draw_char (write_io_reg line_demo_state gdp_ctrl1 2) 0x41).graphmem_4p 2419 = 0 ∧
    cursor_x (draw_char (write_io_reg line_demo_state gdp_ctrl1 2) 0x41) = 106 ∧
    cursor_x (draw_char line_demo_state 0x41)
      = cursor_x (draw_char (write_io_reg line_demo_state gdp_ctrl1 2) 0x41) :=
  ⟨(congrFun (draw_char_pen_up (write_io_reg line_demo_state gdp_ctrl1 2) 0x41
      (by decide)).1 2419).trans rfl,
   ((draw_char_pen_up (write_io_reg line_demo_state gdp_ctrl1 2) 0x41
      (by decide)).2.1 (by decide)).1.trans (by decide),
   ((draw_char_pen_up (write_io_reg line_demo_state gdp_ctrl1 2) 0x41
      (by decide)).2.2.2 line_demo_state
      (fun adr hadr => by simp only [write_io_reg, hadr, if_false])).1⟩

theorem foldl_state_eq {α : Type} (f : CharLoop → α → CharLoop)
    (hf : ∀ (st : CharLoop) (a : α), (f st a).s = st.s) :
    ∀ (l : List α) (st : CharLoop), (l.foldl f st).s = st.s := by
  intro l
  induction l with
  | nil => intro st; rfl
  | cons a l ih =>
    intro st
    rw [List.foldl_cons, ih (f st a), hf st a]

theorem draw_char_dot_blank (ctrlreg2 j : Nat) (st : CharLoop) :
    (draw_char_dot ctrlreg2 0 j st).s = st.s := by
  unfold draw_char_dot
  dsimp only
  rw [Nat.zero_and, if_neg (fun e => e rfl)]

theorem draw_char_strip_blank (ctrlreg2 size_y x_ref y_ref : Nat) (st : CharLoop) :
    (draw_char_strip ctrlreg2 0 size_y x_ref y_ref st).s = st.s := by
  unfold draw_char_strip draw_char_column
  dsimp only
  rw [foldl_state_eq _ (fun st1 j => foldl_state_eq _
    (fun st2 _ => draw_char_dot_blank ctrlreg2 j st2) _ st1)]

theorem charset_byte_space (i : Nat) : charset_byte 0 i = 0 := by
  have h : charset.getD 0 [] = [0x00, 0x00, 0x00, 0x00, 0x00] := rfl
  unfold charset_byte
  rw [h]
  match i with
  | 0 => rfl
  | 1 => rfl
  | 2 => rfl
  | 3 => rfl
  | 4 => rfl
  | n + 5 => rfl

theorem draw_char_glyph_space (ctrlreg2 size_x size_y x_ref y_ref : Nat) (st : CharLoop) :
    (draw_char_glyph ctrlreg2 0 size_x size_y x_ref y_ref st).s = st.s := by
  unfold draw_char_glyph
  apply foldl_state_eq
  intro st1 i
  apply foldl_state_eq
  intro st2 _
  rw [charset_byte_space]
  exact draw_char_strip_blank ctrlreg2 size_y x_ref y_ref st2

theorem draw_char_render_space (s : GdpState) (a : Nat) (h : char_index a = 0) :
    draw_char_render s a = s := by
  unfold draw_char_render
  dsimp only
  rw [h]
  split
  · exact draw_char_glyph_space _ _ _ _ _ _
  · rfl

theorem draw_char_congr_index (s : GdpState) (a b : Nat) (h : char_index a = char_index b) :
    draw_char s a = draw_char s b := by
  have hr : draw_char_render s a = draw_char_render s b := by
    unfold draw_char_render
    rw [h]
  unfold draw_char
  rw [hr]

/-- C18: the font-table index used by `draw_char` is `a - 0x20` for `0x20 <= a <= 0x80`
and 0 (the space glyph) otherwise, and it is always below 97, the number of rows of
`charset`; for every `a < 0x20` or `a > 0x80`, `draw_char a` yields the same state as
`draw_char 0x20` and changes no word of the graphics memory; the code 0x81 is among those
that `test_draw_char` passes to `draw_char`. -/
theorem draw_char_index_safe :
    (∀ a : Nat, 0x20 ≤ a → a ≤ 0x80 → char_index a = a - 0x20) ∧
    (∀ a : Nat, a < 0x20 ∨ a > 0x80 → char_index a = 0) ∧
    (∀ a : Nat, char_index a < 97) ∧
    charset.length = 97 ∧
    (∀ (s : GdpState) (a : Nat), a < 0x20 ∨ a > 0x80 →
      draw_char s a = draw_char s 0x20 ∧ (draw_char s a).graphmem_4p = s.graphmem_4p) ∧
    0x81 ∈ test_draw_char_codes := by
  have h0 : ∀ a : Nat, a < 0x20 ∨ a > 0x80 → char_index a = 0 := by
    intro a ha
    unfold char_index
    rw [if_pos ha]
  refine ⟨?_, h0, ?_, rfl, ?_, by decide⟩
  · intro a h1 h2
    unfold char_index
    rw [if_neg (by omega)]
  · intro a
    unfold char_index
    split <;> omega
  · intro s a ha
    refine ⟨draw_char_congr_index s a 0x20 ((h0 a ha).trans rfl), ?_⟩
    rw [draw_char_graphmem, draw_char_render_space s a (h0 a ha)]

/-- Instance of C18 at `a = 0x81`, the last code that `test_draw_char` passes to
`draw_char`: the index is 0 and the state is the one after drawing a space. -/
theorem draw_char_index_safe_witness :
    char_index 0x81 = 0 ∧ char_index 0x80 = 96 ∧
    draw_char line_demo_state 0x81 = draw_char line_demo_state 0x20 ∧
    (draw_char line_demo_state 0x81).graphmem_4p = line_demo_state.graphmem_4p :=
  ⟨draw_char_index_safe.2.1 0x81 (by decide),
   (draw_char_index_safe.1 0x80 (by decide) (by decide)).trans (by decide),
   (draw_char_index_safe.2.2.2.2.1 line_demo_state 0x81 (by decide)).1,
   (draw_char_index_safe.2.2.2.2.1 line_demo_state 0x81 (by decide)).2⟩

/-! ## Axis-aligned lines -/

/-- Plotting at `(X, Y)` changes no other pixel of the draw page, whatever control1 is. -/
theorem plot_pixel_pixel_set_other (s : GdpState) (X Y : Int) (x y : Nat) (hx : x < 512)
    (hy : y < 256) (hne : ¬ (X = (x : Int) ∧ Y = (y : Int))) :
    pixel_set (plot_pixel s X Y) x y = pixel_set s x y := by
  have hw : (plot_pixel s X Y).graphmem_write = s.graphmem_write :=
    (plot_pixel_sameRegs s X Y).2.2.1
  by_cases hg : 0 ≤ X ∧ X < 512 ∧ 0 ≤ Y ∧ Y < 256
  · obtain ⟨xn, rfl⟩ := Int.eq_ofNat_of_zero_le hg.1
    obtain ⟨yn, rfl⟩ := Int.eq_ofNat_of_zero_le hg.2.2.1
    have hxn : xn < 512 := by omega
    have hyn : yn < 256 := by omega
    unfold pixel_set
    rw [hw, plot_pixel_in_range s xn yn hxn hyn]
    by_cases hm : pixel_mpos x y = pixel_mpos xn yn
    · have hb : pixel_bpos x ≠ pixel_bpos xn := by
        intro hb
        obtain ⟨e1, e2⟩ := pixel_addr_injective x y xn yn hx hy hxn hyn hm hb
        exact hne ⟨by rw [e1], by rw [e2]⟩
      split
      · simp only [graphmem_store, hm, if_true, graphmem_load]
        exact testBit_set_other _ _ _ (pixel_bpos_lt _) hb
      · split
        · simp only [graphmem_store, hm, if_true, graphmem_load]
          exact testBit_clear_other _ _ _ (pixel_bpos_lt _) hb
        · rfl
    · have hi : s.graphmem_write + pixel_mpos x y ≠ s.graphmem_write + pixel_mpos xn yn := by
        omega
      split
      · simp only [graphmem_store, hi, if_false]
      · split
        · simp only [graphmem_store, hi, if_false]
        · rfl
  · rw [plot_pixel_out_of_range s X Y (by omega)]

/-- A loop of `draw_line` along x with a zero minor delta keeps `y_ref` and touches row
`y_ref` only. -/
theorem draw_line_loop_row (xs yg : Bool) (t2 : Int) :
    ∀ (n : Nat) (st : LineLoop), st.var_p < 0 → st.y_ref < 65536 →
      (draw_line_loop false xs yg 0 t2 n st).y_ref = st.y_ref ∧
      OnlyRow st.s (draw_line_loop false xs yg 0 t2 n st).s st.y_ref := by
  intro n
  induction n with
  | zero =>
    intro st _ _
    exact ⟨rfl, fun _ _ _ _ _ => rfl⟩
  | succ n ih =>
    intro st hp hy
    rw [draw_line_loop_succ]
    have hb : draw_line_body false xs yg 0 t2 st
        = { s := plot_pixel st.s (toInt32 (step_u32 st.x_ref xs)) (toInt32 st.y_ref),
            x_ref := step_u32 st.x_ref xs, y_ref := st.y_ref, var_p := st.var_p } := by
      simp only [draw_line_body, Bool.false_eq_true, if_false, hp, if_true, add_zero]
    rw [hb]
    obtain ⟨h1, h2⟩ := ih
      { s := plot_pixel st.s (toInt32 (step_u32 st.x_ref xs)) (toInt32 st.y_ref),
        x_ref := step_u32 st.x_ref xs, y_ref := st.y_ref, var_p := st.var_p } hp hy
    dsimp only at h1 h2
    refine ⟨h1, fun x y hx hy' hne => ?_⟩
    rw [h2 x y hx hy' hne]
    apply plot_pixel_pixel_set_other st.s _ _ x y hx hy'
    rw [toInt32_small st.y_ref (by omega)]
    intro e
    exact hne (by have := e.2; omega)

/-- A loop of `draw_line` along y with a zero minor delta keeps `x_ref` and touches
column `x_ref` only. -/
theorem draw_line_loop_column (xs yg : Bool) (t2 : Int) :
    ∀ (n : Nat) (st : LineLoop), st.var_p < 0 → st.x_ref < 65536 →
      (draw_line_loop true xs yg 0 t2 n st).x_ref = st.x_ref ∧
      OnlyColumn st.s (draw_line_loop true xs yg 0 t2 n st).s st.x_ref := by
  intro n
  induction n with
  | zero =>
    intro st _ _
    exact ⟨rfl, fun _ _ _ _ _ => rfl⟩
  | succ n ih =>
    intro st hp hx
    rw [draw_line_loop_succ]
    have hb : draw_line_body true xs yg 0 t2 st
        = { s := plot_pixel st.s (toInt32 st.x_ref) (toInt32 (step_u32 st.y_ref yg)),
            x_ref := st.x_ref, y_ref := step_u32 st.y_ref yg, var_p := st.var_p } := by
      simp only [draw_line_body, if_true, hp, add_zero]
    rw [hb]
    obtain ⟨h1, h2⟩ := ih
      { s := plot_pixel st.s (toInt32 st.x_ref) (toInt32 (step_u32 st.y_ref yg)),
        x_ref := st.x_ref, y_ref := step_u32 st.y_ref yg, var_p := st.var_p } hp hx
    dsimp only at h1 h2
    refine ⟨h1, fun x y hx' hy hne => ?_⟩
    rw [h2 x y hx' hy hne]
    apply plot_pixel_pixel_set_other st.s _ _ x y hx' hy
    rw [toInt32_small st.x_ref (by omega)]
    intro e
    exact hne (by have := e.1; omega)

theorem cursor_lt (s : GdpState) : cursor_x s < 65536 ∧ cursor_y s < 65536 := by
  unfold cursor_x cursor_y read_io_reg
  constructor <;> omega

/-- The run of `draw_line` when the effective deltas are `(e, 0)`. -/
theorem draw_line_run_row (s : GdpState) (c e : Nat)
    (hef : line_ef c (read_io_reg s gdp_deltax) (read_io_reg s gdp_deltay) = (e, 0)) :
    OnlyRow s (draw_line_run s c).s (cursor_y s) := by
  unfold draw_line_run
  dsimp only
  rw [hef]
  dsimp only
  by_cases h0 : e = 0
  · subst h0
    simp only [gt_iff_lt, lt_self_iff_false, if_false, decide_False, draw_line_loop]
    exact fun _ _ _ _ _ => rfl
  · have hgt : ¬ (0 > e) := by omega
    simp only [hgt, if_false, decide_False, Nat.cast_zero, zero_mul]
    exact (draw_line_loop_row _ _ _ e
      { s := s, x_ref := read_io_reg s gdp_xmsb * 256 + read_io_reg s gdp_xlsb,
        y_ref := read_io_reg s gdp_ymsb * 256 + read_io_reg s gdp_ylsb,
        var_p := 2 * (0 : Int) - (e : Int) } (by dsimp only; omega) (cursor_lt s).2).2

/-- The run of `draw_line` when the effective deltas are `(0, e)`. -/
theorem draw_line_run_column (s : GdpState) (c e : Nat)
    (hef : line_ef c (read_io_reg s gdp_deltax) (read_io_reg s gdp_deltay) = (0, e)) :
    OnlyColumn s (draw_line_run s c).s (cursor_x s) := by
  unfold draw_line_run
  dsimp only
  rw [hef]
  dsimp only
  by_cases h0 : e = 0
  · subst h0
    simp only [gt_iff_lt, lt_self_iff_false, if_false, decide_False, draw_line_loop]
    exact fun _ _ _ _ _ => rfl
  · have hgt : e > 0 := by omega
    simp only [hgt, if_true, decide_True, Nat.cast_zero, zero_mul]
    exact (draw_line_loop_column _ _ _ e
      { s := s, x_ref := read_io_reg s gdp_xmsb * 256 + read_io_reg s gdp_xlsb,
        y_ref := read_io_reg s gdp_ymsb * 256 + read_io_reg s gdp_ylsb,
        var_p := 2 * (0 : Int) - (e : Int) } (by dsimp only; omega) (cursor_lt s).1).2
theorem line_ef_base_eq_claimed (c dx dy : Nat) (hc : c < 256) :
    line_ef_base c dx dy = claimed_effective_delta c dx dy := by
  unfold line_ef_base claimed_effective_delta
  rw [larger_pair_eq_max]
  simp only [and_128_ne_zero c hc, and_8_ne_zero c]

/-- The effective deltas of `draw_line` for a command with bit 0 clear. -/
theorem line_ef_shorthand (c dx dy : Nat) (hc : c < 256) (h0 : c.testBit 0 = false) :
    line_ef c dx dy
      = if c.testBit 1 = c.testBit 2 then ((claimed_effective_delta c dx dy).1, 0)
        else (0, (claimed_effective_delta c dx dy).2) := by
  unfold line_ef
  dsimp only
  rw [if_pos ((and_1_eq_zero c).2 h0), line_x_sign_eq, line_y_sign_eq,
    line_ef_base_eq_claimed c dx dy hc]

theorem draw_line_onlyRow (s : GdpState) (c e : Nat)
    (hef : line_ef c (read_io_reg s gdp_deltax) (read_io_reg s gdp_deltay) = (e, 0)) :
    OnlyRow s (draw_line s c) (cursor_y s) :=
  fun x y hx hy hne =>
    (draw_line_pixel_set s c x y).trans (draw_line_run_row s c e hef x y hx hy hne)

theorem draw_line_onlyColumn (s : GdpState) (c e : Nat)
    (hef : line_ef c (read_io_reg s gdp_deltax) (read_io_reg s gdp_deltay) = (0, e)) :
    OnlyColumn s (draw_line s c) (cursor_x s) :=
  fun x y hx hy hne =>
    (draw_line_pixel_set s c x y).trans (draw_line_run_column s c e hef x y hx hy hne)

/-- The cursor after `draw_line`, from the effective deltas and the sign flags. -/
theorem draw_line_cursor_source (s : GdpState) (c : Nat) :
    cursor_x (draw_line s c)
      = (cursor_x s + (line_ef c (read_io_reg s gdp_deltax) (read_io_reg s gdp_deltay)).1
          * (if c.testBit 1 then 4294967295 else 1)) % 65536 ∧
    cursor_y (draw_line s c)
      = (cursor_y s + (line_ef c (read_io_reg s gdp_deltax) (read_io_reg s gdp_deltay)).2
          * (if c.testBit 2 then 4294967295 else 1)) % 65536 := by
  obtain ⟨rx, ry⟩ := draw_line_cursor_readback s c
  obtain ⟨hx, hy⟩ := draw_line_run_cursor s c
  rw [rx, ry, hx, hy, line_x_sign_eq, line_y_sign_eq]
  exact ⟨rfl, rfl⟩

/-- C19: for a line command `c` with bit 0 clear, `draw_line c` moves the cursor along one
axis only and changes pixels of the starting row or column only, by the table on
(SY = bit 2, SX = bit 1): 0 0, x increases by the effective delta-x; 0 1, y increases by
the effective delta-y; 1 0, y decreases by the effective delta-y; 1 1, x decreases by the
effective delta-x (all modulo 65536); the other axis of the cursor is unchanged. -/
theorem draw_line_axis_aligned (s : GdpState) (c : Nat) (hc : c < 256)
    (h0 : c.testBit 0 = false) :
    (c.testBit 2 = false → c.testBit 1 = false →
      cursor_x (draw_line s c)
        = (cursor_x s + (claimed_effective_delta c (read_io_reg s gdp_deltax)
            (read_io_reg s gdp_deltay)).1) % 65536 ∧
      cursor_y (draw_line s c) = cursor_y s ∧
      OnlyRow s (draw_line s c) (cursor_y s)) ∧
    (c.testBit 2 = false → c.testBit 1 = true →
      cursor_x (draw_line s c) = cursor_x s ∧
      cursor_y (draw_line s c)
        = (cursor_y s + (claimed_effective_delta c (read_io_reg s gdp_deltax)
            (read_io_reg s gdp_deltay)).2) % 65536 ∧
      OnlyColumn s (draw_line s c) (cursor_x s)) ∧
    (c.testBit 2 = true → c.testBit 1 = false →
      cursor_x (draw_line s c) = cursor_x s ∧
      (cursor_y (draw_line s c) : Int)
        = ((cursor_y s : Int) - ((claimed_effective_delta c (read_io_reg s gdp_deltax)
            (read_io_reg s gdp_deltay)).2 : Int)) % 65536 ∧
      OnlyColumn s (draw_line s c) (cursor_x s)) ∧
    (c.testBit 2 = true → c.testBit 1 = true →
      (cursor_x (draw_line s c) : Int)
        = ((cursor_x s : Int) - ((claimed_effective_delta c (read_io_reg s gdp_deltax)
            (read_io_reg s gdp_deltay)).1 : Int)) % 65536 ∧
      cursor_y (draw_line s c) = cursor_y s ∧
      OnlyRow s (draw_line s c) (cursor_y s)) := by
  have hef := line_ef_shorthand c (read_io_reg s gdp_deltax) (read_io_reg s gdp_deltay) hc h0
  obtain ⟨hx, hy⟩ := draw_line_cursor_source s c
  obtain ⟨hbx, hby⟩ := cursor_lt s
  generalize claimed_effective_delta c (read_io_reg s gdp_deltax) (read_io_reg s gdp_deltay)
    = e at hef ⊢
  refine ⟨fun h2 h1 => ?_, fun h2 h1 => ?_, fun h2 h1 => ?_, fun h2 h1 => ?_⟩
  · rw [h1, h2, if_pos rfl] at hef
    rw [hef, h1] at hx
    rw [hef, h2] at hy
    simp only [Bool.false_eq_true, if_false, mul_one, zero_mul, add_zero] at hx hy
    exact ⟨hx, by rw [hy]; omega, draw_line_onlyRow s c e.1 hef⟩
  · rw [h1, h2, if_neg (by decide)] at hef
    rw [hef, h1] at hx
    rw [hef, h2] at hy
    simp only [Bool.false_eq_true, if_false, mul_one, zero_mul, add_zero] at hx hy
    exact ⟨by rw [hx]; omega, hy, draw_line_onlyColumn s c e.2 hef⟩
  · rw [h1, h2, if_neg (by decide)] at hef
    rw [hef, h1] at hx
    rw [hef, h2] at hy
    simp only [if_true, zero_mul, add_zero] at hx hy
    exact ⟨by rw [hx]; omega, by rw [hy]; omega, draw_line_onlyColumn s c e.2 hef⟩
  · rw [h1, h2, if_pos rfl] at hef
    rw [hef, h1] at hx
    rw [hef, h2] at hy
    simp only [if_true, zero_mul, add_zero] at hx hy
    exact ⟨by rw [hx]; omega, by rw [hy]; omega, draw_line_onlyRow s c e.1 hef⟩

/-- Instance of C19 in `line_demo_state` (delta-x = 0x10, cursor (100,100)): command 0x10
moves the cursor to (116,100), command 0x16 to (84,100); neither changes pixel (100,101),
which is outside row 100. -/
theorem draw_line_axis_aligned_witness :
    cursor_x (draw_line line_demo_state 0x10) = 116 ∧
    cursor_y (draw_line line_demo_state 0x10) = 100 ∧
    (cursor_x (draw_line line_demo_state 0x16) : Int) = 84 ∧
    pixel_set (draw_line line_demo_state 0x16) 100 101 = pixel_set line_demo_state 100 101 :=
  ⟨((draw_line_axis_aligned line_demo_state 0x10 (by decide) (by decide)).1 (by decide)
      (by decide)).1.trans (by decide),
   ((draw_line_axis_aligned line_demo_state 0x10 (by decide) (by decide)).1 (by decide)
      (by decide)).2.1.trans (by decide),
   ((draw_line_axis_aligned line_demo_state 0x16 (by decide) (by decide)).2.2.2 (by decide)
      (by decide)).1.trans (by decide),
   ((draw_line_axis_aligned line_demo_state 0x16 (by decide) (by decide)).2.2.2 (by decide)
      (by decide)).2.2 100 101 (by decide) (by decide) (by decide)⟩

/-! ## Pulse descriptor packing -/

theorem compdark_eq (sig dur next : Nat) (hs : sig ≤ 1) (hd : dur < 1024) (hn : next < 32) :
    COMPDARK sig dur next = (1 - sig) * 32768 + dur * 32 + next := by
  have ht : ((1 - (sig : Int)) % 2 ^ 32).toNat = 1 - sig := by
    have h : sig = 0 ∨ sig = 1 := by omega
    rcases h with rfl | rfl <;> rfl
  have e1 : 2 ^ 15 * (1 - sig) + dur * 32 = 2 ^ 15 * (1 - sig) ||| dur * 32 :=
    Nat.mul_add_lt_is_or (by omega) (1 - sig)
  have e2 : 2 ^ 5 * ((1 - sig) * 1024 + dur) + next = 2 ^ 5 * ((1 - sig) * 1024 + dur) ||| next :=
    Nat.mul_add_lt_is_or (by omega) _
  have m1 : ((1 - sig) <<< 15) % 2 ^ 32 = 2 ^ 15 * (1 - sig) := by
    rw [Nat.shiftLeft_eq, Nat.mod_eq_of_lt (by omega), Nat.mul_comm]
  have m2 : ((dur % 2 ^ 32) <<< 5) % 2 ^ 32 = dur * 32 := by
    rw [Nat.mod_eq_of_lt (by omega), Nat.shiftLeft_eq, Nat.mod_eq_of_lt (by omega)]
  have m3 : next % 2 ^ 32 = next := Nat.mod_eq_of_lt (by omega)
  have e3 : 2 ^ 15 * (1 - sig) + dur * 32 = 2 ^ 5 * ((1 - sig) * 1024 + dur) := by omega
  unfold COMPDARK
  rw [ht, m1, m2, m3, ← e1, e3, ← e2]
  omega

theorem compdark_fields (sig dur next : Nat) (hs : sig ≤ 1) (hd : dur < 1024)
    (hn : next < 32) :
    COMPDARK sig dur next < 65536 ∧ COMPDARK sig dur next >>> 15 = 1 - sig ∧
    (COMPDARK sig dur next >>> 5) &&& 1023 = dur ∧ COMPDARK sig dur next &&& 31 = next := by
  rw [compdark_eq sig dur next hs hd hn]
  have a1 : ∀ x : Nat, x >>> 15 = x / 32768 := fun x => Nat.shiftRight_eq_div_pow x 15
  have a2 : ∀ x : Nat, x &&& 1023 = x % 1024 := fun x => Nat.and_pow_two_sub_one_eq_mod x 10
  rw [a1, shr_5, a2, and_31]
  omega

theorem sync_word_halves (hi lo : Nat) (h1 : hi < 65536) (h2 : lo < 65536) :
    sync_word hi lo >>> 16 = hi ∧ sync_word hi lo &&& 0xFFFF = lo := by
  have a1 : ∀ x : Nat, x >>> 16 = x / 65536 := fun x => Nat.shiftRight_eq_div_pow x 16
  have a2 : ∀ x : Nat, x &&& 65535 = x % 65536 := fun x => Nat.and_pow_two_sub_one_eq_mod x 16
  unfold sync_word
  rw [a1, a2]
  omega

theorem sync_pattern_args_valid :
    ∀ p ∈ sync_pattern_args, ValidDescriptor p.1 ∧ ValidDescriptor p.2 := by
  unfold ValidDescriptor
  decide

/-- C20: for `sig` in {0,1}, `dur < 1024` and `next < 32`, `COMPDARK sig dur next` is below
65536 with bit 15 equal to `1 - sig`, bits 14..5 equal to `dur` and bits 4..0 equal to
`next`, so the packing is injective; every triple used in the legacy, VGA and HD pattern
words is in these ranges (all durations below 1024); and every line pattern word of those
tables is two packed descriptors, the first in its high half and the second in its low
half. -/
theorem compdark_packing :
    (∀ sig dur next : Nat, sig ≤ 1 → dur < 1024 → next < 32 →
      COMPDARK sig dur next < 65536 ∧ COMPDARK sig dur next >>> 15 = 1 - sig ∧
      (COMPDARK sig dur next >>> 5) &&& 1023 = dur ∧ COMPDARK sig dur next &&& 31 = next) ∧
    (∀ d1 d2 : Nat × Nat × Nat, ValidDescriptor d1 → ValidDescriptor d2 →
      pack_descriptor d1 = pack_descriptor d2 → d1 = d2) ∧
    (∀ p ∈ sync_pattern_args, ValidDescriptor p.1 ∧ ValidDescriptor p.2) ∧
    sync_pattern_words
      = sync_pattern_args.map (fun p => sync_word (pack_descriptor p.1) (pack_descriptor p.2)) ∧
    (∀ p ∈ sync_pattern_args,
      sync_word (pack_descriptor p.1) (pack_descriptor p.2) >>> 16 = pack_descriptor p.1 ∧
      sync_word (pack_descriptor p.1) (pack_descriptor p.2) &&& 0xFFFF = pack_descriptor p.2) := by
  refine ⟨compdark_fields, ?_, sync_pattern_args_valid, rfl, ?_⟩
  · rintro ⟨s1, d1, n1⟩ ⟨s2, d2, n2⟩ ⟨a1, a2, a3⟩ ⟨b1, b2, b3⟩ h
    unfold pack_descriptor at h
    dsimp only at a1 a2 a3 b1 b2 b3 h
    rw [compdark_eq s1 d1 n1 a1 a2 a3, compdark_eq s2 d2 n2 b1 b2 b3] at h
    have e1 : s1 = s2 := by omega
    have e2 : d1 = d2 := by omega
    have e3 : n1 = n2 := by omega
    rw [e1, e2, e3]
  · intro p hp
    obtain ⟨⟨a1, a2, a3⟩, ⟨b1, b2, b3⟩⟩ := sync_pattern_args_valid p hp
    exact sync_word_halves _ _ (compdark_fields _ _ _ a1 a2 a3).1
      (compdark_fields _ _ _ b1 b2 b3).1

/-- Instance of C20 at the descriptor `COMPDARK(0,380,PIO_JMP_START_DATA)` and at the
second word of `hd_line_sync_dt`. -/
theorem compdark_packing_witness :
    (COMPDARK 0 380 14 >>> 5) &&& 1023 = 380 ∧ COMPDARK 0 380 14 >>> 15 = 1 ∧
    sync_word (COMPDARK 0 380 14) (COMPDARK 0 82 15) >>> 16 = COMPDARK 0 380 14 :=
  ⟨(compdark_packing.1 0 380 14 (by decide) (by decide) (by decide)).2.2.1,
   (compdark_packing.1 0 380 14 (by decide) (by decide) (by decide)).2.1,
   (compdark_packing.2.2.2.2 ((0, 380, PIO_JMP_START_DATA), (0, 82, PIO_JMP_NO_DATA))
      (by decide)).1⟩

/-! ## Theorems about the interrupt handlers -/

theorem next_line_count_le (n : Nat) : next_line_count n ≤ 1023 := by
  unfold next_line_count
  split <;> omega

theorem next_line_count_eq (n : Nat) (h : n ≤ 1023) : next_line_count n = (n + 1) % 1024 := by
  unfold next_line_count
  split <;> omega

theorem gdp_data_dma_handler_line_count (v : VideoState) :
    (gdp_data_dma_handler v).gdp.line_count = next_line_count v.gdp.line_count := rfl

theorem run_handlers_snoc (hs : List Handler) (h : Handler) (v : VideoState) :
    run_handlers (hs ++ [h]) v
      = match h with
        | Handler.sync => gdp_sync_dma_handler (run_handlers hs v)
        | Handler.data => gdp_data_dma_handler (run_handlers hs v) := by
  unfold run_handlers
  rw [List.foldl_append]
  rfl

theorem run_handlers_line_count (hs : List Handler) (v : VideoState)
    (h : v.gdp.line_count ≤ 1023) : (run_handlers hs v).gdp.line_count ≤ 1023 := by
  induction hs using List.reverseRecOn with
  | nil => exact h
  | append_singleton hs x _ =>
    rw [run_handlers_snoc]
    cases x with
    | sync => exact Nat.zero_le _
    | data => exact next_line_count_le _

/-- C21: `gdp_sync_dma_handler` always leaves `line_count` = 0 and `vsync_flag` = 1;
`gdp_data_dma_handler` maps `line_count` n to (n+1) mod 1024 for every n <= 1023 and
always leaves `vsync_flag` = 0; so `line_count <= 1023` holds after every sequence of
invocations of the two handlers from a state where it holds. -/
theorem handlers_line_count (v : VideoState) :
    (gdp_sync_dma_handler v).gdp.line_count = 0 ∧
    (gdp_sync_dma_handler v).gdp.vsync_flag = 1 ∧
    (v.gdp.line_count ≤ 1023 →
      (gdp_data_dma_handler v).gdp.line_count = (v.gdp.line_count + 1) % 1024) ∧
    (gdp_data_dma_handler v).gdp.vsync_flag = 0 ∧
    (∀ hs : List Handler, v.gdp.line_count ≤ 1023 →
      (run_handlers hs v).gdp.line_count ≤ 1023) :=
  ⟨rfl, rfl, fun h => next_line_count_eq _ h, rfl, fun hs h => run_handlers_line_count hs v h⟩

/-- Instance of C21 in `video_demo_state`: from line 1023 the data handler goes to line 0,
and after the handlers data, data, sync, data the line counter is 1. -/
theorem handlers_line_count_witness :
    (gdp_data_dma_handler
      { video_demo_state with gdp := { line_demo_state with line_count := 1023 } }
      ).gdp.line_count = 0 ∧
    (run_handlers [Handler.data, Handler.data, Handler.sync, Handler.data]
      video_demo_state).gdp.line_count ≤ 1023 :=
  ⟨((handlers_line_count
      { video_demo_state with gdp := { line_demo_state with line_count := 1023 } }).2.2.1
      (by decide)).trans (by decide),
   (handlers_line_count video_demo_state).2.2.2.2
      [Handler.data, Handler.data, Handler.sync, Handler.data] (by decide)⟩

theorem and_4_ne_zero (n : Nat) : n &&& 0x4 ≠ 0 ↔ n.testBit 2 = true := by
  have h := and_bit_ne_zero n 2
  have e : (2 : Nat) ^ 2 = 0x4 := by norm_num
  rw [e] at h
  exact h

/-- The DMA registers after `gdp_data_dma_handler`, by the line counter after its
increment. -/
theorem gdp_data_dma_handler_dma (v : VideoState) :
    (gdp_data_dma_handler v).dma.ch1_read_addr
      = (if (next_line_count v.gdp.line_count).testBit 2 then LineBuf.line_buf0
         else LineBuf.line_buf1) ∧
    (next_line_count v.gdp.line_count % 4 = 0 →
      (gdp_data_dma_handler v).dma.lut0_starts = v.dma.lut0_starts + 1 ∧
      (gdp_data_dma_handler v).dma.lut2_write_addr
        = (if (next_line_count v.gdp.line_count).testBit 2 then LineBuf.line_buf1
           else LineBuf.line_buf0) ∧
      (gdp_data_dma_handler v).dma.lut0_read_addr
        = v.gdp.graphmem + 16 * (((next_line_count v.gdp.line_count >>> 2) + 1) % 256) ∧
      (gdp_data_dma_handler v).dma.lut0_count = 16) ∧
    (next_line_count v.gdp.line_count % 4 ≠ 0 →
      (gdp_data_dma_handler v).dma.lut0_starts = v.dma.lut0_starts ∧
      (gdp_data_dma_handler v).dma.lut2_write_addr = v.dma.lut2_write_addr ∧
      (gdp_data_dma_handler v).dma.lut0_read_addr = v.dma.lut0_read_addr ∧
      (gdp_data_dma_handler v).dma.lut0_count = v.dma.lut0_count) := by
  unfold gdp_data_dma_handler
  generalize next_line_count v.gdp.line_count = n
  have h4 := and_4_ne_zero n
  have h3 : n &&& 0x3 = n % 4 := and_3 n
  dsimp only
  rw [h3]
  refine ⟨?_, fun h0 => ?_, fun h0 => ?_⟩
  · by_cases hb : n.testBit 2 = true
    · have hb' : n &&& 0x4 ≠ 0 := h4.2 hb
      simp only [hb, hb', ne_eq, not_false_eq_true, if_true]
      split <;> rfl
    · have hb' : ¬ (n &&& 0x4 ≠ 0) := fun e => hb (h4.1 e)
      simp only [hb, hb', if_false]
      split <;> rfl
  · rw [if_pos h0]
    dsimp only
    have e1 : ∀ x : Nat, x <<< 4 = x * 16 := fun x => Nat.shiftLeft_eq x 4
    rw [e1, and_255]
    by_cases hb : n.testBit 2 = true
    · have hb' : n &&& 0x4 ≠ 0 := h4.2 hb
      simp only [hb, hb', ne_eq, not_false_eq_true, if_true, and_true, true_and]
      omega
    · have hb' : ¬ (n &&& 0x4 ≠ 0) := fun e => hb (h4.1 e)
      simp only [hb, hb', if_false, and_true, true_and]
      exact ⟨rfl, by omega⟩
  · rw [if_neg h0]
    split <;> exact ⟨rfl, rfl, rfl, rfl⟩

/-- C22: in every invocation of `gdp_data_dma_handler`, with n the line counter after the
increment: the output channel is given `line_buf0` if bit 2 of n is set and `line_buf1`
otherwise; the lookup transfer is started exactly when n mod 4 = 0; its destination is
then the other line buffer, and its source the 16 words from word 16*r of the display
page on, r = ((n >> 2) + 1) mod 256, which lie inside the 4096-word page. -/
theorem gdp_data_dma_handler_buffers (v : VideoState) :
    (gdp_data_dma_handler v).dma.ch1_read_addr
      = (if ((gdp_data_dma_handler v).gdp.line_count).testBit 2 then LineBuf.line_buf0
         else LineBuf.line_buf1) ∧
    ((gdp_data_dma_handler v).dma.lut0_starts = v.dma.lut0_starts + 1 ↔
      (gdp_data_dma_handler v).gdp.line_count % 4 = 0) ∧
    ((gdp_data_dma_handler v).dma.lut0_starts = v.dma.lut0_starts ↔
      (gdp_data_dma_handler v).gdp.line_count % 4 ≠ 0) ∧
    ((gdp_data_dma_handler v).gdp.line_count % 4 = 0 →
      (gdp_data_dma_handler v).dma.lut2_write_addr
        ≠ (gdp_data_dma_handler v).dma.ch1_read_addr ∧
      (gdp_data_dma_handler v).dma.lut0_read_addr
        = v.gdp.graphmem
          + 16 * ((((gdp_data_dma_handler v).gdp.line_count >>> 2) + 1) % 256) ∧
      (gdp_data_dma_handler v).dma.lut0_count = 16 ∧
      16 * ((((gdp_data_dma_handler v).gdp.line_count >>> 2) + 1) % 256) + 16 ≤ 4096) := by
  rw [gdp_data_dma_handler_line_count]
  obtain ⟨h1, h2, h3⟩ := gdp_data_dma_handler_dma v
  refine ⟨h1, ?_, ?_, fun h0 => ?_⟩
  · constructor
    · intro e
      by_contra hne
      have := (h3 hne).1
      omega
    · exact fun h0 => (h2 h0).1
  · constructor
    · intro e h0
      have := (h2 h0).1
      omega
    · exact fun hne => (h3 hne).1
  · obtain ⟨_, a2, a3, a4⟩ := h2 h0
    refine ⟨?_, a3, a4, by omega⟩
    rw [a2, h1]
    split <;> decide

/-- Instance of C22 in `video_demo_state` at line 3: the handler advances to line 4,
gives `line_buf0` to the output channel and starts a refill of `line_buf1` from word 32
of the display page. -/
theorem gdp_data_dma_handler_buffers_witness :
    (gdp_data_dma_handler
      { video_demo_state with gdp := { line_demo_state with line_count := 3 } }
      ).dma.lut2_write_addr
      ≠ (gdp_data_dma_handler
          { video_demo_state with gdp := { line_demo_state with line_count := 3 } }
          ).dma.ch1_read_addr ∧
    (gdp_data_dma_handler
      { video_demo_state with gdp := { line_demo_state with line_count := 3 } }
      ).dma.lut0_read_addr = 32 :=
  ⟨((gdp_data_dma_handler_buffers
      { video_demo_state with gdp := { line_demo_state with line_count := 3 } }).2.2.2
      (by decide)).1,
   ((gdp_data_dma_handler_buffers
      { video_demo_state with gdp := { line_demo_state with line_count := 3 } }).2.2.2
      (by decide)).2.1.trans (by decide)⟩

/-- C23: the two handlers leave every byte of the register file and every word of the
graphics memory unchanged, as well as both page pointers and the display list; of the
globals they change `line_count` and `vsync_flag` only. -/
theorem handlers_no_register_access (v : VideoState) :
    ((gdp_sync_dma_handler v).gdp.z80_mem = v.gdp.z80_mem ∧
      (gdp_sync_dma_handler v).gdp.graphmem_4p = v.gdp.graphmem_4p ∧
      (gdp_sync_dma_handler v).gdp.graphmem = v.gdp.graphmem ∧
      (gdp_sync_dma_handler v).gdp.graphmem_write = v.gdp.graphmem_write ∧
      (gdp_sync_dma_handler v).gdp.fulldlist = v.gdp.fulldlist) ∧
    ((gdp_data_dma_handler v).gdp.z80_mem = v.gdp.z80_mem ∧
      (gdp_data_dma_handler v).gdp.graphmem_4p = v.gdp.graphmem_4p ∧
      (gdp_data_dma_handler v).gdp.graphmem = v.gdp.graphmem ∧
      (gdp_data_dma_handler v).gdp.graphmem_write = v.gdp.graphmem_write ∧
      (gdp_data_dma_handler v).gdp.fulldlist = v.gdp.fulldlist) ∧
    (gdp_sync_dma_handler v).gdp
      = { v.gdp with line_count := (gdp_sync_dma_handler v).gdp.line_count,
                     vsync_flag := (gdp_sync_dma_handler v).gdp.vsync_flag } ∧
    (gdp_data_dma_handler v).gdp
      = { v.gdp with line_count := (gdp_data_dma_handler v).gdp.line_count,
                     vsync_flag := (gdp_data_dma_handler v).gdp.vsync_flag } :=
  ⟨⟨rfl, rfl, rfl, rfl, rfl⟩, ⟨rfl, rfl, rfl, rfl, rfl⟩, rfl, rfl⟩

/-! ## Theorems about the command monitor -/

theorem write_io_reg_other (s : GdpState) (adr d a : Nat) (h : a ≠ adr) :
    (write_io_reg s adr d).z80_mem a = s.z80_mem a := by
  simp only [write_io_reg, h, if_false]

theorem change_io_reg_other (s : GdpState) (adr b c a : Nat) (h : a ≠ adr) :
    (change_io_reg s adr b c).z80_mem a = s.z80_mem a := by
  simp only [change_io_reg, h, if_false]

theorem zero_cursor_status (s : GdpState) :
    (zero_cursor s).z80_mem gdp_status = s.z80_mem gdp_status := by
  unfold zero_cursor
  rw [write_io_reg_other _ _ _ _ (by decide), write_io_reg_other _ _ _ _ (by decide),
    write_io_reg_other _ _ _ _ (by decide), write_io_reg_other _ _ _ _ (by decide)]

theorem reset_control_status (s : GdpState) :
    (reset_control s).z80_mem gdp_status = s.z80_mem gdp_status := by
  unfold reset_control
  rw [write_io_reg_other _ _ _ _ (by decide), write_io_reg_other _ _ _ _ (by decide),
    write_io_reg_other _ _ _ _ (by decide)]

theorem draw_char_status (s : GdpState) (a : Nat) :
    (draw_char s a).z80_mem gdp_status = s.z80_mem gdp_status := by
  have hz : (draw_char_render s a).z80_mem = s.z80_mem := (draw_char_render_drawFrame s a).1.1
  unfold draw_char
  dsimp only
  split
  · rw [write_io_reg_other _ _ _ _ (by decide), write_io_reg_other _ _ _ _ (by decide), hz]
  · rw [write_io_reg_other _ _ _ _ (by decide), write_io_reg_other _ _ _ _ (by decide), hz]

theorem draw_line_status (s : GdpState) (c : Nat) :
    (draw_line s c).z80_mem gdp_status = s.z80_mem gdp_status := by
  have hz : (draw_line_run s c).s.z80_mem = s.z80_mem := (draw_line_run_drawFrame s c).1.1
  unfold draw_line
  dsimp only
  rw [write_io_reg_other _ _ _ _ (by decide), write_io_reg_other _ _ _ _ (by decide),
    write_io_reg_other _ _ _ _ (by decide), write_io_reg_other _ _ _ _ (by decide), hz]

/-- No command touches the status register. -/
theorem gdp_proc_command_status (s : GdpState) (cmd : Nat) :
    (gdp_proc_command s cmd).z80_mem gdp_status = s.z80_mem gdp_status := by
  unfold gdp_proc_command
  split
  · split
    · exact change_io_reg_other _ _ _ _ _ (by decide)
    · exact change_io_reg_other _ _ _ _ _ (by decide)
    · exact change_io_reg_other _ _ _ _ _ (by decide)
    · exact change_io_reg_other _ _ _ _ _ (by decide)
    · exact (zero_cursor_status _).trans (reset_control_status s)
    · exact zero_cursor_status s
    · rfl
    · exact zero_cursor_status s
    · exact draw_char_status s 128
    · rfl
  · split
    · split
      · exact draw_char_status s cmd
      · exact draw_line_status s cmd
    · exact draw_line_status s cmd

set_option maxRecDepth 100000 in
theorem byte_set_bit2 : ∀ v : Nat, v < 256 →
    ((v ||| 0x4) &&& (0 ^^^ 0xFF)) % 256 = v ||| 0x4 ∧
    (v ||| 0x4).testBit 2 = true ∧
    ∀ j : Nat, j < 8 → j ≠ 2 → (v ||| 0x4).testBit j = v.testBit j := by
  decide

/-- C24 as worded fails: in `line_demo_state` the status register reads 0; after the
monitor has processed the entry 0x7005 (command 5 written to register 0x70) it reads 4,
so a bit of the status register was set by this step and none was cleared. -/
theorem gdp_proc_monitor_sets_status_bit :
    read_io_reg line_demo_state gdp_status = 0 ∧
    read_io_reg (gdp_proc_monitor_pass line_demo_state (some 0x7005)) gdp_status = 4 ∧
    (read_io_reg line_demo_state gdp_status).testBit 2 = false ∧
    (read_io_reg (gdp_proc_monitor_pass line_demo_state (some 0x7005)) gdp_status).testBit 2
      = true := by
  have h : read_io_reg (gdp_proc_monitor_pass line_demo_state (some 0x7005)) gdp_status
      = 4 := by
    have e : gdp_proc_monitor_pass line_demo_state (some 0x7005)
        = change_io_reg (gdp_proc_command line_demo_state 0x05) 0x70 0x4 0 := rfl
    rw [e]
    unfold read_io_reg
    have e2 : gdp_status = 0x70 := rfl
    rw [e2]
    simp only [change_io_reg, if_true]
    have e3 := gdp_proc_command_status line_demo_state 0x05
    rw [e2] at e3
    rw [e3]
    decide
  refine ⟨by decide, h, by decide, ?_⟩
  rw [h]
  decide

/-- C24, amended: after `gdp_proc_monitor` has processed a queue entry addressed to the
command register 0x70, the status register equals its previous value with bit 2 (0x04,
"not busy" when high) set: bit 2 reads 1 and the other seven bits are unchanged, so no
bit is cleared by this step. An entry addressed to any other register, or no entry,
changes nothing. -/
theorem gdp_proc_monitor_status (s : GdpState) (fifo_cmd : Nat) :
    ((fifo_cmd >>> 8) &&& 0xFF = 0x70 →
      read_io_reg (gdp_proc_monitor_pass s (some fifo_cmd)) gdp_status
        = read_io_reg s gdp_status ||| 0x04 ∧
      (read_io_reg (gdp_proc_monitor_pass s (some fifo_cmd)) gdp_status).testBit 2 = true ∧
      ∀ j : Nat, j < 8 → j ≠ 2 →
        (read_io_reg (gdp_proc_monitor_pass s (some fifo_cmd)) gdp_status).testBit j
          = (read_io_reg s gdp_status).testBit j) ∧
    ((fifo_cmd >>> 8) &&& 0xFF ≠ 0x70 → gdp_proc_monitor_pass s (some fifo_cmd) = s) ∧
    gdp_proc_monitor_pass s none = s := by
  refine ⟨fun h => ?_, fun h => ?_, rfl⟩
  · have hv : read_io_reg s gdp_status < 256 := Nat.mod_lt _ (by norm_num)
    obtain ⟨b1, b2, b3⟩ := byte_set_bit2 _ hv
    have e : read_io_reg (gdp_proc_monitor_pass s (some fifo_cmd)) gdp_status
        = read_io_reg s gdp_status ||| 0x04 := by
      unfold gdp_proc_monitor_pass
      dsimp only
      rw [if_pos h]
      have e2 : gdp_status = 0x70 := rfl
      rw [e2, (change_io_reg_read _ 0x70 0x4 0).1]
      have e3 := gdp_proc_command_status s (fifo_cmd &&& 0xFF)
      rw [e2] at e3
      unfold read_io_reg
      rw [e3]
      exact b1
    rw [e]
    exact ⟨rfl, b2, b3⟩
  · unfold gdp_proc_monitor_pass
    dsimp only
    rw [if_neg h]

/-- Instance of the amended C24: the entry 0x7005 in `line_demo_state`, and the entry
0x6010 (addressed to the page register), which the command monitor ignores. -/
theorem gdp_proc_monitor_status_witness :
    read_io_reg (gdp_proc_monitor_pass line_demo_state (some 0x7005)) gdp_status
      = read_io_reg line_demo_state gdp_status ||| 0x04 ∧
    gdp_proc_monitor_pass line_demo_state (some 0x6010) = line_demo_state :=
  ⟨((gdp_proc_monitor_status line_demo_state 0x7005).1 (by decide)).1,
   (gdp_proc_monitor_status line_demo_state 0x6010).2.1 (by decide)⟩

/-! ## The rows held by the two line buffers -/

theorem testBit_two (n : Nat) : n.testBit 2 = decide (n / 4 % 2 = 1) :=
  Nat.testBit_to_div_mod

theorem rows_after_handler (v : VideoState) (r : BufRows) :
    (next_line_count v.gdp.line_count % 4 ≠ 0 →
      rows_after v (gdp_data_dma_handler v) r = r) ∧
    (next_line_count v.gdp.line_count % 4 = 0 →
      (rows_after v (gdp_data_dma_handler v) r).row
          (if (next_line_count v.gdp.line_count).testBit 2 then LineBuf.line_buf1
           else LineBuf.line_buf0)
        = some ((next_line_count v.gdp.line_count / 4 + 1) % 256) ∧
      (rows_after v (gdp_data_dma_handler v) r).row
          (if (next_line_count v.gdp.line_count).testBit 2 then LineBuf.line_buf0
           else LineBuf.line_buf1)
        = r.row (if (next_line_count v.gdp.line_count).testBit 2 then LineBuf.line_buf0
                 else LineBuf.line_buf1)) := by
  obtain ⟨_, h2, h3⟩ := gdp_data_dma_handler_dma v
  have hg : (gdp_data_dma_handler v).gdp.graphmem = v.gdp.graphmem := rfl
  constructor
  · intro hne
    unfold rows_after
    rw [if_pos (h3 hne).1]
  · intro h0
    obtain ⟨a1, a2, a3, _⟩ := h2 h0
    unfold rows_after
    rw [if_neg (by omega), a2, a3, hg, Nat.shiftRight_eq_div_pow]
    have e : (v.gdp.graphmem + 16 * ((next_line_count v.gdp.line_count / 2 ^ 2 + 1) % 256)
        - v.gdp.graphmem) / 16 = (next_line_count v.gdp.line_count / 4 + 1) % 256 := by
      norm_num
    rw [e]
    cases (next_line_count v.gdp.line_count).testBit 2 <;> exact ⟨rfl, rfl⟩

/-- The invariant of an uninterrupted run of the data handler: once the run is long
enough, the buffer not selected for output holds the next logical row and the selected
one holds the current row. -/
theorem data_run_rows (v : VideoState) (r : BufRows) (hv : v.gdp.line_count ≤ 1023)
    (k : Nat) :
    (data_run k (v, r)).1.gdp.line_count ≤ 1023 ∧
    ((data_run k (v, r)).1.gdp.line_count % 4 + 1 ≤ k →
      (data_run k (v, r)).2.row
          (if ((data_run k (v, r)).1.gdp.line_count).testBit 2 then LineBuf.line_buf1
           else LineBuf.line_buf0)
        = some (((data_run k (v, r)).1.gdp.line_count / 4 + 1) % 256)) ∧
    ((data_run k (v, r)).1.gdp.line_count % 4 + 5 ≤ k →
      (data_run k (v, r)).2.row
          (if ((data_run k (v, r)).1.gdp.line_count).testBit 2 then LineBuf.line_buf0
           else LineBuf.line_buf1)
        = some (((data_run k (v, r)).1.gdp.line_count / 4) % 256)) := by
  induction k with
  | zero => exact ⟨hv, fun h => absurd h (by omega), fun h => absurd h (by omega)⟩
  | succ k ih =>
    obtain ⟨i1, i2, i3⟩ := ih
    have e : data_run (k + 1) (v, r)
        = (gdp_data_dma_handler (data_run k (v, r)).1,
           rows_after (data_run k (v, r)).1 (gdp_data_dma_handler (data_run k (v, r)).1)
             (data_run k (v, r)).2) := rfl
    rw [e]
    dsimp only
    rw [gdp_data_dma_handler_line_count]
    obtain ⟨r1, r2⟩ := rows_after_handler (data_run k (v, r)).1 (data_run k (v, r)).2
    generalize (data_run k (v, r)).1 = w at *
    generalize (data_run k (v, r)).2 = R at *
    have hn := next_line_count_eq w.gdp.line_count i1
    generalize next_line_count w.gdp.line_count = n' at *
    generalize w.gdp.line_count = n at *
    rw [testBit_two] at i2 i3
    have hle : n' ≤ 1023 := by omega
    refine ⟨hle, ?_, ?_⟩
    · intro hk
      by_cases h0 : n' % 4 = 0
      · exact (r2 h0).1
      · rw [r1 h0]
        have e1 : n' / 4 = n / 4 := by omega
        have e2 : n'.testBit 2 = decide (n / 4 % 2 = 1) := by rw [testBit_two, e1]
        rw [e2, e1]
        exact i2 (by omega)
    · intro hk
      by_cases h0 : n' % 4 = 0
      · rw [(r2 h0).2]
        have e2 : n'.testBit 2 = !decide (n / 4 % 2 = 1) := by
          rw [testBit_two]
          by_cases hp : n / 4 % 2 = 1
          · have : ¬ (n' / 4 % 2 = 1) := by omega
            simp only [hp, this, decide_True, decide_False, Bool.not_true]
          · have : n' / 4 % 2 = 1 := by omega
            simp only [hp, this, decide_True, decide_False, Bool.not_false]
        have e3 : n' / 4 % 256 = (n / 4 + 1) % 256 := by omega
        rw [e2, e3]
        have i2' := i2 (by omega)
        cases hd : decide (n / 4 % 2 = 1)
        · rw [hd] at i2'
          exact i2'
        · rw [hd] at i2'
          exact i2'
      · rw [r1 h0]
        have e1 : n' / 4 = n / 4 := by omega
        have e2 : n'.testBit 2 = decide (n / 4 % 2 = 1) := by rw [testBit_two, e1]
        rw [e2, e1]
        exact i3 (by omega)

/-- C28: model each line buffer by the row it was last refilled from (`BufRows`). In an
uninterrupted run of `gdp_data_dma_handler` invocations from any state with
`line_count <= 1023` and any buffer contents, every invocation preceded by at least 7
earlier ones (the k-th with k >= 8) hands to the output channel the buffer whose last
refill row is (n >> 2) mod 256, n being the line counter after the increment. -/
theorem data_run_ping_pong (v : VideoState) (r : BufRows) (k : Nat)
    (hv : v.gdp.line_count ≤ 1023) (hk : 8 ≤ k) :
    (data_run k (v, r)).2.row (data_run k (v, r)).1.dma.ch1_read_addr
      = some (((data_run k (v, r)).1.gdp.line_count >>> 2) % 256) := by
  obtain ⟨_, _, h3⟩ := data_run_rows v r hv k
  obtain ⟨j, rfl⟩ : ∃ j, k = j + 1 := ⟨k - 1, by omega⟩
  have e : data_run (j + 1) (v, r)
      = (gdp_data_dma_handler (data_run j (v, r)).1,
         rows_after (data_run j (v, r)).1 (gdp_data_dma_handler (data_run j (v, r)).1)
           (data_run j (v, r)).2) := rfl
  rw [e] at h3 ⊢
  dsimp only at h3 ⊢
  rw [(gdp_data_dma_handler_dma _).1, Nat.shiftRight_eq_div_pow]
  rw [gdp_data_dma_handler_line_count] at h3 ⊢
  exact h3 (by omega)

/-- Instance of C28: the 8th invocation from `video_demo_state` (line counter 0, nothing
known about the buffers) reaches line 8 and outputs the buffer refilled from row 2. -/
theorem data_run_ping_pong_witness :
    (data_run 8 (video_demo_state, ⟨none, none⟩)).2.row
        (data_run 8 (video_demo_state, ⟨none, none⟩)).1.dma.ch1_read_addr
      = some 2 :=
  (data_run_ping_pong video_demo_state ⟨none, none⟩ 8 (by decide) (by decide)).trans
    (by decide)

/-! ## Theorems about the PS/2 scan-code translation -/

/-- The index used to read a table is the scan code itself, whenever a table is read. -/
theorem ps2key_table_index_eq (st : Ps2State) (code i : Nat)
    (h : ps2key_table_index st code = some i) :
    i = code % 256 ∧ st.release = 0 ∧ code % 256 ≠ 0xF0 := by
  unfold ps2key_table_index at h
  dsimp only at h
  split at h
  · exact absurd h (by simp)
  · split at h
    · exact absurd h (by simp)
    · split at h
      · rename_i h1 _ h3
        exact ⟨(Option.some.inj h).symm, h3, h1⟩
      · exact absurd h (by simp)

set_option maxRecDepth 100000 in
theorem ps2key_tables_length : lower.length = 128 ∧ upper.length = 128 := by
  decide

set_option maxRecDepth 100000 in
theorem ps2key_pass_extended_prefix :
    ps2key_irq_handler_pass ⟨0, 0, 0, []⟩ 0xE0 = none ∧
    ps2key_irq_handler_pass ⟨0, 1, 0, []⟩ 0xE0 = none := by
  decide

set_option maxRecDepth 100000 in
theorem ps2key_pass_key_a :
    (ps2key_irq_handler_pass ⟨0, 0, 0, []⟩ 0x1C).map (fun s => s.queue) = some [97] := by
  decide

/-- C29 fails in the code: both tables have 128 entries, and with `release` = 0 the scan
code 0xE0 (the prefix byte of the extended keys) is used as the table index 224, outside
the table, in either shift state; so is the scan code 0x83 (index 131). A pass of the
handler with the scan code 0x1C stays inside the table and queues the letter a. -/
theorem ps2key_index_out_of_table :
    lower.length = 128 ∧ upper.length = 128 ∧
    ps2key_table_index ⟨0, 0, 0, []⟩ 0xE0 = some 224 ∧
    ps2key_table_index ⟨0, 1, 0, []⟩ 0xE0 = some 224 ∧
    ps2key_table_index ⟨0, 0, 0, []⟩ 0x83 = some 131 ∧
    ps2key_irq_handler_pass ⟨0, 0, 0, []⟩ 0xE0 = none ∧
    ps2key_irq_handler_pass ⟨0, 1, 0, []⟩ 0xE0 = none ∧
    (ps2key_irq_handler_pass ⟨0, 0, 0, []⟩ 0x1C).map (fun s => s.queue) = some [97] :=
  ⟨ps2key_tables_length.1, ps2key_tables_length.2, by decide, by decide, by decide,
   ps2key_pass_extended_prefix.1, ps2key_pass_extended_prefix.2, ps2key_pass_key_a⟩

/-! ## Theorems about the XMODEM block integrity -/

theorem crc_xmodem_shift_lt (c : Nat) : crc_xmodem_shift c < 65536 := by
  unfold crc_xmodem_shift
  split <;> exact Nat.mod_lt _ (by norm_num)

theorem foldl_crc_xmodem_shift_lt (l : List Nat) (c : Nat) (h : c < 65536) :
    l.foldl (fun c _ => crc_xmodem_shift c) c < 65536 := by
  induction l generalizing c with
  | nil => exact h
  | cons x l ih => exact ih _ (crc_xmodem_shift_lt c)

theorem crc_xmodem_update_lt (crc data : Nat) : crc_xmodem_update crc data < 65536 :=
  foldl_crc_xmodem_shift_lt _ _ (Nat.mod_lt _ (by norm_num))

theorem crc16_ccitt_lt (buf : Nat → Nat) (sz : Nat) : crc16_ccitt buf sz < 65536 := by
  unfold crc16_ccitt
  cases sz with
  | zero => simp
  | succ n =>
    rw [List.range_succ, List.foldl_append, List.foldl_cons, List.foldl_nil]
    exact crc_xmodem_update_lt _ _

theorem foldl_range_congr {α : Type} (f g : α → Nat → α) (a : α) (n : Nat)
    (h : ∀ x : α, ∀ i : Nat, i < n → f x i = g x i) :
    (List.range n).foldl f a = (List.range n).foldl g a := by
  induction n with
  | zero => rfl
  | succ n ih =>
    rw [List.range_succ, List.foldl_append, List.foldl_append,
      ih (fun x i hi => h x i (by omega))]
    exact h _ n (by omega)

theorem crc16_ccitt_congr (buf buf2 : Nat → Nat) (sz : Nat)
    (h : ∀ i : Nat, i < sz → buf i = buf2 i) : crc16_ccitt buf sz = crc16_ccitt buf2 sz := by
  unfold crc16_ccitt
  exact foldl_range_congr _ _ _ _ (fun x i hi => by rw [h i hi])

theorem crc_bytes_recombine (c : Nat) (h : c < 65536) :
    ((((c >>> 8) &&& 0xFF) % 256 % 256) <<< 8 + (c &&& 0xFF) % 256 % 256) % 65536 = c := by
  rw [Nat.shiftLeft_eq, Nat.shiftRight_eq_div_pow, and_255, and_255]
  norm_num
  omega

/-- C30: for every block buffer and every payload length, the block that
`xmodemTransmit` builds is accepted by `check`: in CRC mode (any non-zero `crc` flag, in
particular 1), after appending the big-endian 16-bit `crc16_ccitt` of the payload, `check`
returns 1; in checksum mode, after appending the sum of the payload bytes mod 256,
`check` returns 1; and `crc16_ccitt` of the empty buffer is 0. -/
theorem xmodem_check_round_trip (xbuff : Nat → Nat) (bufsz : Nat) :
    check 1 (xbuff_payload (xmodemTransmit_trailer 1 xbuff bufsz)) bufsz = 1 ∧
    (∀ crc : Nat, crc ≠ 0 →
      check crc (xbuff_payload (xmodemTransmit_trailer crc xbuff bufsz)) bufsz = 1) ∧
    check 0 (xbuff_payload (xmodemTransmit_trailer 0 xbuff bufsz)) bufsz = 1 ∧
    (∀ i : Nat, i < bufsz →
      xbuff_payload (xmodemTransmit_trailer 1 xbuff bufsz) i = xbuff (3 + i) ∧
      xbuff_payload (xmodemTransmit_trailer 0 xbuff bufsz) i = xbuff (3 + i)) ∧
    (xbuff_payload (xmodemTransmit_trailer 1 xbuff bufsz) bufsz * 256
      + xbuff_payload (xmodemTransmit_trailer 1 xbuff bufsz) (bufsz + 1)
        = crc16_ccitt (xbuff_payload xbuff) bufsz) ∧
    crc16_ccitt (xbuff_payload xbuff) 0 = 0 := by
  have hcrc : ∀ crc : Nat, crc ≠ 0 →
      check crc (xbuff_payload (xmodemTransmit_trailer crc xbuff bufsz)) bufsz = 1 := by
    intro crc hc
    unfold check xmodemTransmit_trailer
    rw [if_pos hc, if_pos hc]
    dsimp only
    have e1 : crc16_ccitt (xbuff_payload (xbuff_store (xbuff_store xbuff (bufsz + 3)
          ((crc16_ccitt (fun i => xbuff (3 + i)) bufsz >>> 8) &&& 0xFF)) (bufsz + 4)
          (crc16_ccitt (fun i => xbuff (3 + i)) bufsz &&& 0xFF))) bufsz
        = crc16_ccitt (fun i => xbuff (3 + i)) bufsz := by
      apply crc16_ccitt_congr
      intro i hi
      unfold xbuff_payload xbuff_store
      rw [if_neg (by omega), if_neg (by omega)]
    rw [e1]
    have e2 : xbuff_payload (xbuff_store (xbuff_store xbuff (bufsz + 3)
          ((crc16_ccitt (fun i => xbuff (3 + i)) bufsz >>> 8) &&& 0xFF)) (bufsz + 4)
          (crc16_ccitt (fun i => xbuff (3 + i)) bufsz &&& 0xFF)) bufsz
        = ((crc16_ccitt (fun i => xbuff (3 + i)) bufsz >>> 8) &&& 0xFF) % 256 := by
      unfold xbuff_payload xbuff_store
      rw [if_neg (by omega), if_pos (by omega)]
    have e3 : xbuff_payload (xbuff_store (xbuff_store xbuff (bufsz + 3)
          ((crc16_ccitt (fun i => xbuff (3 + i)) bufsz >>> 8) &&& 0xFF)) (bufsz + 4)
          (crc16_ccitt (fun i => xbuff (3 + i)) bufsz &&& 0xFF)) (bufsz + 1)
        = (crc16_ccitt (fun i => xbuff (3 + i)) bufsz &&& 0xFF) % 256 := by
      unfold xbuff_payload xbuff_store
      rw [if_pos (by omega)]
    rw [e2, e3, crc_bytes_recombine _ (crc16_ccitt_lt _ _), if_pos rfl]
  refine ⟨hcrc 1 (by decide), hcrc, ?_, ?_, ?_, rfl⟩
  · have h0 : ¬ ((0 : Nat) ≠ 0) := by decide
    unfold check xmodemTransmit_trailer
    rw [if_neg h0, if_neg h0]
    dsimp only
    have e1 : (List.range bufsz).foldl (fun cks i => (cks + xbuff_payload (xbuff_store xbuff
          (bufsz + 3) ((List.range' 3 bufsz).foldl
            (fun cks i => (cks + xbuff i % 256) % 256) 0)) i % 256) % 256) 0
        = (List.range' 3 bufsz).foldl (fun cks i => (cks + xbuff i % 256) % 256) 0 := by
      rw [List.range'_eq_map_range, List.foldl_map]
      apply foldl_range_congr
      intro x i hi
      unfold xbuff_payload xbuff_store
      rw [if_neg (by omega)]
    rw [e1]
    have e2 : ∀ v : Nat, xbuff_payload (xbuff_store xbuff (bufsz + 3) v) bufsz = v % 256 := by
      intro v
      unfold xbuff_payload xbuff_store
      rw [if_pos (by omega)]
    rw [e2]
    have hlt : (List.range' 3 bufsz).foldl (fun cks i => (cks + xbuff i % 256) % 256) 0
        < 256 := by
      cases bufsz with
      | zero => simp
      | succ n =>
        rw [List.range'_concat, List.foldl_append]
        exact Nat.mod_lt _ (by norm_num)
    rw [Nat.mod_eq_of_lt hlt, Nat.mod_eq_of_lt hlt, if_pos rfl]
  · intro i hi
    have h0 : ¬ ((0 : Nat) ≠ 0) := by decide
    have h1 : (1 : Nat) ≠ 0 := by decide
    unfold xbuff_payload xmodemTransmit_trailer xbuff_store
    rw [if_pos h1, if_neg h0]
    rw [if_neg (by omega), if_neg (by omega), if_neg (by omega)]
    exact ⟨rfl, rfl⟩
  · have h1 : (1 : Nat) ≠ 0 := by decide
    unfold xmodemTransmit_trailer
    rw [if_pos h1]
    dsimp only
    have hlt := crc16_ccitt_lt (fun i => xbuff (3 + i)) bufsz
    have e0 : xbuff_payload xbuff = fun i => xbuff (3 + i) := rfl
    rw [e0]
    generalize crc16_ccitt (fun i => xbuff (3 + i)) bufsz = c at *
    unfold xbuff_payload xbuff_store
    rw [if_neg (by omega), if_pos (by omega), if_pos (by omega),
      Nat.shiftRight_eq_div_pow, and_255, and_255]
    norm_num
    omega

/-- Instance of C30: the payload 1, 2, 3 in `demo_xbuff`, with the CRC flag 2. -/
theorem xmodem_check_round_trip_witness :
    check 2 (xbuff_payload (xmodemTransmit_trailer 2 demo_xbuff 3)) 3 = 1 ∧
    xbuff_payload (xmodemTransmit_trailer 1 demo_xbuff 3) 2 = 3 :=
  ⟨(xmodem_check_round_trip demo_xbuff 3).2.1 2 (by decide),
   (((xmodem_check_round_trip demo_xbuff 3).2.2.2.1 2 (by decide)).1).trans (by decide)⟩

/-! ## The points plotted by `draw_line` -/

theorem toInt32_step (u : Nat) (sign : Bool) (h1 : -2147483648 < toInt32 u)
    (h2 : toInt32 u < 2147483647) :
    toInt32 (step_u32 u sign) = toInt32 u + (if sign then -1 else 1) := by
  unfold toInt32 step_u32 at *
  simp only [Nat.reducePow] at *
  cases sign
  · simp only [Bool.false_eq_true, if_false] at *
    split_ifs at * <;> omega
  · simp only [if_true] at *
    split_ifs at * <;> omega

/-- One pass of the loop body: the error term, and the two coordinates as signed values;
`m` is 1 when the minor axis steps and 0 otherwise. -/
theorem draw_line_body_exact (ys xs yg : Bool) (t1 t2 : Int) (st : LineLoop)
    (bx1 : -2147483648 < toInt32 st.x_ref) (bx2 : toInt32 st.x_ref < 2147483647)
    (by1 : -2147483648 < toInt32 st.y_ref) (by2 : toInt32 st.y_ref < 2147483647) :
    (draw_line_body ys xs yg t1 t2 st).var_p
      = (if st.var_p < 0 then st.var_p + t1 else st.var_p + t2) ∧
    toInt32 (draw_line_body ys xs yg t1 t2 st).x_ref
      = toInt32 st.x_ref + (if xs then -1 else 1)
          * ((if ys then (if st.var_p < 0 then 0 else 1) else 1 : Nat) : Int) ∧
    toInt32 (draw_line_body ys xs yg t1 t2 st).y_ref
      = toInt32 st.y_ref + (if yg then -1 else 1)
          * ((if ys then 1 else (if st.var_p < 0 then 0 else 1) : Nat) : Int) := by
  have sx := toInt32_step st.x_ref xs bx1 bx2
  have sy := toInt32_step st.y_ref yg by1 by2
  refine ⟨rfl, ?_, ?_⟩
  · unfold draw_line_body
    dsimp only
    cases ys
    · by_cases hp : st.var_p < 0
      · simp only [Bool.false_eq_true, if_false, hp, if_true, Nat.cast_one, mul_one]
        exact sx
      · simp only [Bool.false_eq_true, if_false, hp, Nat.cast_one, mul_one]
        exact sx
    · by_cases hp : st.var_p < 0
      · simp only [if_true, hp, Nat.cast_zero, mul_zero, add_zero]
      · simp only [if_true, hp, if_false, Nat.cast_one, mul_one]
        exact sx
  · unfold draw_line_body
    dsimp only
    cases ys
    · by_cases hp : st.var_p < 0
      · simp only [Bool.false_eq_true, if_false, hp, if_true, Nat.cast_zero, mul_zero,
          add_zero]
      · simp only [Bool.false_eq_true, if_false, hp, Nat.cast_one, mul_one]
        exact sy
    · by_cases hp : st.var_p < 0
      · simp only [if_true, hp, Nat.cast_one, mul_one]
        exact sy
      · simp only [if_true, hp, if_false, Nat.cast_one, mul_one]
        exact sy

theorem plot_all_cons (s : GdpState) (p : Int × Int) (l : List (Int × Int)) :
    plot_all s (p :: l) = plot_all (plot_pixel s p.1 p.2) l := rfl

theorem draw_line_trace_succ (ys xs yg : Bool) (t1 t2 : Int) (n : Nat) (st : LineLoop) :
    draw_line_trace ys xs yg t1 t2 (n + 1) st
      = (toInt32 (draw_line_body ys xs yg t1 t2 st).x_ref,
         toInt32 (draw_line_body ys xs yg t1 t2 st).y_ref)
          :: draw_line_trace ys xs yg t1 t2 n (draw_line_body ys xs yg t1 t2 st) := rfl

theorem draw_line_trace_length (ys xs yg : Bool) (t1 t2 : Int) :
    ∀ (n : Nat) (st : LineLoop), (draw_line_trace ys xs yg t1 t2 n st).length = n := by
  intro n
  induction n with
  | zero => intro st; rfl
  | succ n ih =>
    intro st
    rw [draw_line_trace_succ, List.length_cons, ih]

theorem draw_line_loop_plot_all (ys xs yg : Bool) (t1 t2 : Int) :
    ∀ (n : Nat) (st : LineLoop),
      (draw_line_loop ys xs yg t1 t2 n st).s
        = plot_all st.s (draw_line_trace ys xs yg t1 t2 n st) := by
  intro n
  induction n with
  | zero => intro st; rfl
  | succ n ih =>
    intro st
    rw [draw_line_loop_succ, ih, draw_line_trace_succ, plot_all_cons]
    rfl

theorem draw_line_trace_get (ys xs yg : Bool) (t1 t2 : Int) :
    ∀ (n : Nat) (st : LineLoop) (i : Nat), i < n →
      (draw_line_trace ys xs yg t1 t2 n st)[i]?
        = some (toInt32 (draw_line_loop ys xs yg t1 t2 (i + 1) st).x_ref,
                toInt32 (draw_line_loop ys xs yg t1 t2 (i + 1) st).y_ref) := by
  intro n
  induction n with
  | zero => intro st i hi; omega
  | succ n ih =>
    intro st i hi
    rw [draw_line_trace_succ]
    cases i with
    | zero =>
      rw [List.getElem?_cons_zero]
      rfl
    | succ i =>
      rw [List.getElem?_cons_succ, ih _ i (by omega)]
      rfl

theorem sign_cases (b : Bool) : (if b then (-1 : Int) else 1) = 1 ∨
    (if b then (-1 : Int) else 1) = -1 := by
  cases b
  · exact Or.inl rfl
  · exact Or.inr rfl

/-- The Bresenham invariant with exact positions: after `n` passes the major axis has
moved `n` steps and the minor axis `k` steps, `k` tied to the error term. -/
theorem draw_line_loop_exact (ys xs yg : Bool) (a b : Nat) (hab : b ≤ a) (t1 t2 : Int)
    (h1 : t1 = 2 * (b : Int)) (h2 : t2 = 2 * (b : Int) - 2 * (a : Int)) :
    ∀ (n : Nat) (st : LineLoop),
      2 * (b : Int) - 2 * (a : Int) ≤ st.var_p → st.var_p < 2 * (b : Int) →
      -2147483648 + (n : Int) < toInt32 st.x_ref →
      toInt32 st.x_ref + (n : Int) < 2147483647 →
      -2147483648 + (n : Int) < toInt32 st.y_ref →
      toInt32 st.y_ref + (n : Int) < 2147483647 →
      ∃ k : Nat, k ≤ n ∧
        (draw_line_loop ys xs yg t1 t2 n st).var_p
          = st.var_p + 2 * (b : Int) * n - 2 * (a : Int) * k ∧
        2 * (b : Int) - 2 * (a : Int) ≤ (draw_line_loop ys xs yg t1 t2 n st).var_p ∧
        (draw_line_loop ys xs yg t1 t2 n st).var_p < 2 * (b : Int) ∧
        toInt32 (draw_line_loop ys xs yg t1 t2 n st).x_ref
          = toInt32 st.x_ref + (if xs then -1 else 1) * ((if ys then k else n : Nat) : Int) ∧
        toInt32 (draw_line_loop ys xs yg t1 t2 n st).y_ref
          = toInt32 st.y_ref + (if yg then -1 else 1) * ((if ys then n else k : Nat) : Int) := by
  intro n
  induction n with
  | zero =>
    intro st hlo hhi _ _ _ _
    refine ⟨0, le_refl _, ?_, hlo, hhi, ?_, ?_⟩
    · show st.var_p = _
      simp only [Nat.cast_zero, mul_zero, add_zero, sub_zero]
    · show toInt32 st.x_ref = _
      simp only [ite_self, Nat.cast_zero, mul_zero, add_zero]
    · show toInt32 st.y_ref = _
      simp only [ite_self, Nat.cast_zero, mul_zero, add_zero]
  | succ n ih =>
    intro st hlo hhi bx1 bx2 by1 by2
    rw [draw_line_loop_succ]
    rw [Nat.cast_succ] at bx1 bx2 by1 by2
    obtain ⟨hv, hx, hy⟩ := draw_line_body_exact ys xs yg t1 t2 st (by omega) (by omega)
      (by omega) (by omega)
    generalize draw_line_body ys xs yg t1 t2 st = st1 at hv hx hy ⊢
    obtain ⟨m, hm, hm1⟩ : ∃ m : Nat, m = (if st.var_p < 0 then 0 else 1) ∧ m ≤ 1 := by
      refine ⟨_, rfl, ?_⟩
      split <;> omega
    rw [← hm] at hx hy
    have hv2 : st1.var_p = st.var_p + 2 * (b : Int) - 2 * (a : Int) * m := by
      rw [hv, hm]
      by_cases hp : st.var_p < 0
      · rw [if_pos hp, if_pos hp, h1]
        simp only [Nat.cast_zero, mul_zero, sub_zero]
      · rw [if_neg hp, if_neg hp, h2]
        simp only [Nat.cast_one, mul_one]
        ring
    have hm2 : (m = 0 ∧ st.var_p < 0) ∨ (m = 1 ∧ 0 ≤ st.var_p) := by
      by_cases hp : st.var_p < 0
      · rw [if_pos hp] at hm
        exact Or.inl ⟨hm, hp⟩
      · rw [if_neg hp] at hm
        exact Or.inr ⟨hm, by omega⟩
    have hcx : ∃ cx : Nat, cx ≤ 1 ∧ (if ys then m else 1) = cx := ⟨_, by split <;> omega, rfl⟩
    have hcy : ∃ cy : Nat, cy ≤ 1 ∧ (if ys then 1 else m) = cy := ⟨_, by split <;> omega, rfl⟩
    obtain ⟨cx, hcx1, hcx2⟩ := hcx
    obtain ⟨cy, hcy1, hcy2⟩ := hcy
    have hx2 : toInt32 st1.x_ref = toInt32 st.x_ref + (if xs then -1 else 1) * (cx : Int) := by
      rw [hx, hcx2]
    have hy2 : toInt32 st1.y_ref = toInt32 st.y_ref + (if yg then -1 else 1) * (cy : Int) := by
      rw [hy, hcy2]
    have bndx : -1 ≤ (if xs then (-1 : Int) else 1) * (cx : Int) ∧
        (if xs then (-1 : Int) else 1) * (cx : Int) ≤ 1 := by
      rcases sign_cases xs with e | e <;> rw [e] <;> constructor <;> omega
    have bndy : -1 ≤ (if yg then (-1 : Int) else 1) * (cy : Int) ∧
        (if yg then (-1 : Int) else 1) * (cy : Int) ≤ 1 := by
      rcases sign_cases yg with e | e <;> rw [e] <;> constructor <;> omega
    have hvlo : 2 * (b : Int) - 2 * (a : Int) ≤ st1.var_p := by
      rw [hv2]
      rcases hm2 with ⟨e, hp⟩ | ⟨e, hp⟩ <;> subst e <;> push_cast <;> omega
    have hvhi : st1.var_p < 2 * (b : Int) := by
      rw [hv2]
      rcases hm2 with ⟨e, hp⟩ | ⟨e, hp⟩ <;> subst e <;> push_cast <;> omega
    obtain ⟨k, e0, e1, e2, e3, e4, e5⟩ := ih st1 hvlo hvhi
      (by rw [hx2]; omega) (by rw [hx2]; omega) (by rw [hy2]; omega) (by rw [hy2]; omega)
    refine ⟨k + m, by omega, ?_, e2, e3, ?_, ?_⟩
    · rw [e1, hv2]
      push_cast
      ring
    · rw [e4, hx2, ← hcx2]
      cases ys
      · simp only [Bool.false_eq_true, if_false]
        push_cast
        ring
      · simp only [if_true]
        push_cast
        ring
    · rw [e5, hy2, ← hcy2]
      cases ys
      · simp only [Bool.false_eq_true, if_false]
        push_cast
        ring
      · simp only [if_true]
        push_cast
        ring

/-! ## The arithmetic of the Bresenham law -/

theorem claimed_minor_offset_bounds (k d D : Nat) (hD : 0 < D) :
    2 * D * claimed_minor_offset k d D ≤ 2 * k * d + D ∧
    2 * k * d + D < 2 * D * claimed_minor_offset k d D + 2 * D := by
  unfold claimed_minor_offset
  have h1 := Nat.div_add_mod (2 * k * d + D) (2 * D)
  have h2 := Nat.mod_lt (2 * k * d + D) (show 0 < 2 * D by omega)
  constructor <;> omega

theorem claimed_minor_offset_unique (k d D m : Nat) (p : Int)
    (hp : p = 2 * (d : Int) - D + 2 * (d : Int) * k - 2 * (D : Int) * m)
    (hlo : 2 * (d : Int) - 2 * (D : Int) ≤ p) (hhi : p < 2 * (d : Int)) :
    m = claimed_minor_offset k d D := by
  unfold claimed_minor_offset
  symm
  apply Nat.div_eq_of_lt_le
  · have : ((m * (2 * D) : Nat) : Int) ≤ ((2 * k * d + D : Nat) : Int) := by
      push_cast
      linarith
    exact_mod_cast this
  · have : ((2 * k * d + D : Nat) : Int) < (((m + 1) * (2 * D) : Nat) : Int) := by
      push_cast
      linarith
    exact_mod_cast this

theorem claimed_minor_offset_near (k d D : Nat) (hD : 0 < D) :
    |2 * ((k : Int) * d - (claimed_minor_offset k d D : Int) * D)| ≤ (D : Int) := by
  obtain ⟨h1, h2⟩ := claimed_minor_offset_bounds k d D hD
  generalize claimed_minor_offset k d D = m at h1 h2
  have a1 : ((2 * D * m : Nat) : Int) ≤ ((2 * k * d + D : Nat) : Int) := by exact_mod_cast h1
  have a2 : ((2 * k * d + D : Nat) : Int) < ((2 * D * m + 2 * D : Nat) : Int) := by
    exact_mod_cast h2
  push_cast at a1 a2
  rw [abs_le]
  constructor <;> linarith

theorem claimed_minor_offset_le (k d D : Nat) (hD : 0 < D) (hd : d ≤ D) :
    claimed_minor_offset k d D ≤ k := by
  obtain ⟨h1, _⟩ := claimed_minor_offset_bounds k d D hD
  generalize claimed_minor_offset k d D = m at h1
  by_contra hlt
  have hk : k + 1 ≤ m := by omega
  have a1 : 2 * D * (k + 1) ≤ 2 * D * m := Nat.mul_le_mul_left _ hk
  have a2 : 2 * k * d ≤ 2 * k * D := Nat.mul_le_mul_left _ hd
  have a3 : 2 * D * (k + 1) = 2 * k * D + 2 * D := by ring
  omega

theorem claimed_minor_offset_step (k d D : Nat) (hD : 0 < D) (hd : d ≤ D) :
    claimed_minor_offset k d D ≤ claimed_minor_offset (k + 1) d D ∧
    claimed_minor_offset (k + 1) d D ≤ claimed_minor_offset k d D + 1 := by
  unfold claimed_minor_offset
  have e : 2 * (k + 1) * d + D = 2 * k * d + D + 2 * d := by ring
  rw [e]
  constructor
  · exact Nat.div_le_div_right (by omega)
  · have h := Nat.add_div_right (2 * k * d + D) (show 0 < 2 * D by omega)
    have h2 : (2 * k * d + D + 2 * d) / (2 * D) ≤ (2 * k * d + D + 2 * D) / (2 * D) :=
      Nat.div_le_div_right (by omega)
    omega

theorem line_ef_base_lt (c dx dy : Nat) (hx : dx < 256) (hy : dy < 256) :
    (line_ef_base c dx dy).1 < 256 ∧ (line_ef_base c dx dy).2 < 256 := by
  unfold line_ef_base
  have e1 : (c >>> 5) &&& 0x3 < 256 := by rw [and_3]; omega
  have e2 : (c >>> 3) &&& 0x3 < 256 := by rw [and_3]; omega
  split
  · exact ⟨e1, e2⟩
  · split
    · split <;> exact ⟨by assumption, by assumption⟩
    · exact ⟨hx, hy⟩

theorem line_ef_lt (c dx dy : Nat) (hx : dx < 256) (hy : dy < 256) :
    (line_ef c dx dy).1 < 256 ∧ (line_ef c dx dy).2 < 256 := by
  obtain ⟨b1, b2⟩ := line_ef_base_lt c dx dy hx hy
  unfold line_ef
  dsimp only
  split
  · split
    · exact ⟨b1, by norm_num⟩
    · exact ⟨by norm_num, b2⟩
  · exact ⟨b1, b2⟩

theorem claimed_line_sign_cases (c i : Nat) :
    claimed_line_sign c i = 1 ∨ claimed_line_sign c i = -1 := by
  unfold claimed_line_sign
  cases c.testBit i
  · exact Or.inl rfl
  · exact Or.inr rfl

theorem claimed_line_sign_x (c : Nat) :
    (if line_x_sign c then (-1 : Int) else 1) = claimed_line_sign c 1 := by
  rw [line_x_sign_eq]
  rfl

theorem claimed_line_sign_y (c : Nat) :
    (if line_y_sign c then (-1 : Int) else 1) = claimed_line_sign c 2 := by
  rw [line_y_sign_eq]
  rfl

/-- The k-th entry of the trace of the loop of `draw_line`, started as `draw_line` starts
it with major magnitude `a` and minor magnitude `b`. -/
theorem draw_line_trace_point (ys xs yg : Bool) (a b : Nat) (hab : b ≤ a) (ha : a < 256)
    (s : GdpState) (x0 y0 : Nat) (hx0 : x0 < 65536) (hy0 : y0 < 65536) (t1 t2 : Int)
    (h1 : t1 = 2 * (b : Int)) (h2 : t2 = 2 * (b : Int) - 2 * (a : Int))
    (k : Nat) (hk1 : 1 ≤ k) (hk2 : k ≤ a) :
    (draw_line_trace ys xs yg t1 t2 a
        { s := s, x_ref := x0, y_ref := y0, var_p := 2 * (b : Int) - a })[k - 1]?
      = some ((x0 : Int) + (if xs then -1 else 1)
                * ((if ys then claimed_minor_offset k b a else k : Nat) : Int),
              (y0 : Int) + (if yg then -1 else 1)
                * ((if ys then k else claimed_minor_offset k b a : Nat) : Int)) := by
  have hx : toInt32 x0 = (x0 : Int) := toInt32_small x0 (by omega)
  have hy : toInt32 y0 = (y0 : Int) := toInt32_small y0 (by omega)
  have hk : k - 1 + 1 = k := by omega
  rw [draw_line_trace_get ys xs yg t1 t2 a _ (k - 1) (by omega), hk]
  obtain ⟨m, _, e1, e2, e3, e4, e5⟩ := draw_line_loop_exact ys xs yg a b hab t1 t2 h1 h2 k
    { s := s, x_ref := x0, y_ref := y0, var_p := 2 * (b : Int) - a }
    (by dsimp only; omega) (by dsimp only; omega)
    (by dsimp only; rw [hx]; omega) (by dsimp only; rw [hx]; omega)
    (by dsimp only; rw [hy]; omega) (by dsimp only; rw [hy]; omega)
  dsimp only at e1 e4 e5
  have hm : m = claimed_minor_offset k b a :=
    claimed_minor_offset_unique k b a m _ e1 e2 e3
  rw [e4, e5, hx, hy, hm]

theorem draw_line_plots_eq (s : GdpState) (c ex ey : Nat)
    (he : line_ef c (read_io_reg s gdp_deltax) (read_io_reg s gdp_deltay) = (ex, ey)) :
    draw_line_plots s c
      = draw_line_trace (decide (ey > ex)) (line_x_sign c) (line_y_sign c)
          (2 * ((min ex ey : Nat) : Int))
          (2 * ((min ex ey : Nat) : Int) - 2 * ((max ex ey : Nat) : Int)) (max ex ey)
          { s := s, x_ref := cursor_x s, y_ref := cursor_y s,
            var_p := 2 * ((min ex ey : Nat) : Int) - (max ex ey : Nat) } ∧
    draw_line_run s c
      = draw_line_loop (decide (ey > ex)) (line_x_sign c) (line_y_sign c)
          (2 * ((min ex ey : Nat) : Int))
          (2 * ((min ex ey : Nat) : Int) - 2 * ((max ex ey : Nat) : Int)) (max ex ey)
          { s := s, x_ref := cursor_x s, y_ref := cursor_y s,
            var_p := 2 * ((min ex ey : Nat) : Int) - (max ex ey : Nat) } := by
  unfold draw_line_plots draw_line_run cursor_x cursor_y
  dsimp only
  rw [he]
  dsimp only
  by_cases hgt : ey > ex
  · have e1 : min ex ey = ex := Nat.min_eq_left (by omega)
    have e2 : max ex ey = ey := Nat.max_eq_right (by omega)
    have e3 : ((ex : Int) - ey) * 2 = 2 * (ex : Int) - 2 * (ey : Int) := by ring
    have e4 : (ex : Int) * 2 = 2 * (ex : Int) := by ring
    rw [e1, e2, if_pos hgt, if_pos hgt, if_pos hgt, if_pos hgt, e3, e4]
    exact ⟨rfl, rfl⟩
  · have e1 : min ex ey = ey := Nat.min_eq_right (by omega)
    have e2 : max ex ey = ex := Nat.max_eq_left (by omega)
    have e3 : ((ey : Int) - ex) * 2 = 2 * (ey : Int) - 2 * (ex : Int) := by ring
    have e4 : (ey : Int) * 2 = 2 * (ey : Int) := by ring
    rw [e1, e2, if_neg hgt, if_neg hgt, if_neg hgt, if_neg hgt, e3, e4]
    exact ⟨rfl, rfl⟩

theorem claimed_line_point_eq (x0 y0 c ex ey k : Nat) :
    claimed_line_point x0 y0 c ex ey k
      = ((x0 : Int) + claimed_line_sign c 1
            * ((if decide (ey > ex) then claimed_minor_offset k (min ex ey) (max ex ey)
                else k : Nat) : Int),
         (y0 : Int) + claimed_line_sign c 2
            * ((if decide (ey > ex) then k
                else claimed_minor_offset k (min ex ey) (max ex ey) : Nat) : Int)) := by
  unfold claimed_line_point
  dsimp only
  by_cases hgt : ey > ex
  · rw [if_neg (by omega)]
    simp only [hgt, decide_True, if_true]
  · rw [if_pos (by omega)]
    simp only [hgt, decide_False, Bool.false_eq_true, if_false]

/-- Consecutive points of the Bresenham law differ by one step along the major axis and
by at most one step along the minor axis. -/
theorem claimed_line_point_step (x0 y0 c ex ey k : Nat) (hk : k < max ex ey) :
    claimed_line_point x0 y0 c ex ey (k + 1) ≠ claimed_line_point x0 y0 c ex ey k ∧
    |(claimed_line_point x0 y0 c ex ey (k + 1)).1 - (claimed_line_point x0 y0 c ex ey k).1|
      ≤ 1 ∧
    |(claimed_line_point x0 y0 c ex ey (k + 1)).2 - (claimed_line_point x0 y0 c ex ey k).2|
      ≤ 1 := by
  rw [claimed_line_point_eq, claimed_line_point_eq]
  obtain ⟨s1, s2⟩ := claimed_minor_offset_step k (min ex ey) (max ex ey) (by omega)
    (by omega)
  generalize claimed_minor_offset (k + 1) (min ex ey) (max ex ey) = m2 at s1 s2
  generalize claimed_minor_offset k (min ex ey) (max ex ey) = m1 at s1 s2
  dsimp only
  by_cases hgt : ey > ex
  · simp only [hgt, decide_True, if_true]
    refine ⟨fun h => ?_, ?_, ?_⟩
    · have h2 := congrArg Prod.snd h
      dsimp only at h2
      rcases claimed_line_sign_cases c 2 with e | e <;> rw [e] at h2 <;> push_cast at h2 <;>
        omega
    · rw [abs_le]
      rcases claimed_line_sign_cases c 1 with e | e <;> rw [e] <;> constructor <;> omega
    · rw [abs_le]
      rcases claimed_line_sign_cases c 2 with e | e <;> rw [e] <;> push_cast <;>
        constructor <;> omega
  · simp only [hgt, decide_False, Bool.false_eq_true, if_false]
    refine ⟨fun h => ?_, ?_, ?_⟩
    · have h2 := congrArg Prod.fst h
      dsimp only at h2
      rcases claimed_line_sign_cases c 1 with e | e <;> rw [e] at h2 <;> push_cast at h2 <;>
        omega
    · rw [abs_le]
      rcases claimed_line_sign_cases c 1 with e | e <;> rw [e] <;> push_cast <;>
        constructor <;> omega
    · rw [abs_le]
      rcases claimed_line_sign_cases c 2 with e | e <;> rw [e] <;> constructor <;> omega

/-- No point of the Bresenham law with `k >= 1` is the start point. -/
theorem claimed_line_point_ne_start (x0 y0 c ex ey k : Nat) (hk : 1 ≤ k) :
    claimed_line_point x0 y0 c ex ey k ≠ ((x0 : Int), (y0 : Int)) := by
  rw [claimed_line_point_eq]
  intro h
  by_cases hgt : ey > ex
  · simp only [hgt, decide_True, if_true] at h
    have h2 := congrArg Prod.snd h
    dsimp only at h2
    rcases claimed_line_sign_cases c 2 with e | e <;> rw [e] at h2 <;> omega
  · simp only [hgt, decide_False, Bool.false_eq_true, if_false] at h
    have h2 := congrArg Prod.fst h
    dsimp only at h2
    rcases claimed_line_sign_cases c 1 with e | e <;> rw [e] at h2 <;> omega

/-- C26: let D = max(ex,ey) and d = min(ex,ey) be the effective magnitudes of a line.
`draw_line` calls `plot_pixel` exactly D times (`draw_line_plots` lists the calls, and
the draw page after `draw_line` is the one after these calls); the k-th plotted point
(1 <= k <= D) is `claimed_line_point`: k steps along the major axis and
floor((2*k*d + D) / (2*D)) steps along the minor axis from the start cursor, each in the
direction of the sign bit of its axis, x being the major axis when ex >= ey; it is never
the start cursor, it is a nearest grid point to the ideal segment
(|2*(k*d - m_k*D)| <= D), and consecutive plotted points are 8-neighbours. -/
theorem draw_line_bresenham (s : GdpState) (c ex ey : Nat)
    (he : line_ef c (read_io_reg s gdp_deltax) (read_io_reg s gdp_deltay) = (ex, ey)) :
    (draw_line_plots s c).length = max ex ey ∧
    (draw_line_run s c).s = plot_all s (draw_line_plots s c) ∧
    (draw_line s c).graphmem_4p = (plot_all s (draw_line_plots s c)).graphmem_4p ∧
    (∀ k : Nat, 1 ≤ k → k ≤ max ex ey →
      (draw_line_plots s c)[k - 1]?
        = some (claimed_line_point (cursor_x s) (cursor_y s) c ex ey k) ∧
      claimed_line_point (cursor_x s) (cursor_y s) c ex ey k
        ≠ ((cursor_x s : Int), (cursor_y s : Int)) ∧
      |2 * ((k : Int) * ((min ex ey : Nat) : Int)
          - (claimed_minor_offset k (min ex ey) (max ex ey) : Int) * ((max ex ey : Nat) : Int))|
        ≤ ((max ex ey : Nat) : Int)) ∧
    (∀ k : Nat, 1 ≤ k → k < max ex ey →
      claimed_line_point (cursor_x s) (cursor_y s) c ex ey (k + 1)
        ≠ claimed_line_point (cursor_x s) (cursor_y s) c ex ey k ∧
      |(claimed_line_point (cursor_x s) (cursor_y s) c ex ey (k + 1)).1
          - (claimed_line_point (cursor_x s) (cursor_y s) c ex ey k).1| ≤ 1 ∧
      |(claimed_line_point (cursor_x s) (cursor_y s) c ex ey (k + 1)).2
          - (claimed_line_point (cursor_x s) (cursor_y s) c ex ey k).2| ≤ 1) := by
  obtain ⟨hp, hr⟩ := draw_line_plots_eq s c ex ey he
  have hlt := line_ef_lt c (read_io_reg s gdp_deltax) (read_io_reg s gdp_deltay)
    (Nat.mod_lt _ (by norm_num)) (Nat.mod_lt _ (by norm_num))
  rw [he] at hlt
  dsimp only at hlt
  have hrun : (draw_line_run s c).s = plot_all s (draw_line_plots s c) := by
    rw [hp, hr, draw_line_loop_plot_all]
  refine ⟨?_, hrun, ?_, fun k hk1 hk2 => ⟨?_, ?_, ?_⟩, fun k _ hk2 => ?_⟩
  · rw [hp, draw_line_trace_length]
  · rw [draw_line_graphmem, hrun]
  · rw [hp, claimed_line_point_eq, ← claimed_line_sign_x, ← claimed_line_sign_y]
    exact draw_line_trace_point _ _ _ (max ex ey) (min ex ey) (by omega) (by omega) s _ _
      (cursor_lt s).1 (cursor_lt s).2 _ _ rfl rfl k hk1 hk2
  · exact claimed_line_point_ne_start _ _ _ _ _ _ hk1
  · exact claimed_minor_offset_near k _ _ (by omega)
  · exact claimed_line_point_step _ _ _ _ _ _ hk2

/-- Instance of C26 in `slope_demo_state` (delta-x = 5, delta-y = 3, cursor (100,100)) with
the command 0x11: five points are plotted, the third is (103,102). -/
theorem draw_line_bresenham_witness :
    (draw_line_plots slope_demo_state 0x11).length = 5 ∧
    (draw_line_plots slope_demo_state 0x11)[2]? = some (103, 102) :=
  ⟨(draw_line_bresenham slope_demo_state 0x11 5 3 (by decide)).1,
   (((draw_line_bresenham slope_demo_state 0x11 5 3 (by decide)).2.2.2.1 3 (by decide)
      (by decide)).1).trans (by decide)⟩

/-! ## The points plotted by `draw_char` -/

theorem plot_all_append (s : GdpState) (L1 L2 : List (Int × Int)) :
    plot_all s (L1 ++ L2) = plot_all (plot_all s L1) L2 := by
  unfold plot_all
  rw [List.foldl_append]

theorem plots_none (s : GdpState) : Plots s s (fun _ => False) :=
  ⟨[], rfl, fun q => by simp⟩

theorem plots_single (s : GdpState) (p : Int × Int) :
    Plots s (plot_pixel s p.1 p.2) (fun q => q = p) :=
  ⟨[p], rfl, fun q => by simp⟩

theorem plots_trans {s t u : GdpState} {P Q : Int × Int → Prop} (h1 : Plots s t P)
    (h2 : Plots t u Q) : Plots s u (fun q => P q ∨ Q q) := by
  obtain ⟨L1, e1, m1⟩ := h1
  obtain ⟨L2, e2, m2⟩ := h2
  refine ⟨L1 ++ L2, ?_, fun q => ?_⟩
  · rw [plot_all_append, ← e1, ← e2]
  · rw [List.mem_append, m1, m2]

theorem plots_congr {s t : GdpState} {P Q : Int × Int → Prop} (h : ∀ q, P q ↔ Q q)
    (h1 : Plots s t P) : Plots s t Q := by
  obtain ⟨L, e, m⟩ := h1
  exact ⟨L, e, fun q => (m q).trans (h q)⟩

/-- A loop `for (k = 0; k < n; ++k)` over the variables of `draw_char`: if each pass keeps
the invariant and plots the points `Pt k`, the loop plots the points of all passes. -/
theorem plots_foldl_range (f : CharLoop → Nat → CharLoop) (Inv : Nat → CharLoop → Prop)
    (Pt : Nat → Int × Int → Prop) (st : CharLoop) (h0 : Inv 0 st) :
    ∀ n : Nat,
      (∀ (k : Nat) (st1 : CharLoop), k < n → Inv k st1 →
        Inv (k + 1) (f st1 k) ∧ Plots st1.s (f st1 k).s (Pt k)) →
      Inv n ((List.range n).foldl f st) ∧
      Plots st.s ((List.range n).foldl f st).s (fun q => ∃ k : Nat, k < n ∧ Pt k q) := by
  intro n
  induction n with
  | zero =>
    intro _
    refine ⟨h0, plots_congr (fun q => ?_) (plots_none st.s)⟩
    constructor
    · exact fun h => h.elim
    · rintro ⟨k, hk, _⟩
      omega
  | succ n ih =>
    intro hstep
    obtain ⟨i1, i2⟩ := ih (fun k st1 hk hi => hstep k st1 (by omega) hi)
    rw [List.range_succ, List.foldl_append, List.foldl_cons, List.foldl_nil]
    obtain ⟨j1, j2⟩ := hstep n _ (by omega) i1
    refine ⟨j1, plots_congr (fun q => ?_) (plots_trans i2 j2)⟩
    constructor
    · rintro (⟨k, hk, hq⟩ | hq)
      · exact ⟨k, by omega, hq⟩
      · exact ⟨n, by omega, hq⟩
    · rintro ⟨k, hk, hq⟩
      by_cases hkn : k = n
      · subst hkn
        exact Or.inr hq
      · exact Or.inl ⟨k, by omega, hq⟩

theorem draw_char_dot_plots (ctrlreg2 ldat j : Nat) (st : CharLoop) :
    (draw_char_dot ctrlreg2 ldat j st).x_plot = st.x_plot + char_skew ctrlreg2 ∧
    (draw_char_dot ctrlreg2 ldat j st).y_plot = st.y_plot + 1 ∧
    (draw_char_dot ctrlreg2 ldat j st).pos_buf = st.pos_buf ∧
    Plots st.s (draw_char_dot ctrlreg2 ldat j st).s
      (fun q => ldat &&& (0x80 >>> j) ≠ 0 ∧ q = char_plot_args ctrlreg2 st.x_plot st.y_plot) := by
  refine ⟨?_, rfl, rfl, ?_⟩
  · unfold draw_char_dot char_skew char_dir
    dsimp only
    split
    · rfl
    · rw [add_zero]
  · unfold draw_char_dot
    dsimp only
    by_cases hb : ldat &&& (0x80 >>> j) ≠ 0
    · rw [if_pos hb]
      have e : (if ctrlreg2 &&& 0x8 ≠ 0 then plot_pixel st.s st.y_plot st.x_plot
            else plot_pixel st.s st.x_plot st.y_plot)
          = plot_pixel st.s (char_plot_args ctrlreg2 st.x_plot st.y_plot).1
              (char_plot_args ctrlreg2 st.x_plot st.y_plot).2 := by
        unfold char_plot_args
        split <;> rfl
      rw [e]
      exact plots_congr (fun q => ⟨fun h => ⟨hb, h⟩, fun h => h.2⟩) (plots_single st.s _)
    · rw [if_neg hb]
      exact plots_congr (fun q => ⟨fun h => h.elim, fun h => hb h.1⟩) (plots_none st.s)

/-- The loop `for (jsi = 0; jsi < size_y; ++jsi)` of `draw_char`. -/
theorem draw_char_row_plots (ctrlreg2 ldat size_y j : Nat) (st : CharLoop) :
    ((List.range size_y).foldl (fun st2 _ => draw_char_dot ctrlreg2 ldat j st2) st).x_plot
      = st.x_plot + (size_y : Int) * char_skew ctrlreg2 ∧
    ((List.range size_y).foldl (fun st2 _ => draw_char_dot ctrlreg2 ldat j st2) st).y_plot
      = st.y_plot + (size_y : Int) ∧
    ((List.range size_y).foldl (fun st2 _ => draw_char_dot ctrlreg2 ldat j st2) st).pos_buf
      = st.pos_buf ∧
    Plots st.s ((List.range size_y).foldl (fun st2 _ => draw_char_dot ctrlreg2 ldat j st2) st).s
      (fun q => ∃ m : Nat, m < size_y ∧ ldat &&& (0x80 >>> j) ≠ 0 ∧
        q = char_plot_args ctrlreg2 (st.x_plot + (m : Int) * char_skew ctrlreg2)
              (st.y_plot + (m : Int))) := by
  have h := plots_foldl_range (fun st2 _ => draw_char_dot ctrlreg2 ldat j st2)
    (fun k st1 => st1.x_plot = st.x_plot + (k : Int) * char_skew ctrlreg2 ∧
      st1.y_plot = st.y_plot + (k : Int) ∧ st1.pos_buf = st.pos_buf)
    (fun m q => ldat &&& (0x80 >>> j) ≠ 0 ∧
        q = char_plot_args ctrlreg2 (st.x_plot + (m : Int) * char_skew ctrlreg2)
              (st.y_plot + (m : Int)))
    st ⟨by simp, by simp, rfl⟩ size_y (by
      intro k st1 _ hi
      obtain ⟨a1, a2, a3⟩ := hi
      obtain ⟨b1, b2, b3, b4⟩ := draw_char_dot_plots ctrlreg2 ldat j st1
      dsimp only
      refine ⟨⟨?_, ?_, ?_⟩, ?_⟩
      · rw [b1, a1]
        push_cast
        ring
      · rw [b2, a2]
        push_cast
        ring
      · rw [b3, a3]
      · rw [a1, a2] at b4
        exact b4)
  exact ⟨h.1.1, h.1.2.1, h.1.2.2, h.2⟩

/-- The loops `for j < 8` and `for jsi < size_y` of `draw_char`. -/
theorem draw_char_column_plots (ctrlreg2 ldat size_y : Nat) (st : CharLoop) :
    (draw_char_column ctrlreg2 ldat size_y st).pos_buf = st.pos_buf ∧
    Plots st.s (draw_char_column ctrlreg2 ldat size_y st).s
      (fun q => ∃ j : Nat, j < 8 ∧ ∃ m : Nat, m < size_y ∧ ldat &&& (0x80 >>> j) ≠ 0 ∧
        q = char_plot_args ctrlreg2
              (st.x_plot + ((j * size_y + m : Nat) : Int) * char_skew ctrlreg2)
              (st.y_plot + ((j * size_y + m : Nat) : Int))) := by
  unfold draw_char_column
  have h := plots_foldl_range
    (fun st1 j => (List.range size_y).foldl (fun st2 _ => draw_char_dot ctrlreg2 ldat j st2) st1)
    (fun k st1 => st1.x_plot = st.x_plot + ((k * size_y : Nat) : Int) * char_skew ctrlreg2 ∧
      st1.y_plot = st.y_plot + ((k * size_y : Nat) : Int) ∧ st1.pos_buf = st.pos_buf)
    (fun j q => ∃ m : Nat, m < size_y ∧ ldat &&& (0x80 >>> j) ≠ 0 ∧
        q = char_plot_args ctrlreg2
              (st.x_plot + ((j * size_y + m : Nat) : Int) * char_skew ctrlreg2)
              (st.y_plot + ((j * size_y + m : Nat) : Int)))
    st ⟨by simp, by simp, rfl⟩ 8 (by
      intro k st1 _ hi
      obtain ⟨a1, a2, a3⟩ := hi
      obtain ⟨b1, b2, b3, b4⟩ := draw_char_row_plots ctrlreg2 ldat size_y k st1
      dsimp only
      refine ⟨⟨?_, ?_, ?_⟩, ?_⟩
      · rw [b1, a1]
        push_cast
        ring
      · rw [b2, a2]
        push_cast
        ring
      · rw [b3, a3]
      · refine plots_congr (fun q => ?_) b4
        have e1 : ∀ m : Nat, st1.x_plot + (m : Int) * char_skew ctrlreg2
            = st.x_plot + ((k * size_y + m : Nat) : Int) * char_skew ctrlreg2 := by
          intro m
          rw [a1]
          push_cast
          ring
        have e2 : ∀ m : Nat, st1.y_plot + (m : Int)
            = st.y_plot + ((k * size_y + m : Nat) : Int) := by
          intro m
          rw [a2]
          push_cast
          ring
        constructor
        · rintro ⟨m, hm, hb, hq⟩
          exact ⟨m, hm, hb, by rw [← e1, ← e2]; exact hq⟩
        · rintro ⟨m, hm, hb, hq⟩
          exact ⟨m, hm, hb, by rw [e1, e2]; exact hq⟩)
  exact ⟨h.1.2.2, h.2⟩

/-- One pass through the body of the `isi` loop of `draw_char`. -/
theorem draw_char_strip_plots (ctrlreg2 ldat size_y x_ref y_ref : Nat) (st : CharLoop) :
    (draw_char_strip ctrlreg2 ldat size_y x_ref y_ref st).pos_buf
      = st.pos_buf + char_dir ctrlreg2 ∧
    Plots st.s (draw_char_strip ctrlreg2 ldat size_y x_ref y_ref st).s
      (fun q => ∃ j : Nat, j < 8 ∧ ∃ m : Nat, m < size_y ∧ ldat &&& (0x80 >>> j) ≠ 0 ∧
        q = char_dot_point ctrlreg2 st.pos_buf (char_base ctrlreg2 x_ref y_ref) 0
              (j * size_y + m)) := by
  obtain ⟨b1, b2⟩ := draw_char_column_plots ctrlreg2 ldat size_y
    { s := st.s, x_plot := st.pos_buf,
      y_plot := if ctrlreg2 &&& 0x8 ≠ 0 then (x_ref : Int) else (y_ref : Int),
      pos_buf := st.pos_buf }
  dsimp only at b1 b2
  unfold draw_char_strip
  dsimp only
  refine ⟨?_, ?_⟩
  · rw [b1]
    rfl
  · refine plots_congr (fun q => ?_) b2
    unfold char_dot_point char_base
    simp only [Nat.cast_zero, zero_mul, add_zero]

theorem char_dot_point_shift (ctrlreg2 : Nat) (pos0 base : Int) (p0 p t : Nat) :
    char_dot_point ctrlreg2 (pos0 + (p0 : Int) * char_dir ctrlreg2) base p t
      = char_dot_point ctrlreg2 pos0 base (p0 + p) t := by
  unfold char_dot_point
  congr 1
  push_cast
  ring

/-- The loop `for (isi = 0; isi < size_x; ++isi)` of `draw_char`. -/
theorem draw_char_strips_plots (ctrlreg2 ldat size_x size_y x_ref y_ref : Nat)
    (st : CharLoop) :
    ((List.range size_x).foldl
        (fun st2 _ => draw_char_strip ctrlreg2 ldat size_y x_ref y_ref st2) st).pos_buf
      = st.pos_buf + (size_x : Int) * char_dir ctrlreg2 ∧
    Plots st.s ((List.range size_x).foldl
        (fun st2 _ => draw_char_strip ctrlreg2 ldat size_y x_ref y_ref st2) st).s
      (fun q => ∃ isi : Nat, isi < size_x ∧ ∃ j : Nat, j < 8 ∧ ∃ m : Nat, m < size_y ∧
        ldat &&& (0x80 >>> j) ≠ 0 ∧
        q = char_dot_point ctrlreg2 st.pos_buf (char_base ctrlreg2 x_ref y_ref) isi
              (j * size_y + m)) := by
  have h := plots_foldl_range
    (fun st2 _ => draw_char_strip ctrlreg2 ldat size_y x_ref y_ref st2)
    (fun k st1 => st1.pos_buf = st.pos_buf + (k : Int) * char_dir ctrlreg2)
    (fun isi q => ∃ j : Nat, j < 8 ∧ ∃ m : Nat, m < size_y ∧
        ldat &&& (0x80 >>> j) ≠ 0 ∧
        q = char_dot_point ctrlreg2 st.pos_buf (char_base ctrlreg2 x_ref y_ref) isi
              (j * size_y + m))
    st (by simp) size_x (by
      intro k st1 _ hi
      obtain ⟨b1, b2⟩ := draw_char_strip_plots ctrlreg2 ldat size_y x_ref y_ref st1
      dsimp only at hi ⊢
      refine ⟨?_, ?_⟩
      · rw [b1, hi]
        push_cast
        ring
      · rw [hi] at b2
        refine plots_congr (fun q => ?_) b2
        simp only [char_dot_point_shift, add_zero])
  exact h

/-- The loops `for i < 5` and `for isi < size_x` of `draw_char`, on glyph `c`. -/
theorem draw_char_glyph_plots (ctrlreg2 c size_x size_y x_ref y_ref : Nat) (st : CharLoop) :
    Plots st.s (draw_char_glyph ctrlreg2 c size_x size_y x_ref y_ref st).s
      (fun q => ∃ i : Nat, i < 5 ∧ ∃ isi : Nat, isi < size_x ∧ ∃ j : Nat, j < 8 ∧
        ∃ m : Nat, m < size_y ∧ charset_byte c i &&& (0x80 >>> j) ≠ 0 ∧
        q = char_dot_point ctrlreg2 st.pos_buf (char_base ctrlreg2 x_ref y_ref)
              (i * size_x + isi) (j * size_y + m)) := by
  unfold draw_char_glyph
  have h := plots_foldl_range
    (fun st1 i => (List.range size_x).foldl
      (fun st2 _ => draw_char_strip ctrlreg2 (charset_byte c i) size_y x_ref y_ref st2) st1)
    (fun k st1 => st1.pos_buf = st.pos_buf + ((k * size_x : Nat) : Int) * char_dir ctrlreg2)
    (fun i q => ∃ isi : Nat, isi < size_x ∧ ∃ j : Nat, j < 8 ∧
        ∃ m : Nat, m < size_y ∧ charset_byte c i &&& (0x80 >>> j) ≠ 0 ∧
        q = char_dot_point ctrlreg2 st.pos_buf (char_base ctrlreg2 x_ref y_ref)
              (i * size_x + isi) (j * size_y + m))
    st (by simp) 5 (by
      intro k st1 _ hi
      obtain ⟨b1, b2⟩ := draw_char_strips_plots ctrlreg2 (charset_byte c k) size_x size_y
        x_ref y_ref st1
      dsimp only at hi ⊢
      refine ⟨?_, ?_⟩
      · rw [b1, hi]
        push_cast
        ring
      · rw [hi] at b2
        refine plots_congr (fun q => ?_) b2
        simp only [char_dot_point_shift])
  exact h.2

/-- With the pen down `draw_char` plots the points `char_plotted` of the glyph; with the
pen up it plots nothing. -/
theorem draw_char_render_plots (s : GdpState) (a : Nat) :
    (read_io_reg s gdp_ctrl1 &&& 0x1 ≠ 0 →
      Plots s (draw_char_render s a)
        (char_plotted (read_io_reg s gdp_ctrl2) (char_index a)
          (char_size_x (read_io_reg s gdp_csize)) (char_size_y (read_io_reg s gdp_csize))
          (cursor_x s) (cursor_y s))) ∧
    (read_io_reg s gdp_ctrl1 &&& 0x1 = 0 → draw_char_render s a = s) := by
  refine ⟨fun h => ?_, fun h => draw_char_render_pen_up s a h⟩
  unfold draw_char_render
  dsimp only
  rw [if_pos h]
  exact draw_char_glyph_plots _ _ _ _ _ _ _

/-! ## The pixels of a glyph -/

theorem plot_pixel_ctrl1 (s : GdpState) (X Y : Int) :
    read_io_reg (plot_pixel s X Y) gdp_ctrl1 = read_io_reg s gdp_ctrl1 := by
  unfold read_io_reg
  rw [(plot_pixel_sameRegs s X Y).1]

theorem plot_pixel_pixel_set_iff (s : GdpState) (q : Int × Int) (x y : Nat) (hx : x < 512)
    (hy : y < 256) (hc : read_io_reg s gdp_ctrl1 &&& 3 = 3) :
    pixel_set (plot_pixel s q.1 q.2) x y = true
      ↔ (pixel_set s x y = true ∨ q = ((x : Int), (y : Int))) := by
  obtain ⟨X, Y⟩ := q
  dsimp only
  by_cases hg : 0 ≤ X ∧ X < 512 ∧ 0 ≤ Y ∧ Y < 256
  · obtain ⟨xn, rfl⟩ := Int.eq_ofNat_of_zero_le hg.1
    obtain ⟨yn, rfl⟩ := Int.eq_ofNat_of_zero_le hg.2.2.1
    rw [plot_pixel_pixel_set s xn yn x y (by omega) (by omega) hx hy hc, Bool.or_eq_true,
      decide_eq_true_eq, Prod.mk.injEq]
    constructor
    · rintro (⟨e1, e2⟩ | h)
      · exact Or.inr ⟨by rw [e1], by rw [e2]⟩
      · exact Or.inl h
    · rintro (h | ⟨e1, e2⟩)
      · exact Or.inr h
      · exact Or.inl ⟨by omega, by omega⟩
  · rw [plot_pixel_out_of_range s X Y (by omega), Prod.mk.injEq]
    constructor
    · exact fun h => Or.inl h
    · rintro (h | ⟨e1, e2⟩)
      · exact h
      · exact absurd hg (by rw [e1, e2]; omega)

/-- With control1 bits 0-1 = 11 a pixel is set after a sequence of `plot_pixel` calls
iff it was set before or is one of the plotted points. -/
theorem plot_all_pixel_set (L : List (Int × Int)) :
    ∀ (s : GdpState) (x y : Nat), x < 512 → y < 256 → read_io_reg s gdp_ctrl1 &&& 3 = 3 →
      (pixel_set (plot_all s L) x y = true
        ↔ (pixel_set s x y = true ∨ ((x : Int), (y : Int)) ∈ L)) := by
  induction L with
  | nil =>
    intro s x y _ _ _
    simp [plot_all]
  | cons q L ih =>
    intro s x y hx hy hc
    rw [plot_all_cons, ih _ x y hx hy (by rw [plot_pixel_ctrl1]; exact hc),
      plot_pixel_pixel_set_iff s q x y hx hy hc, List.mem_cons]
    constructor
    · rintro ((h | h) | h)
      · exact Or.inl h
      · exact Or.inr (Or.inl h.symm)
      · exact Or.inr (Or.inr h)
    · rintro (h | h | h)
      · exact Or.inl (Or.inl h)
      · exact Or.inl (Or.inr h.symm)
      · exact Or.inr h

/-- A sequence of `plot_pixel` calls leaves every pixel that is not among its points as
it was, whatever the drawing mode. -/
theorem plot_all_pixel_set_other (L : List (Int × Int)) :
    ∀ (s : GdpState) (x y : Nat), x < 512 → y < 256 → ((x : Int), (y : Int)) ∉ L →
      pixel_set (plot_all s L) x y = pixel_set s x y := by
  induction L with
  | nil =>
    intro s x y _ _ _
    rfl
  | cons q L ih =>
    intro s x y hx hy hn
    rw [List.mem_cons, not_or] at hn
    rw [plot_all_cons, ih _ x y hx hy hn.2]
    apply plot_pixel_pixel_set_other s q.1 q.2 x y hx hy
    intro h
    exact hn.1 (Prod.ext h.1.symm h.2.symm)

theorem plot_all_drawFrame (L : List (Int × Int)) :
    ∀ s : GdpState, DrawFrame s (plot_all s L) := by
  induction L with
  | nil => intro s; exact drawFrame_refl s
  | cons q L ih =>
    intro s
    rw [plot_all_cons]
    exact drawFrame_trans (plot_pixel_drawFrame s q.1 q.2) (ih _)

theorem draw_char_pixel_set (s : GdpState) (a x y : Nat) :
    pixel_set (draw_char s a) x y = pixel_set (draw_char_render s a) x y := by
  have hw : (draw_char s a).graphmem_write = (draw_char_render s a).graphmem_write := by
    rw [(draw_char_pageFrame s a).1, (draw_char_render_drawFrame s a).1.2.2.1]
  unfold pixel_set
  rw [draw_char_graphmem, hw]

set_option maxRecDepth 100000 in
theorem and_3_pen_down : ∀ v : Nat, v < 256 → v &&& 3 = 3 → v &&& 0x1 ≠ 0 := by
  decide

set_option maxRecDepth 100000 in
theorem low_nibble_eq : ∀ siz : Nat, siz < 256 → siz &&& 0xF = siz % 16 := by
  decide

theorem char_size_y_eq_claimed (s : GdpState) :
    char_size_y (read_io_reg s gdp_csize) = claimed_y_scale (read_io_reg s gdp_csize) := by
  have h : read_io_reg s gdp_csize < 256 := Nat.mod_lt _ (by decide)
  unfold char_size_y claimed_y_scale
  rw [low_nibble_eq _ h]

/-- The points of a glyph when the text is horizontal and not skewed. -/
theorem char_dot_point_plain (ctrlreg2 x_ref y_ref p t : Nat) (h2 : ctrlreg2 &&& 0x4 = 0)
    (h3 : ctrlreg2 &&& 0x8 = 0) :
    char_dot_point ctrlreg2 (char_pos0 ctrlreg2 x_ref y_ref) (char_base ctrlreg2 x_ref y_ref)
        p t
      = (((x_ref + p : Nat) : Int), ((y_ref + t : Nat) : Int)) := by
  unfold char_dot_point char_plot_args char_pos0 char_base char_skew char_dir
  rw [if_neg (fun e => e h3), if_neg (fun e => e h3), if_neg (fun e => e h3),
    if_neg (fun e => e h2), if_neg (fun e => e h3)]
  push_cast
  simp only [mul_one, mul_zero, add_zero]

theorem char_plotted_plain (ctrlreg2 c sx sy x0 y0 x y : Nat) (h2 : ctrlreg2 &&& 0x4 = 0)
    (h3 : ctrlreg2 &&& 0x8 = 0) :
    char_plotted ctrlreg2 c sx sy x0 y0 ((x : Int), (y : Int))
      ↔ claimed_glyph_pixel c sx sy x0 y0 x y := by
  unfold char_plotted claimed_glyph_pixel
  constructor
  · rintro ⟨i, hi, isi, hisi, j, hj, m, hm, hb, hq⟩
    rw [char_dot_point_plain _ _ _ _ _ h2 h3, Prod.mk.injEq] at hq
    have e1 : (i + 1) * sx = i * sx + sx := by ring
    have e2 : (j + 1) * sy = j * sy + sy := by ring
    refine ⟨i, hi, j, hj, ?_, ?_, ?_, ?_, hb⟩ <;> omega
  · rintro ⟨i, hi, j, hj, a1, a2, a3, a4, hb⟩
    have e1 : (i + 1) * sx = i * sx + sx := by ring
    have e2 : (j + 1) * sy = j * sy + sy := by ring
    refine ⟨i, hi, x - (x0 + i * sx), by omega, j, hj, y - (y0 + j * sy), by omega, hb, ?_⟩
    rw [char_dot_point_plain _ _ _ _ _ h2 h3, Prod.mk.injEq]
    constructor <;> omega

/-- C25: starting from an all-zero draw page with control1 bits 0-1 = 11 and control2
bits 2 and 3 clear, for every character code `a` (glyph index g = `char_index a`, which
takes every value 0..96), every size byte and every cursor (x0,y0): after `draw_char a`
an in-range pixel (x,y) is set iff there are i < 5 and j < 8 with
x0 + i*sx <= x < x0 + (i+1)*sx, y0 + j*sy <= y < y0 + (j+1)*sy and bit (0x80 >> j) of
`charset[g][i]` set, where sx and sy are the high and the low nibble of the size byte, a
nibble of 0 giving scale 16, so that both lie in 1..16. -/
theorem draw_char_glyph_footprint (s : GdpState) (a : Nat)
    (h1 : read_io_reg s gdp_ctrl1 &&& 0x3 = 0x3)
    (h2 : read_io_reg s gdp_ctrl2 &&& 0x4 = 0) (h3 : read_io_reg s gdp_ctrl2 &&& 0x8 = 0)
    (hz : ∀ i : Nat, s.graphmem_write ≤ i → i < s.graphmem_write + 4096 →
      s.graphmem_4p i = 0) :
    (∀ x y : Nat, x < 512 → y < 256 →
      (pixel_set (draw_char s a) x y = true
        ↔ claimed_glyph_pixel (char_index a) (claimed_x_scale (read_io_reg s gdp_csize))
            (claimed_y_scale (read_io_reg s gdp_csize)) (cursor_x s) (cursor_y s) x y)) ∧
    char_size_x (read_io_reg s gdp_csize) = claimed_x_scale (read_io_reg s gdp_csize) ∧
    char_size_y (read_io_reg s gdp_csize) = claimed_y_scale (read_io_reg s gdp_csize) ∧
    1 ≤ claimed_x_scale (read_io_reg s gdp_csize) ∧
    claimed_x_scale (read_io_reg s gdp_csize) ≤ 16 ∧
    1 ≤ claimed_y_scale (read_io_reg s gdp_csize) ∧
    claimed_y_scale (read_io_reg s gdp_csize) ≤ 16 ∧
    (∀ g : Nat, g ≤ 96 → char_index (g + 0x20) = g) := by
  have hsiz : read_io_reg s gdp_csize < 256 := Nat.mod_lt _ (by decide)
  refine ⟨fun x y hx hy => ?_, char_size_x_eq_claimed s, char_size_y_eq_claimed s, ?_, ?_,
    ?_, ?_, ?_⟩
  · have hpen : read_io_reg s gdp_ctrl1 &&& 0x1 ≠ 0 :=
      and_3_pen_down _ (Nat.mod_lt _ (by decide)) h1
    obtain ⟨L, hL, hmem⟩ := (draw_char_render_plots s a).1 hpen
    have hzero : pixel_set s x y = false := by
      unfold pixel_set
      rw [hz _ (by omega) (by have := pixel_mpos_lt x y; omega)]
      exact Nat.zero_testBit _
    rw [draw_char_pixel_set, hL, plot_all_pixel_set L s x y hx hy h1, hmem, hzero,
      ← char_size_x_eq_claimed, ← char_size_y_eq_claimed,
      char_plotted_plain _ _ _ _ _ _ _ _ h2 h3]
    simp only [Bool.false_eq_true, false_or]
  · unfold claimed_x_scale
    split <;> omega
  · unfold claimed_x_scale
    split <;> omega
  · unfold claimed_y_scale
    split <;> omega
  · unfold claimed_y_scale
    split <;> omega
  · intro g hg
    unfold char_index
    rw [if_neg (by omega)]
    omega

/-- Instance of C25 in `char_demo_state` (size byte 0x21, cursor (100,100)) with the
letter A (glyph 33, first column 0x7E): pixel (100,101) is set and pixel (100,100) is
not. -/
theorem draw_char_glyph_footprint_witness :
    pixel_set (draw_char char_demo_state 0x41) 100 101 = true ∧
    ¬ pixel_set (draw_char char_demo_state 0x41) 100 100 = true :=
  ⟨((draw_char_glyph_footprint char_demo_state 0x41 (by decide) (by decide) (by decide)
      (fun _ _ _ => rfl)).1 100 101 (by decide) (by decide)).2
      (by unfold claimed_glyph_pixel; decide),
   fun h => absurd
    (((draw_char_glyph_footprint char_demo_state 0x41 (by decide) (by decide) (by decide)
      (fun _ _ _ => rfl)).1 100 100 (by decide) (by decide)).1 h)
      (by unfold claimed_glyph_pixel; decide)⟩

/-! ## Consecutive characters -/

theorem char_strip_lt (i isi size_x : Nat) (hi : i < 5) (hisi : isi < size_x) :
    i * size_x + isi < 5 * size_x := by
  have h : i * size_x ≤ 4 * size_x := Nat.mul_le_mul_right size_x (by omega)
  omega

theorem char_dot_lt (j m size_y : Nat) (hj : j < 8) (hm : m < size_y) :
    j * size_y + m < 8 * size_y := by
  have h : j * size_y ≤ 7 * size_y := Nat.mul_le_mul_right size_y (by omega)
  omega

/-- Every point that `draw_char` plots lies in the cell of the character. -/
theorem char_plotted_footprint (s : GdpState) (c x y : Nat)
    (h : char_plotted (read_io_reg s gdp_ctrl2) c (char_size_x (read_io_reg s gdp_csize))
      (char_size_y (read_io_reg s gdp_csize)) (cursor_x s) (cursor_y s)
      ((x : Int), (y : Int))) :
    char_footprint s x y := by
  obtain ⟨i, hi, isi, hisi, j, hj, m, hm, _, hq⟩ := h
  exact ⟨i * char_size_x (read_io_reg s gdp_csize) + isi, char_strip_lt _ _ _ hi hisi,
    j * char_size_y (read_io_reg s gdp_csize) + m, char_dot_lt _ _ _ hj hm, hq⟩

/-- The function `draw_char` changes no pixel outside the cell of the character. -/
theorem draw_char_outside_footprint (s : GdpState) (a x y : Nat) (hx : x < 512)
    (hy : y < 256) (hn : ¬ char_footprint s x y) :
    pixel_set (draw_char s a) x y = pixel_set s x y := by
  rw [draw_char_pixel_set]
  by_cases hpen : read_io_reg s gdp_ctrl1 &&& 0x1 = 0
  · rw [(draw_char_render_plots s a).2 hpen]
  · obtain ⟨L, hL, hmem⟩ := (draw_char_render_plots s a).1 hpen
    rw [hL]
    apply plot_all_pixel_set_other L s x y hx hy
    intro hin
    exact hn (char_plotted_footprint s _ x y ((hmem _).1 hin))

theorem pixel_addr_surjective (w k : Nat) (hw : w < 4096) (hk : k < 32) :
    ∃ x : Nat, x < 512 ∧ ∃ y : Nat, y < 256 ∧ pixel_mpos x y = w ∧ pixel_bpos x = k := by
  refine ⟨32 * (w % 16) + (31 - k), by omega, 255 - w / 16, by omega, ?_, ?_⟩
  · rw [pixel_mpos_eq]
    omega
  · rw [pixel_bpos_eq]
    omega

/-- The function `draw_char` changes no bit of the graphics memory that does not show a
pixel of the cell of the character. -/
theorem draw_char_outside_bits (s : GdpState) (a i k : Nat) (hk : k < 32)
    (hn : ¬ char_modifiable_bit s i k) :
    ((draw_char s a).graphmem_4p i).testBit k = (s.graphmem_4p i).testBit k := by
  by_cases hin : s.graphmem_write ≤ i ∧ i < s.graphmem_write + 4096
  · obtain ⟨x, hx, y, hy, hm, hb⟩ := pixel_addr_surjective (i - s.graphmem_write) k
      (by omega) hk
    have hi : i = s.graphmem_write + pixel_mpos x y := by omega
    have hf : ¬ char_footprint s x y := fun hf => hn ⟨x, hx, y, hy, hf, hi, hb.symm⟩
    have h := draw_char_outside_footprint s a x y hx hy hf
    unfold pixel_set at h
    rw [(draw_char_pageFrame s a).1, ← hi, hb] at h
    exact h
  · rw [(draw_char_pageFrame s a).2 i hin]

theorem draw_char_other_reg (s : GdpState) (a adr : Nat) (h1 : adr ≠ gdp_xmsb)
    (h2 : adr ≠ gdp_xlsb) (h3 : adr ≠ gdp_ymsb) (h4 : adr ≠ gdp_ylsb) :
    (draw_char s a).z80_mem adr = s.z80_mem adr := by
  have hz : (draw_char_render s a).z80_mem = s.z80_mem := (draw_char_render_drawFrame s a).1.1
  unfold draw_char
  dsimp only
  split
  · rw [write_io_reg_other _ _ _ _ h4, write_io_reg_other _ _ _ _ h3, hz]
  · rw [write_io_reg_other _ _ _ _ h2, write_io_reg_other _ _ _ _ h1, hz]

/-- The points of the cell of a character, by the orientation: `e` is 1 with skew and 0
without. -/
theorem char_dot_point_cases (ctrlreg2 : Nat) :
    ∃ e : Int, (e = 0 ∨ e = 1) ∧
      ((ctrlreg2 &&& 0x8 = 0 → ∀ x0 y0 p t : Nat,
        char_dot_point ctrlreg2 (char_pos0 ctrlreg2 x0 y0) (char_base ctrlreg2 x0 y0) p t
          = ((x0 : Int) + (p : Int) + e * (t : Int), (y0 : Int) + (t : Int))) ∧
       (ctrlreg2 &&& 0x8 ≠ 0 → ∀ x0 y0 p t : Nat,
        char_dot_point ctrlreg2 (char_pos0 ctrlreg2 x0 y0) (char_base ctrlreg2 x0 y0) p t
          = ((x0 : Int) + (t : Int), (y0 : Int) - (p : Int) - e * (t : Int)))) := by
  by_cases h2 : ctrlreg2 &&& 0x4 = 0
  · refine ⟨0, Or.inl rfl, fun h3 x0 y0 p t => ?_, fun h3 x0 y0 p t => ?_⟩
    · unfold char_dot_point char_plot_args char_pos0 char_base char_skew char_dir
      simp only [h2, h3, ne_eq, not_true_eq_false, if_false]
      refine Prod.ext ?_ rfl
      dsimp only
      ring
    · unfold char_dot_point char_plot_args char_pos0 char_base char_skew char_dir
      simp only [h2, h3, ne_eq, not_true_eq_false, not_false_eq_true, if_false, if_true]
      refine Prod.ext rfl ?_
      dsimp only
      ring
  · refine ⟨1, Or.inr rfl, fun h3 x0 y0 p t => ?_, fun h3 x0 y0 p t => ?_⟩
    · unfold char_dot_point char_plot_args char_pos0 char_base char_skew char_dir
      simp only [h2, h3, ne_eq, not_true_eq_false, not_false_eq_true, if_false, if_true]
      refine Prod.ext ?_ rfl
      dsimp only
      ring
    · unfold char_dot_point char_plot_args char_pos0 char_base char_skew char_dir
      simp only [h2, h3, ne_eq, not_false_eq_true, if_true]
      refine Prod.ext rfl ?_
      dsimp only
      ring

theorem char_size_bounds (siz : Nat) (h : siz < 256) :
    1 ≤ char_size_x siz ∧ char_size_x siz ≤ 16 ∧ 1 ≤ char_size_y siz ∧
    char_size_y siz ≤ 16 := by
  unfold char_size_x char_size_y
  rw [high_nibble_eq siz h, low_nibble_eq siz h]
  refine ⟨?_, ?_, ?_, ?_⟩ <;> split <;> omega

/-- The cell of a character and the cell of the character that follows it share no pixel
of the screen. -/
theorem char_footprint_disjoint (s : GdpState) (a x y : Nat) (hx : x < 512) (hy : y < 256)
    (h1 : char_footprint s x y) (h2 : char_footprint (draw_char s a) x y) : False := by
  have r2 : read_io_reg (draw_char s a) gdp_ctrl2 = read_io_reg s gdp_ctrl2 := by
    unfold read_io_reg
    rw [draw_char_other_reg s a _ (by decide) (by decide) (by decide) (by decide)]
  have r3 : read_io_reg (draw_char s a) gdp_csize = read_io_reg s gdp_csize := by
    unfold read_io_reg
    rw [draw_char_other_reg s a _ (by decide) (by decide) (by decide) (by decide)]
  obtain ⟨cx, cy⟩ := cursor_lt s
  obtain ⟨b1, b2, b3, b4⟩ := char_size_bounds (read_io_reg s gdp_csize)
    (Nat.mod_lt _ (by decide))
  obtain ⟨hh, hv⟩ := draw_char_cursor_source s a
  obtain ⟨e, he, ph, pv⟩ := char_dot_point_cases (read_io_reg s gdp_ctrl2)
  unfold char_footprint at h1 h2
  rw [r2, r3] at h2
  obtain ⟨p, hp, t, ht, q1⟩ := h1
  obtain ⟨p2, hp2, t2, ht2, q2⟩ := h2
  generalize char_size_x (read_io_reg s gdp_csize) = sx at *
  generalize char_size_y (read_io_reg s gdp_csize) = sy at *
  by_cases h3 : read_io_reg s gdp_ctrl2 &&& 0x8 = 0
  · obtain ⟨n1, n2⟩ := hh h3
    rw [ph h3, Prod.mk.injEq] at q1 q2
    rw [n1, n2] at q2
    generalize cursor_x s = x0 at *
    generalize cursor_y s = y0 at *
    obtain ⟨q1x, q1y⟩ := q1
    obtain ⟨q2x, q2y⟩ := q2
    have et : t2 = t := by omega
    subst et
    have hw : (x0 + 6 * sx) % 65536 = x0 + 6 * sx ∨ 65440 ≤ x0 := by omega
    rcases hw with hw | hw
    · rw [hw] at q2x
      rcases he with rfl | rfl <;> omega
    · rcases he with rfl | rfl <;> omega
  · obtain ⟨n1, n2⟩ := hv h3
    rw [pv h3, Prod.mk.injEq] at q1 q2
    rw [n1, n2] at q2
    generalize cursor_x s = x0 at *
    generalize cursor_y s = y0 at *
    obtain ⟨q1x, q1y⟩ := q1
    obtain ⟨q2x, q2y⟩ := q2
    have et : t2 = t := by omega
    subst et
    have hw : (y0 + 6 * sx) % 65536 = y0 + 6 * sx ∨ 65440 ≤ y0 := by omega
    rcases hw with hw | hw
    · rw [hw] at q2y
      rcases he with rfl | rfl <;> omega
    · rcases he with rfl | rfl <;> omega

/-- C27: for every state (any control1 and control2 bits, any size byte, any 16-bit cursor)
and any character codes a and b: `draw_char a` changes no bit of the graphics memory
outside the cell of its character (`char_modifiable_bit`: the pixels at strip p < 5*size_x
and dot t < 8*size_y from the cursor), the `draw_char b` that follows changes no bit
outside the cell at the advanced cursor, and the two cells share no bit and no pixel,
also when the 16-bit cursor wraps. -/
theorem draw_char_no_overlap (s : GdpState) (a b : Nat) :
    (∀ i k : Nat, k < 32 → ¬ char_modifiable_bit s i k →
      ((draw_char s a).graphmem_4p i).testBit k = (s.graphmem_4p i).testBit k) ∧
    (∀ i k : Nat, k < 32 → ¬ char_modifiable_bit (draw_char s a) i k →
      ((draw_char (draw_char s a) b).graphmem_4p i).testBit k
        = ((draw_char s a).graphmem_4p i).testBit k) ∧
    (∀ i k : Nat, ¬ (char_modifiable_bit s i k ∧ char_modifiable_bit (draw_char s a) i k)) ∧
    (∀ x y : Nat, x < 512 → y < 256 →
      ¬ (char_footprint s x y ∧ char_footprint (draw_char s a) x y)) := by
  refine ⟨fun i k hk hn => draw_char_outside_bits s a i k hk hn,
    fun i k hk hn => draw_char_outside_bits (draw_char s a) b i k hk hn, ?_,
    fun x y hx hy h => char_footprint_disjoint s a x y hx hy h.1 h.2⟩
  rintro i k ⟨⟨x, hx, y, hy, hf, hi, hb⟩, ⟨x2, hx2, y2, hy2, hf2, hi2, hb2⟩⟩
  rw [(draw_char_pageFrame s a).1] at hi2
  obtain ⟨e1, e2⟩ := pixel_addr_injective x y x2 y2 hx hy hx2 hy2 (by omega) (by omega)
  subst e1
  subst e2
  exact char_footprint_disjoint s a x y hx hy hf hf2

theorem char_demo_footprint : char_footprint char_demo_state 100 100 := by
  unfold char_footprint
  exact ⟨0, by decide, 0, by decide, by decide⟩

/-- Instance of C27 in `char_demo_state` (cursor (100,100), size byte 0x21) with the
letters A and B: pixel (100,100) lies in the cell of the first character and therefore
not in the cell of the second. -/
theorem draw_char_no_overlap_witness :
    char_footprint char_demo_state 100 100 ∧
    ¬ char_footprint (draw_char char_demo_state 0x41) 100 100 :=
  ⟨char_demo_footprint,
   fun h => (draw_char_no_overlap char_demo_state 0x41 0x42).2.2.2 100 100 (by decide)
      (by decide) ⟨char_demo_footprint, h⟩⟩

end GDPico64
